import Mathlib

/-! Direct2D graphics device context of VSTGUI.

A shallow embedding of `vstgui/lib/platform/win32/direct2d/d2dgraphicscontext.cpp`.

* Coordinates (`CCoord`, a C++ `double`) are exact rationals.
* The native `ID2D1DeviceContext` is a record holding its current transform, the
  chronological list of calls issued to it, and the outcomes (`HRESULT` success or failure)
  the coming fallible calls will have.
* The context (`Impl`) is passed explicitly through every operation; a lambda handed to
  `doInContext` is a function on `Impl`.
* Undefined behaviour and failed assertions are the `none` of `Option`.
-/

namespace VSTGUI

/-! ## Geometry and value types (declared in headers outside this translation unit) -/

/-- Modelled from the spec: the coordinate type `CCoord` (a `double` in the headers). -/
abbrev CCoord := ℚ

/-- Modelled from the spec: `CPoint`, a pair of coordinates, default `(0, 0)`. -/
structure CPoint where
  x : CCoord := 0
  y : CCoord := 0
deriving DecidableEq, Repr

/-- Modelled from the spec: `CRect` with its four edges `{left, top, right, bottom}`;
the default rectangle is `{0, 0, 0, 0}`. -/
structure CRect where
  left : CCoord := 0
  top : CCoord := 0
  right : CCoord := 0
  bottom : CCoord := 0
deriving DecidableEq, Repr

namespace CRect

/-- Modelled from the spec: `CRect::isEmpty`, a rectangle without positive width or height
is empty. -/
def isEmpty (r : CRect) : Bool :=
  decide (r.right ≤ r.left) || decide (r.bottom ≤ r.top)

/-- Modelled from the spec: `CRect::offset`, translation of all four edges. -/
def offset (r : CRect) (p : CPoint) : CRect :=
  { left := r.left + p.x, top := r.top + p.y, right := r.right + p.x, bottom := r.bottom + p.y }

/-- Modelled from the spec: `CRect::inset`, each edge moves towards the centre. -/
def inset (r : CRect) (dx dy : CCoord) : CRect :=
  { left := r.left + dx, top := r.top + dy, right := r.right - dx, bottom := r.bottom - dy }

/-- Modelled from the spec: `CRect::getWidth`. -/
def getWidth (r : CRect) : CCoord := r.right - r.left

/-- Modelled from the spec: `CRect::getHeight`. -/
def getHeight (r : CRect) : CCoord := r.bottom - r.top

/-- Modelled from the spec: `CRect::setWidth`, the left edge stays. -/
def setWidth (r : CRect) (w : CCoord) : CRect := { r with right := r.left + w }

/-- Modelled from the spec: `CRect::setHeight`, the top edge stays. -/
def setHeight (r : CRect) (h : CCoord) : CRect := { r with bottom := r.top + h }

/-- Modelled from the spec: `CRect::getTopLeft`. -/
def getTopLeft (r : CRect) : CPoint := { x := r.left, y := r.top }

end CRect

/-- Modelled from the spec: `CPoint::offset`. -/
def CPoint.offset (p : CPoint) (dx dy : CCoord) : CPoint := { x := p.x + dx, y := p.y + dy }

/-- Modelled from the spec: `TransformMatrix` (`CGraphicsTransform`), an affine 2D transform
with the off-diagonal terms `m12`, `m21`; the default is the identity. -/
structure TransformMatrix where
  m11 : CCoord := 1
  m12 : CCoord := 0
  m21 : CCoord := 0
  m22 : CCoord := 1
  dx : CCoord := 0
  dy : CCoord := 0
deriving DecidableEq, Repr

namespace TransformMatrix

/-- Modelled from the spec: the product `×` of two transforms (`operator*`). -/
def mul (a t : TransformMatrix) : TransformMatrix :=
  { m11 := a.m11 * t.m11 + a.m12 * t.m21
    m21 := a.m21 * t.m11 + a.m22 * t.m21
    dx := a.m11 * t.dx + a.m12 * t.dy + a.dx
    m12 := a.m11 * t.m12 + a.m12 * t.m22
    m22 := a.m21 * t.m12 + a.m22 * t.m22
    dy := a.m21 * t.dx + a.m22 * t.dy + a.dy }

instance : Mul TransformMatrix := ⟨mul⟩

/-- Modelled from the spec: `scale (x, y)`, composition with a scaling. -/
def scale (m : TransformMatrix) (x y : CCoord) : TransformMatrix :=
  ({ m11 := x, m12 := 0, m21 := 0, m22 := y, dx := 0, dy := 0 } : TransformMatrix) * m

/-- Modelled from the spec: `translate (p)`, composition with a translation. -/
def translate (m : TransformMatrix) (p : CPoint) : TransformMatrix :=
  ({ m11 := 1, m12 := 0, m21 := 0, m22 := 1, dx := p.x, dy := p.y } : TransformMatrix) * m

/-- Modelled from the spec: `transform (CPoint&)`. -/
def transformPoint (m : TransformMatrix) (p : CPoint) : CPoint :=
  { x := m.m11 * p.x + m.m12 * p.y + m.dx, y := m.m21 * p.x + m.m22 * p.y + m.dy }

/-- Modelled from the spec: `transform (CRect&)`, the top-left and the bottom-right corner are
transformed. -/
def transform (m : TransformMatrix) (r : CRect) : CRect :=
  let tl := m.transformPoint { x := r.left, y := r.top }
  let br := m.transformPoint { x := r.right, y := r.bottom }
  { left := tl.x, top := tl.y, right := br.x, bottom := br.y }

end TransformMatrix

/-- Modelled from the spec: `CColor`, four 8-bit channels compared channel by channel. -/
structure CColor where
  red : Nat
  green : Nat
  blue : Nat
  alpha : Nat
deriving DecidableEq, Repr

/-- Modelled from the spec: `kTransparentCColor`. -/
def kTransparentCColor : CColor := ⟨255, 255, 255, 0⟩

/-- Modelled from the spec: `kRedCColor`. -/
def kRedCColor : CColor := ⟨255, 0, 0, 255⟩

/-- Line cap of `CLineStyle`. -/
inductive LineCap
  | kLineCapButt | kLineCapRound | kLineCapSquare
deriving DecidableEq, Repr

/-- Line join of `CLineStyle`. -/
inductive LineJoin
  | kLineJoinMiter | kLineJoinRound | kLineJoinBevel
deriving DecidableEq, Repr

/-- Modelled from the spec: `CLineStyle` (cap, join, dash pattern, dash phase), compared field
by field. -/
structure CLineStyle where
  cap : LineCap := .kLineCapButt
  join : LineJoin := .kLineJoinMiter
  dashPhase : CCoord := 0
  dashLengths : List CCoord := []
deriving DecidableEq, Repr

/-- Modelled from the spec: `kLineSolid`. -/
def kLineSolid : CLineStyle := {}

/-- Modelled from the spec: `CDrawMode`; only `integralMode ()` is read by this file. -/
structure CDrawMode where
  antiAliasing : Bool := false
  integralMode : Bool := true
deriving DecidableEq, Repr

/-- Draw style of the shape primitives. -/
inductive PlatformGraphicsDrawStyle
  | Filled | Stroked | FilledAndStroked
deriving DecidableEq, Repr

/-- Draw mode of `drawGraphicsPath`. -/
inductive PlatformGraphicsPathDrawMode
  | Filled | FilledEvenOdd | Stroked
deriving DecidableEq, Repr

/-- Interpolation quality of `drawBitmap`. -/
inductive BitmapInterpolationQuality
  | kLow | kMedium | kHigh
deriving DecidableEq, Repr

/-- A line, as a pair of points. -/
abbrev LinePair := CPoint × CPoint

/-- Helpers of the geometry headers whose results only end up as arguments of native draw
calls; they are parameters of the embedding. -/
structure GeometryHelpers where
  pixelAlignPoint : TransformMatrix → CPoint → CPoint
  pixelAlignRect : TransformMatrix → CRect → CRect
  makeIntegralPoint : CPoint → CPoint
  makeIntegralRect : CRect → CRect
  inverse : TransformMatrix → TransformMatrix

/-! ## Collaborators: paths, gradients, bitmaps -/

/-- One recorded element of a graphics path. -/
inductive PathElement
  | beginSubpath (p : CPoint)
  | addLine (p : CPoint)
  | addArc (rect : CRect) (startAngle endAngle : CCoord) (clockwise : Bool)
deriving DecidableEq, Repr

/-- An `IPlatformGraphicsPath`: either the native `D2DGraphicsPath` or a foreign
implementation (the `dynamic_cast` yields null). -/
inductive IPlatformGraphicsPath
  | d2d (elements : List PathElement)
  | foreign
deriving DecidableEq, Repr

/-- An `IPlatformGradient`: either the native `D2DGradient` or a foreign implementation. -/
inductive IPlatformGradient
  | d2d
  | foreign
deriving DecidableEq, Repr

/-- An `IPlatformBitmap`: either the native `D2DBitmap` (with or without a source, with its
scale factor, its size and the size of its device bitmap) or a foreign implementation. -/
inductive IPlatformBitmap
  | d2d (hasSource : Bool) (scaleFactor : CCoord) (size : CPoint) (deviceSize : CPoint)
  | foreign
deriving DecidableEq, Repr

/-- The native geometry obtained from a `D2DGraphicsPath`, with the transformation it was
created with, if any. -/
structure Geometry where
  elements : List PathElement
  transformation : Option TransformMatrix := none
deriving DecidableEq, Repr

/-! ## The native device context -/

/-- An `ID2D1SolidColorBrush`, identified by the colour and alpha it was created from
(`convert (color, alpha)`). -/
structure SolidColorBrush where
  color : CColor
  alpha : CCoord
deriving DecidableEq, Repr

/-- An `ID2D1StrokeStyle`, identified by the line style it was created from. -/
structure StrokeStyle where
  lineStyle : CLineStyle
deriving DecidableEq, Repr

/-- The brush argument of a geometry fill. -/
inductive Brush
  | solid (brush : Option SolidColorBrush)
  | linearGradient (startPoint endPoint : CPoint)
  | radialGradient (center : CPoint) (radius : CCoord) (originOffset : CPoint)
deriving DecidableEq, Repr

/-- The calls issued by this file to the native device context, to the factory obtained from
it, and to the collaborators that work on the device context. -/
inductive NativeCall
  | GetTransform
  | SetTransform (m : TransformMatrix)
  | GetFactory
  | CreateRectangleGeometry (r : CRect)
  | PushAxisAlignedClip (r : CRect)
  | PopAxisAlignedClip
  | PushLayer (geometry : CRect)
  | PopLayer
  | CreateSolidColorBrush (color : CColor) (alpha : CCoord)
  | CreateStrokeStyle (style : CLineStyle)
  | BeginDraw
  | EndDraw
  | DrawLine (p0 p1 : CPoint) (brush : Option SolidColorBrush) (width : CCoord)
      (stroke : Option StrokeStyle)
  | FillRectangle (r : CRect) (brush : Option SolidColorBrush)
  | DrawRectangle (r : CRect) (brush : Option SolidColorBrush) (width : CCoord)
      (stroke : Option StrokeStyle)
  | FillEllipse (center : CPoint) (radiusX radiusY : CCoord) (brush : Option SolidColorBrush)
  | DrawEllipse (center : CPoint) (radiusX radiusY : CCoord) (brush : Option SolidColorBrush)
      (width : CCoord) (stroke : Option StrokeStyle)
  | DrawBitmap (dest : CRect) (alpha : CCoord) (linear : Bool) (source : CRect)
  | Clear
  | GetPathGeometry (elements : List PathElement)
  | CreateTransformedGeometry (elements : List PathElement) (t : TransformMatrix)
  | FillGeometry (g : Geometry) (brush : Brush)
  | DrawGeometry (g : Geometry) (brush : Option SolidColorBrush) (width : CCoord)
      (stroke : Option StrokeStyle)
  | CreateGradientStopCollection (alpha : CCoord)
  | CreateLinearGradientBrush (startPoint endPoint : CPoint)
  | CreateRadialGradientBrush (center : CPoint) (radius : CCoord) (originOffset : CPoint)
  | SetTextAntialiasMode (cleartype : Bool)
  | DrawTextLayout (pos : CPoint) (brush : Option SolidColorBrush)
  | GetCachedBitmap
deriving DecidableEq, Repr

namespace NativeCall

/-- The native draw calls. -/
def isDraw : NativeCall → Bool
  | DrawLine .. | FillRectangle .. | DrawRectangle .. | FillEllipse .. | DrawEllipse ..
  | DrawBitmap .. | Clear | FillGeometry .. | DrawGeometry .. | DrawTextLayout .. => true
  | _ => false

/-- The creations of a brush or of a stroke style. -/
def isBrushOrStrokeCreation : NativeCall → Bool
  | CreateSolidColorBrush .. | CreateStrokeStyle .. | CreateGradientStopCollection ..
  | CreateLinearGradientBrush .. | CreateRadialGradientBrush .. => true
  | _ => false

/-- The geometry calls. -/
def isGeometry : NativeCall → Bool
  | CreateRectangleGeometry .. | GetPathGeometry .. | CreateTransformedGeometry .. => true
  | _ => false

/-- A plain clip push. -/
def isPushAxisAlignedClip : NativeCall → Bool
  | PushAxisAlignedClip .. => true
  | _ => false

/-- A layer push. -/
def isPushLayer : NativeCall → Bool
  | PushLayer .. => true
  | _ => false

/-- A native filled-rectangle call. -/
def isFillRectangle : NativeCall → Bool
  | FillRectangle .. => true
  | _ => false

end NativeCall

/-- The native `ID2D1DeviceContext`: its current transform, the calls issued so far (oldest
first) and the outcomes of the coming fallible calls (`true` is success; once the list is
used up every call succeeds). -/
structure ID2D1DeviceContext where
  transform : TransformMatrix := {}
  calls : List NativeCall := []
  hresults : List Bool := []
deriving DecidableEq, Repr

namespace ID2D1DeviceContext

/-- Record a call that cannot fail. -/
def call (d : ID2D1DeviceContext) (c : NativeCall) : ID2D1DeviceContext :=
  { d with calls := d.calls ++ [c] }

/-- Record a fallible call and consume its outcome. -/
def tryCall (d : ID2D1DeviceContext) (c : NativeCall) : Bool × ID2D1DeviceContext :=
  match d.hresults with
  | [] => (true, d.call c)
  | r :: rest => (r, { d.call c with hresults := rest })

/-- The native `SetTransform`. -/
def SetTransform (d : ID2D1DeviceContext) (m : TransformMatrix) : ID2D1DeviceContext :=
  { d.call (.SetTransform m) with transform := m }

/-- Number of `PushAxisAlignedClip` calls issued so far. -/
def pushClipCount (d : ID2D1DeviceContext) : Nat := d.calls.countP NativeCall.isPushAxisAlignedClip

/-- Number of `PopAxisAlignedClip` calls issued so far. -/
def popClipCount (d : ID2D1DeviceContext) : Nat := d.calls.count .PopAxisAlignedClip

/-- Number of `PushLayer` calls issued so far. -/
def pushLayerCount (d : ID2D1DeviceContext) : Nat := d.calls.countP NativeCall.isPushLayer

/-- Number of `PopLayer` calls issued so far. -/
def popLayerCount (d : ID2D1DeviceContext) : Nat := d.calls.count .PopLayer

end ID2D1DeviceContext

/-- The guard of lines 28-38: its constructor reads the native transform, its destructor
writes it back. -/
structure TransformGuard where
  matrix : TransformMatrix
deriving DecidableEq, Repr

namespace TransformGuard

/-- Constructor: `context->GetTransform (&matrix)`. -/
def create (context : ID2D1DeviceContext) : TransformGuard × ID2D1DeviceContext :=
  (⟨context.transform⟩, context.call .GetTransform)

/-- Destructor: `context->SetTransform (matrix)`. -/
def destroy (g : TransformGuard) (context : ID2D1DeviceContext) : ID2D1DeviceContext :=
  context.SetTransform g.matrix

end TransformGuard

/-! ## The context: `D2DGraphicsDeviceContext::Impl` -/

/-- The Draw State, lines 306-321, with its defaults. -/
structure State where
  clip : CRect := {}
  lineStyle : CLineStyle := kLineSolid
  drawMode : CDrawMode := {}
  strokeStyle : Option StrokeStyle := none
  fillBrush : Option SolidColorBrush := none
  frameBrush : Option SolidColorBrush := none
  fontBrush : Option SolidColorBrush := none
  fillColor : CColor := kTransparentCColor
  frameColor : CColor := kTransparentCColor
  fontColor : CColor := kTransparentCColor
  lineWidth : CCoord := 1
  globalAlpha : CCoord := 1
  tm : TransformMatrix := {}
deriving DecidableEq, Repr

/-- The members of `D2DGraphicsDeviceContext::Impl`, lines 322-330; the head of `stateStack`
is the top of the `std::stack`. -/
structure Impl where
  state : State := {}
  stateStack : List State := []
  scaleFactor : CCoord := 1
  applyClip : CRect := {}
  beginDrawCalled : Bool := false
  globalTM : TransformMatrix
  deviceContext : ID2D1DeviceContext
deriving DecidableEq, Repr

namespace Impl

/-- The constructor, lines 149-153: a newly created context. -/
def create (deviceContext : ID2D1DeviceContext) (tm : TransformMatrix) : Impl :=
  { globalTM := tm, deviceContext := deviceContext }

/-- Issue a call that cannot fail on the context's device. -/
def native (impl : Impl) (c : NativeCall) : Impl :=
  { impl with deviceContext := impl.deviceContext.call c }

/-- Issue a fallible call on the context's device. -/
def tryNative (impl : Impl) (c : NativeCall) : Bool × Impl :=
  ((impl.deviceContext.tryCall c).1, { impl with deviceContext := (impl.deviceContext.tryCall c).2 })

/-- The effective transform of line 163-165, from the transform the guard has read. -/
def effectiveTransform (impl : Impl) (matrix : TransformMatrix) (transformOffset : CPoint) :
    TransformMatrix :=
  (((matrix * impl.globalTM) * impl.state.tm).scale impl.scaleFactor impl.scaleFactor).translate
    transformOffset

/-- Line 166: `transform.m12 != 0. || transform.m21 != 0.`. -/
def hasRotation (transform : TransformMatrix) : Bool :=
  decide (transform.m12 ≠ 0) || decide (transform.m21 ≠ 0)

/-- Lines 167-188, the layer branch: the result is the final value of `useLayer` and the
context. -/
def pushClipLayer (impl : Impl) : Bool × Impl :=
  let impl1 := impl.native .GetFactory
  let r := impl1.tryNative (.CreateRectangleGeometry impl1.state.clip)
  if r.1 then
    let impl2 := if r.2.applyClip.isEmpty = false then r.2.native .PopAxisAlignedClip else r.2
    let impl3 := impl2.native (.PushLayer impl2.state.clip)
    (true, { impl3 with applyClip := impl3.state.clip })
  else
    (false, r.2)

/-- Lines 189-202, the axis-aligned branch. -/
def pushAxisAlignedClip (impl : Impl) : Impl :=
  let newClip := impl.globalTM.transform impl.state.clip
  if impl.applyClip ≠ newClip then
    let impl1 := if impl.applyClip.isEmpty = false then impl.native .PopAxisAlignedClip else impl
    let impl2 := if newClip.isEmpty = false then impl1.native (.PushAxisAlignedClip newClip)
      else impl1
    { impl2 with applyClip := newClip }
  else impl

/-- The composition `doInContext`, lines 155-209; `p` is the draw callback. -/
def doInContext (p : Impl → Impl) (transformOffset : CPoint) (impl : Impl) : Impl :=
  if impl.state.clip.isEmpty then impl
  else
    let tmGuard := (TransformGuard.create impl.deviceContext).1
    let impl0 : Impl := { impl with deviceContext := (TransformGuard.create impl.deviceContext).2 }
    let transform := impl0.effectiveTransform tmGuard.matrix transformOffset
    let layered : Bool × Impl := if hasRotation transform then impl0.pushClipLayer else (false, impl0)
    let useLayer := layered.1
    let impl1 := if useLayer = false then layered.2.pushAxisAlignedClip else layered.2
    let impl2 : Impl := { impl1 with deviceContext := impl1.deviceContext.SetTransform transform }
    let impl3 := p impl2
    let impl4 := if useLayer then impl3.native .PopLayer else impl3
    { impl4 with deviceContext := tmGuard.destroy impl4.deviceContext }

/-- Lines 212-218. -/
def applyFrameColor (impl : Impl) : Impl :=
  if impl.state.frameBrush.isSome then impl
  else
    let r := impl.tryNative (.CreateSolidColorBrush impl.state.frameColor impl.state.globalAlpha)
    { r.2 with state := { r.2.state with
        frameBrush := if r.1 then some ⟨impl.state.frameColor, impl.state.globalAlpha⟩ else none } }

/-- Lines 221-227. -/
def applyFillColor (impl : Impl) : Impl :=
  if impl.state.fillBrush.isSome then impl
  else
    let r := impl.tryNative (.CreateSolidColorBrush impl.state.fillColor impl.state.globalAlpha)
    { r.2 with state := { r.2.state with
        fillBrush := if r.1 then some ⟨impl.state.fillColor, impl.state.globalAlpha⟩ else none } }

/-- Lines 230-239. -/
def applyFontColor (color : CColor) (impl : Impl) : Impl :=
  let impl1 : Impl := if impl.state.fontColor ≠ color then
      { impl with state := { impl.state with fontBrush := none } } else impl
  if impl1.state.fontBrush.isSome then impl1
  else
    let impl2 : Impl := { impl1 with state := { impl1.state with fontColor := color } }
    let r := impl2.tryNative (.CreateSolidColorBrush impl2.state.fontColor impl2.state.globalAlpha)
    { r.2 with state := { r.2.state with
        fontBrush := if r.1 then some ⟨impl2.state.fontColor, impl2.state.globalAlpha⟩ else none } }

/-- The conversion `static_cast<int32_t>` of a `double`: truncation towards zero. A value
outside the range of `int32_t` has no defined result in C++; the conversion instruction of
the target yields the smallest `int32_t` then, which is what is modelled. -/
def toInt32 (x : CCoord) : Int :=
  let t := x.num.tdiv x.den
  if -2147483648 ≤ t ∧ t ≤ 2147483647 then t else -2147483648

/-- Lines 242-250. -/
def lineWidthTransformMatrixOffset (impl : Impl) : CPoint :=
  let lineWidthInt := toInt32 impl.state.lineWidth
  if ((lineWidthInt : CCoord) = impl.state.lineWidth) ∧ lineWidthInt.tmod 2 ≠ 0 then
    { x := 1 / 2, y := 1 / 2 }
  else {}

/-- Lines 253-304: the stroke style is created from the cap, the join, the dash phase and
the dash lengths of the current line style. -/
def applyLineStyle (impl : Impl) : Impl :=
  if impl.state.strokeStyle.isSome then impl
  else
    let impl1 := impl.native .GetFactory
    let r := impl1.tryNative (.CreateStrokeStyle impl1.state.lineStyle)
    { r.2 with state := { r.2.state with
        strokeStyle := if r.1 then some ⟨impl1.state.lineStyle⟩ else none } }

end Impl

/-! ## The operations of `D2DGraphicsDeviceContext` -/

namespace D2DGraphicsDeviceContext

/-- Lines 360-365. -/
def beginDraw (impl : Impl) : Bool × Impl :=
  (true, ({ impl with beginDrawCalled := true } : Impl).native .BeginDraw)

/-- Lines 368-380; `ndebug` tells whether `NDEBUG` is set. The native `EndDraw` returns an
`HRESULT`; without `NDEBUG` the assertion of line 376 fails when it reports a failure, and
the call does not return (`none`). With `NDEBUG` the result is ignored. -/
def endDraw (ndebug : Bool) (impl : Impl) : Option (Bool × Impl) :=
  let impl1 := if impl.applyClip.isEmpty = false then impl.native .PopAxisAlignedClip else impl
  let impl2 : Impl := { impl1 with applyClip := {} }
  if impl2.beginDrawCalled then
    let hr := impl2.tryNative .EndDraw
    if hr.1 = false ∧ ndebug = false then none
    else some (true, { hr.2 with beginDrawCalled := false })
  else some (true, impl2)

/-- Line 759. -/
def saveGlobalState (impl : Impl) : Impl :=
  { impl with stateStack := impl.state :: impl.stateStack }

/-- Lines 762-772; `ndebug` tells whether `NDEBUG` is set. Without it the assertion fails on
an empty stack (and `top ()` of an empty stack is undefined). -/
def restoreGlobalState (ndebug : Bool) (impl : Impl) : Option Impl :=
  match impl.stateStack with
  | [] => if ndebug then some impl else none
  | top :: rest => some { impl with state := top, stateStack := rest }

/-- Lines 775-782. -/
def setLineStyle (style : CLineStyle) (impl : Impl) : Impl :=
  if impl.state.lineStyle ≠ style then
    { impl with state := { impl.state with lineStyle := style, strokeStyle := none } }
  else impl

/-- Line 785. -/
def setLineWidth (width : CCoord) (impl : Impl) : Impl :=
  { impl with state := { impl.state with lineWidth := width } }

/-- Line 788. -/
def setDrawMode (mode : CDrawMode) (impl : Impl) : Impl :=
  { impl with state := { impl.state with drawMode := mode } }

/-- Line 791. -/
def setClipRect (clip : CRect) (impl : Impl) : Impl :=
  { impl with state := { impl.state with clip := clip } }

/-- Lines 794-801. -/
def setFillColor (color : CColor) (impl : Impl) : Impl :=
  if impl.state.fillColor ≠ color then
    { impl with state := { impl.state with fillColor := color, fillBrush := none } }
  else impl

/-- Lines 804-811. -/
def setFrameColor (color : CColor) (impl : Impl) : Impl :=
  if impl.state.frameColor ≠ color then
    { impl with state := { impl.state with frameColor := color, frameBrush := none } }
  else impl

/-- Lines 814-823. -/
def setGlobalAlpha (newAlpha : CCoord) (impl : Impl) : Impl :=
  if impl.state.globalAlpha ≠ newAlpha then
    { impl with state := { impl.state with
        globalAlpha := newAlpha, fillBrush := none, frameBrush := none, fontBrush := none } }
  else impl

/-- Lines 826-829. -/
def setTransformMatrix (tm : TransformMatrix) (impl : Impl) : Impl :=
  { impl with state := { impl.state with tm := tm } }

/-- The lambda of `drawLine`, lines 386-400. -/
def drawLineProc (h : GeometryHelpers) (line : LinePair) (impl : Impl) : Impl :=
  let impl1 := impl.applyFrameColor
  let impl2 := impl1.applyLineStyle
  let start := if impl2.state.drawMode.integralMode then
      h.pixelAlignPoint impl2.state.tm line.1 else line.1
  let stop := if impl2.state.drawMode.integralMode then
      h.pixelAlignPoint impl2.state.tm line.2 else line.2
  impl2.native (.DrawLine start stop impl2.state.frameBrush impl2.state.lineWidth
    impl2.state.strokeStyle)

/-- Lines 383-403. -/
def drawLine (h : GeometryHelpers) (line : LinePair) (impl : Impl) : Bool × Impl :=
  (true, impl.doInContext (drawLineProc h line) impl.lineWidthTransformMatrixOffset)

/-- The lambda of `drawLines`, lines 409-437. -/
def drawLinesProc (h : GeometryHelpers) (lines : List LinePair) (impl : Impl) : Impl :=
  let impl1 := impl.applyFrameColor
  let impl2 := impl1.applyLineStyle
  if impl2.state.drawMode.integralMode then
    lines.foldl (fun (acc : Impl) line =>
      acc.native (.DrawLine (h.pixelAlignPoint acc.state.tm line.1)
        (h.pixelAlignPoint acc.state.tm line.2) acc.state.frameBrush acc.state.lineWidth
        acc.state.strokeStyle)) impl2
  else
    lines.foldl (fun (acc : Impl) line =>
      acc.native (.DrawLine line.1 line.2 acc.state.frameBrush acc.state.lineWidth
        acc.state.strokeStyle)) impl2

/-- Lines 406-440. -/
def drawLines (h : GeometryHelpers) (lines : List LinePair) (impl : Impl) : Bool × Impl :=
  (true, impl.doInContext (drawLinesProc h lines) impl.lineWidthTransformMatrixOffset)

/-- The lambda of `drawRect`, lines 471-493. -/
def drawRectProc (rect : CRect) (drawStyle : PlatformGraphicsDrawStyle) (impl : Impl) : Impl :=
  let rect1 : CRect := if drawStyle ≠ .Filled then
      { rect with right := rect.right - 1, bottom := rect.bottom - 1 } else rect
  let impl1 := if drawStyle = .Filled ∨ drawStyle = .FilledAndStroked then
      let i := impl.applyFillColor
      i.native (.FillRectangle rect1 i.state.fillBrush)
    else impl
  if drawStyle = .Stroked ∨ drawStyle = .FilledAndStroked then
    let rect2 := rect1.offset impl1.lineWidthTransformMatrixOffset
    let i := impl1.applyFrameColor.applyLineStyle
    i.native (.DrawRectangle rect2 i.state.frameBrush i.state.lineWidth i.state.strokeStyle)
  else impl1

/-- Lines 469-495. -/
def drawRect (rect : CRect) (drawStyle : PlatformGraphicsDrawStyle) (impl : Impl) : Bool × Impl :=
  (true, impl.doInContext (drawRectProc rect drawStyle) {})

/-- The lambda of `drawEllipse`, lines 519-545. -/
def drawEllipseProc (h : GeometryHelpers) (rect : CRect) (drawStyle : PlatformGraphicsDrawStyle)
    (impl : Impl) : Impl :=
  let rect1 := if impl.state.drawMode.integralMode then h.pixelAlignRect impl.state.tm rect
    else rect
  let rect2 := if drawStyle = .Stroked then rect1.inset (1 / 2) (1 / 2) else rect1
  let center := rect2.getTopLeft.offset (rect2.getWidth / 2) (rect2.getHeight / 2)
  let radiusX := rect2.getWidth / 2
  let radiusY := rect2.getHeight / 2
  let impl1 := if drawStyle = .Filled ∨ drawStyle = .FilledAndStroked then
      let i := impl.applyFillColor
      i.native (.FillEllipse center radiusX radiusY i.state.fillBrush)
    else impl
  if drawStyle = .Stroked ∨ drawStyle = .FilledAndStroked then
    let i := impl1.applyFrameColor.applyLineStyle
    i.native (.DrawEllipse center radiusX radiusY i.state.frameBrush i.state.lineWidth
      i.state.strokeStyle)
  else impl1

/-- Lines 517-547. -/
def drawEllipse (h : GeometryHelpers) (rect : CRect) (drawStyle : PlatformGraphicsDrawStyle)
    (impl : Impl) : Bool × Impl :=
  (true, impl.doInContext (drawEllipseProc h rect drawStyle) {})

/-- Line 550. -/
def drawPoint (_point : CPoint) (_color : CColor) (impl : Impl) : Bool × Impl := (false, impl)

/-- The native geometry of a path inside a draw lambda (lines 637-648, 685-696, 728-739):
the transformed copy when a transformation is given, the path geometry otherwise; either may
come back null. -/
def pathGeometry (elements : List PathElement) (transformation : Option TransformMatrix)
    (impl : Impl) : Option Geometry × Impl :=
  match transformation with
  | some t =>
    let r := (impl.native .GetFactory).tryNative (.CreateTransformedGeometry elements t)
    (if r.1 then some ⟨elements, some t⟩ else none, r.2)
  | none =>
    let r := impl.tryNative (.GetPathGeometry elements)
    (if r.1 then some ⟨elements, none⟩ else none, r.2)

/-- The lambda of `drawGraphicsPath`, lines 636-666. -/
def drawGraphicsPathProc (elements : List PathElement) (mode : PlatformGraphicsPathDrawMode)
    (transformation : Option TransformMatrix) (impl : Impl) : Impl :=
  let r := pathGeometry elements transformation impl
  match r.1 with
  | some path =>
    if mode = .Filled ∨ mode = .FilledEvenOdd then
      let i := r.2.applyFillColor
      i.native (.FillGeometry path (.solid i.state.fillBrush))
    else if mode = .Stroked then
      let i := r.2.applyFrameColor.applyLineStyle
      i.native (.DrawGeometry path i.state.frameBrush i.state.lineWidth i.state.strokeStyle)
    else r.2
  | none => r.2

/-- Lines 628-668. -/
def drawGraphicsPath (path : IPlatformGraphicsPath) (mode : PlatformGraphicsPathDrawMode)
    (transformation : Option TransformMatrix) (impl : Impl) : Bool × Impl :=
  match path with
  | .foreign => (false, impl)
  | .d2d elements => (true, impl.doInContext (drawGraphicsPathProc elements mode transformation) {})

/-- The path built by `drawPolygon`, lines 450-454: `polygonPointList[0]` is read first, then
the indices `1 .. size - 1` in turn; an index outside the list is undefined behaviour, and
the 32-bit counter `i` never reaches a size of `2 ^ 32` or more. -/
def polygonPath (polygonPointList : List CPoint) : Option (List PathElement) :=
  match polygonPointList[0]? with
  | none => none
  | some p0 =>
    if 4294967296 ≤ polygonPointList.length then none
    else
      ((List.range' 1 (polygonPointList.length - 1)).mapM
        fun i => (polygonPointList[i]?).map PathElement.addLine).map
        fun lines => PathElement.beginSubpath p0 :: lines

/-- Lines 443-466; `pathCreated` tells whether `createPath ()` of the path factory returned a
path. -/
def drawPolygon (pathCreated : Bool) (polygonPointList : List CPoint)
    (drawStyle : PlatformGraphicsDrawStyle) (impl : Impl) : Option (Bool × Impl) :=
  if pathCreated = false then some (false, impl)
  else
    (polygonPath polygonPointList).map fun elements =>
      let path := IPlatformGraphicsPath.d2d elements
      let impl1 := if drawStyle = .Filled ∨ drawStyle = .FilledAndStroked then
          (drawGraphicsPath path .Filled none impl).2 else impl
      let impl2 := if drawStyle = .Stroked ∨ drawStyle = .FilledAndStroked then
          (drawGraphicsPath path .Stroked none impl1).2 else impl1
      (true, impl2)

/-- Lines 498-514. -/
def drawArc (h : GeometryHelpers) (pathCreated : Bool) (rect : CRect)
    (startAngle1 endAngle2 : CCoord) (drawStyle : PlatformGraphicsDrawStyle) (impl : Impl) :
    Bool × Impl :=
  if pathCreated = false then (false, impl)
  else
    let rect1 := if impl.state.drawMode.integralMode then h.pixelAlignRect impl.state.tm rect
      else rect
    let path := IPlatformGraphicsPath.d2d [PathElement.addArc rect1 startAngle1 endAngle2 true]
    let impl1 := if drawStyle = .Filled ∨ drawStyle = .FilledAndStroked then
        (drawGraphicsPath path .Filled none impl).2 else impl
    let impl2 := if drawStyle = .Stroked ∨ drawStyle = .FilledAndStroked then
        (drawGraphicsPath path .Stroked none impl1).2 else impl1
    (true, impl2)

/-- The lambda of `drawBitmap`, lines 572-601. -/
def drawBitmapProc (h : GeometryHelpers) (size deviceSize : CPoint) (dest : CRect)
    (offset : CPoint) (alpha : CCoord) (quality : BitmapInterpolationQuality) (impl : Impl) :
    Impl :=
  let d := h.makeIntegralRect
    (((dest.setWidth size.x).setHeight size.y).offset { x := -offset.x, y := -offset.y })
  let source := (({} : CRect).setWidth deviceSize.x).setHeight deviceSize.y
  impl.native (.DrawBitmap d (alpha * impl.state.globalAlpha) (decide (quality ≠ .kLow)) source)

/-- Lines 553-604; the lookup in the bitmap cache is a fallible call on the device
context. -/
def drawBitmap (h : GeometryHelpers) (bitmap : IPlatformBitmap) (dest : CRect) (offset : CPoint)
    (alpha : CCoord) (quality : BitmapInterpolationQuality) (impl : Impl) : Bool × Impl :=
  match bitmap with
  | .foreign => (false, impl)
  | .d2d hasSource bitmapScaleFactor size deviceSize =>
    if hasSource = false then (false, impl)
    else
      let r := impl.tryNative .GetCachedBitmap
      if r.1 = false then (false, r.2)
      else
        let bitmapTransform :=
          ({} : TransformMatrix).scale (1 / bitmapScaleFactor) (1 / bitmapScaleFactor)
        let originalTransformMatrix := r.2.state.tm
        let impl1 := setTransformMatrix (originalTransformMatrix * bitmapTransform) r.2
        let dest1 := (h.inverse bitmapTransform).transform dest
        let impl2 := impl1.doInContext
          (drawBitmapProc h size deviceSize dest1 offset alpha quality) {}
        (true, setTransformMatrix originalTransformMatrix impl2)

/-- Lines 607-625, the active branch of the preprocessor conditional. -/
def clearRect (rect : CRect) (impl : Impl) : Bool × Impl :=
  let tmGuard := (TransformGuard.create impl.deviceContext).1
  let d0 := (TransformGuard.create impl.deviceContext).2
  let d1 := d0.SetTransform (impl.globalTM * impl.state.tm)
  let d2 := d1.call (.PushAxisAlignedClip rect)
  let d3 := d2.call .Clear
  let d4 := d3.call .PopAxisAlignedClip
  (true, { impl with deviceContext := tmGuard.destroy d4 })

/-- The lambda of `fillLinearGradient`, lines 680-709. -/
def fillLinearGradientProc (elements : List PathElement) (startPoint endPoint : CPoint)
    (transformation : Option TransformMatrix) (impl : Impl) : Impl :=
  let stopCollection := impl.tryNative (.CreateGradientStopCollection impl.state.globalAlpha)
  if stopCollection.1 = false then stopCollection.2
  else
    let r := pathGeometry elements transformation stopCollection.2
    match r.1 with
    | some path =>
      let b := r.2.tryNative (.CreateLinearGradientBrush startPoint endPoint)
      if b.1 then b.2.native (.FillGeometry path (.linearGradient startPoint endPoint)) else b.2
    | none => r.2

/-- Lines 671-711. -/
def fillLinearGradient (path : IPlatformGraphicsPath) (gradient : IPlatformGradient)
    (startPoint endPoint : CPoint) (_evenOdd : Bool) (transformation : Option TransformMatrix)
    (impl : Impl) : Bool × Impl :=
  match path, gradient with
  | .d2d elements, .d2d =>
    (true, impl.doInContext (fillLinearGradientProc elements startPoint endPoint transformation) {})
  | _, _ => (false, impl)

/-- The lambda of `fillRadialGradient`, lines 723-754. -/
def fillRadialGradientProc (elements : List PathElement) (center : CPoint) (radius : CCoord)
    (originOffset : CPoint) (transformation : Option TransformMatrix) (impl : Impl) : Impl :=
  let stopCollection := impl.tryNative (.CreateGradientStopCollection impl.state.globalAlpha)
  if stopCollection.1 = false then stopCollection.2
  else
    let r := pathGeometry elements transformation stopCollection.2
    match r.1 with
    | some path =>
      let b := r.2.tryNative (.CreateRadialGradientBrush center radius originOffset)
      if b.1 then b.2.native (.FillGeometry path (.radialGradient center radius originOffset))
      else b.2
    | none => r.2

/-- Lines 714-756. -/
def fillRadialGradient (path : IPlatformGraphicsPath) (gradient : IPlatformGradient)
    (center : CPoint) (radius : CCoord) (originOffset : CPoint) (_evenOdd : Bool)
    (transformation : Option TransformMatrix) (impl : Impl) : Bool × Impl :=
  match path, gradient with
  | .d2d elements, .d2d =>
    (true, impl.doInContext
      (fillRadialGradientProc elements center radius originOffset transformation) {})
  | _, _ => (false, impl)

/-- The lambda of `drawTextLayout`, lines 841-849. -/
def drawTextLayoutProc (h : GeometryHelpers) (pos : CPoint) (color : CColor) (antialias : Bool)
    (impl : Impl) : Impl :=
  let impl1 := impl.native (.SetTextAntialiasMode antialias)
  let pos1 := if impl1.state.drawMode.integralMode then h.makeIntegralPoint pos else pos
  let pos2 : CPoint := { pos1 with y := pos1.y + 1 / 2 }
  let impl2 := impl1.applyFontColor color
  impl2.native (.DrawTextLayout pos2 impl2.state.fontBrush)

/-- Lines 838-850. -/
def drawTextLayout (h : GeometryHelpers) (pos : CPoint) (color : CColor) (antialias : Bool)
    (impl : Impl) : Impl :=
  impl.doInContext (drawTextLayoutProc h pos color antialias) {}

/-! ### Sequences of operations -/

/-- The pure state mutators. -/
inductive Setter
  | setLineWidth (width : CCoord)
  | setClipRect (clip : CRect)
  | setTransformMatrix (tm : TransformMatrix)
  | setDrawMode (mode : CDrawMode)
  | setLineStyle (style : CLineStyle)
  | setFillColor (color : CColor)
  | setFrameColor (color : CColor)
  | setGlobalAlpha (newAlpha : CCoord)
deriving DecidableEq, Repr

/-- Execute a setter. -/
def Setter.run : Setter → Impl → Impl
  | .setLineWidth width => D2DGraphicsDeviceContext.setLineWidth width
  | .setClipRect clip => D2DGraphicsDeviceContext.setClipRect clip
  | .setTransformMatrix tm => D2DGraphicsDeviceContext.setTransformMatrix tm
  | .setDrawMode mode => D2DGraphicsDeviceContext.setDrawMode mode
  | .setLineStyle style => D2DGraphicsDeviceContext.setLineStyle style
  | .setFillColor color => D2DGraphicsDeviceContext.setFillColor color
  | .setFrameColor color => D2DGraphicsDeviceContext.setFrameColor color
  | .setGlobalAlpha newAlpha => D2DGraphicsDeviceContext.setGlobalAlpha newAlpha

/-- The draw calls: the primitives that run the composition `doInContext`. -/
inductive DrawOp
  | drawLine (line : LinePair)
  | drawLines (lines : List LinePair)
  | drawPolygon (pathCreated : Bool) (polygonPointList : List CPoint)
      (drawStyle : PlatformGraphicsDrawStyle)
  | drawRect (rect : CRect) (drawStyle : PlatformGraphicsDrawStyle)
  | drawArc (pathCreated : Bool) (rect : CRect) (startAngle1 endAngle2 : CCoord)
      (drawStyle : PlatformGraphicsDrawStyle)
  | drawEllipse (rect : CRect) (drawStyle : PlatformGraphicsDrawStyle)
  | drawBitmap (bitmap : IPlatformBitmap) (dest : CRect) (offset : CPoint) (alpha : CCoord)
      (quality : BitmapInterpolationQuality)
  | drawGraphicsPath (path : IPlatformGraphicsPath) (mode : PlatformGraphicsPathDrawMode)
      (transformation : Option TransformMatrix)
  | fillLinearGradient (path : IPlatformGraphicsPath) (gradient : IPlatformGradient)
      (startPoint endPoint : CPoint) (evenOdd : Bool) (transformation : Option TransformMatrix)
  | fillRadialGradient (path : IPlatformGraphicsPath) (gradient : IPlatformGradient)
      (center : CPoint) (radius : CCoord) (originOffset : CPoint) (evenOdd : Bool)
      (transformation : Option TransformMatrix)
  | drawTextLayout (pos : CPoint) (color : CColor) (antialias : Bool)
deriving DecidableEq, Repr

/-- Execute a draw call; `none` is undefined behaviour. -/
def DrawOp.run (h : GeometryHelpers) : DrawOp → Impl → Option (Bool × Impl)
  | .drawLine line, impl => some (D2DGraphicsDeviceContext.drawLine h line impl)
  | .drawLines lines, impl => some (D2DGraphicsDeviceContext.drawLines h lines impl)
  | .drawPolygon pathCreated pts drawStyle, impl =>
    D2DGraphicsDeviceContext.drawPolygon pathCreated pts drawStyle impl
  | .drawRect rect drawStyle, impl => some (D2DGraphicsDeviceContext.drawRect rect drawStyle impl)
  | .drawArc pathCreated rect a1 a2 drawStyle, impl =>
    some (D2DGraphicsDeviceContext.drawArc h pathCreated rect a1 a2 drawStyle impl)
  | .drawEllipse rect drawStyle, impl =>
    some (D2DGraphicsDeviceContext.drawEllipse h rect drawStyle impl)
  | .drawBitmap bitmap dest offset alpha quality, impl =>
    some (D2DGraphicsDeviceContext.drawBitmap h bitmap dest offset alpha quality impl)
  | .drawGraphicsPath path mode transformation, impl =>
    some (D2DGraphicsDeviceContext.drawGraphicsPath path mode transformation impl)
  | .fillLinearGradient path gradient p0 p1 evenOdd transformation, impl =>
    some (D2DGraphicsDeviceContext.fillLinearGradient path gradient p0 p1 evenOdd
      transformation impl)
  | .fillRadialGradient path gradient center radius originOffset evenOdd transformation, impl =>
    some (D2DGraphicsDeviceContext.fillRadialGradient path gradient center radius originOffset
      evenOdd transformation impl)
  | .drawTextLayout pos color antialias, impl =>
    some (true, D2DGraphicsDeviceContext.drawTextLayout h pos color antialias impl)

/-- Execute draw calls one after the other. -/
def runDraws (h : GeometryHelpers) : List DrawOp → Impl → Option Impl
  | [], impl => some impl
  | op :: ops, impl => (op.run h impl).bind fun r => runDraws h ops r.2

/-- The operations of a context. -/
inductive Op
  | setter (s : Setter)
  | saveGlobalState
  | restoreGlobalState
  | draw (d : DrawOp)
  | clearRect (rect : CRect)
  | drawPoint (point : CPoint) (color : CColor)
  | beginDraw
  | endDraw
deriving DecidableEq, Repr

/-- Execute an operation; `none` is undefined behaviour or a failed assertion. -/
def Op.run (h : GeometryHelpers) (ndebug : Bool) : Op → Impl → Option Impl
  | .setter s, impl => some (s.run impl)
  | .saveGlobalState, impl => some (D2DGraphicsDeviceContext.saveGlobalState impl)
  | .restoreGlobalState, impl => D2DGraphicsDeviceContext.restoreGlobalState ndebug impl
  | .draw d, impl => (d.run h impl).map Prod.snd
  | .clearRect rect, impl => some (D2DGraphicsDeviceContext.clearRect rect impl).2
  | .drawPoint point color, impl => some (D2DGraphicsDeviceContext.drawPoint point color impl).2
  | .beginDraw, impl => some (D2DGraphicsDeviceContext.beginDraw impl).2
  | .endDraw, impl => (D2DGraphicsDeviceContext.endDraw ndebug impl).map Prod.snd

/-- Execute operations one after the other. -/
def runOps (h : GeometryHelpers) (ndebug : Bool) : List Op → Impl → Option Impl
  | [], impl => some impl
  | op :: ops, impl => (op.run h ndebug impl).bind (runOps h ndebug ops)

end D2DGraphicsDeviceContext

/-! ## The device factory -/

/-- A `D2DGraphicsDevice` object: its identity and the native device handle it wraps. -/
structure D2DGraphicsDevice where
  id : Nat
  device : Nat
deriving DecidableEq, Repr

/-- The registry of `D2DGraphicsDeviceFactory::Impl`, line 46. -/
structure D2DGraphicsDeviceFactory where
  devices : List D2DGraphicsDevice := []
deriving DecidableEq, Repr

namespace D2DGraphicsDeviceFactory

/-- Lines 56-62. -/
def getDeviceForScreen (f : D2DGraphicsDeviceFactory) (_screen : Nat) :
    Option D2DGraphicsDevice :=
  if f.devices.isEmpty then none else f.devices.head?

/-- Lines 65-72. -/
def find (f : D2DGraphicsDeviceFactory) (dev : Nat) : Option D2DGraphicsDevice :=
  f.devices.find? fun el => el.device == dev

/-- Lines 75-78. -/
def addDevice (f : D2DGraphicsDeviceFactory) (device : D2DGraphicsDevice) :
    D2DGraphicsDeviceFactory :=
  { f with devices := f.devices ++ [device] }

/-- Lines 81-86. -/
def removeDevice (f : D2DGraphicsDeviceFactory) (device : D2DGraphicsDevice) :
    D2DGraphicsDeviceFactory :=
  { f with devices := f.devices.erase device }

end D2DGraphicsDeviceFactory

/-! ## A concrete instance of the geometry helpers and test data -/

/-- Geometry helpers that leave their argument alone, for evaluating the operations on
concrete inputs. -/
def GeometryHelpers.plain : GeometryHelpers where
  pixelAlignPoint := fun _ p => p
  pixelAlignRect := fun _ r => r
  makeIntegralPoint := fun p => p
  makeIntegralRect := fun r => r
  inverse := fun m => m

/-- A rotation by a quarter turn. -/
def quarterTurn : TransformMatrix := { m11 := 0, m12 := -1, m21 := 1, m22 := 0 }

/-- The rotation by a quarter turn in the other direction. -/
def quarterTurnBack : TransformMatrix := { m11 := 0, m12 := 1, m21 := -1, m22 := 0 }

/-- The rectangle `{0, 0, 10, 10}`. -/
def rect10 : CRect := { left := 0, top := 0, right := 10, bottom := 10 }

/-- A native device context with the identity transform and no call issued yet. -/
def freshDevice : ID2D1DeviceContext := {}

/-- A context whose global transform is a quarter turn, whose local transform is the quarter
turn back, and whose logical clip is `{0, 0, 10, 10}`. -/
def cancellingContext : Impl :=
  D2DGraphicsDeviceContext.setTransformMatrix quarterTurnBack
    (D2DGraphicsDeviceContext.setClipRect rect10 (Impl.create freshDevice quarterTurn))

/-- The operations that lead to `rotatedContext`. -/
def rotatedOps : List D2DGraphicsDeviceContext.Op :=
  [.setter (.setClipRect rect10), .draw (.drawRect rect10 .Filled),
    .setter (.setTransformMatrix quarterTurn)]

/-- A context reached from a new one, with the identity as global transform: the logical
clip is set to `{0, 0, 10, 10}`, a filled rectangle is drawn, which pushes the plain clip on
the device, and then the local transform is set to a quarter turn. -/
def rotatedContext : Impl :=
  D2DGraphicsDeviceContext.setTransformMatrix quarterTurn
    (D2DGraphicsDeviceContext.drawRect rect10 .Filled
      (D2DGraphicsDeviceContext.setClipRect rect10 (Impl.create freshDevice {}))).2

/-- A new context with the identity as global transform, a quarter turn as local transform
and the logical clip `{0, 0, 10, 10}`. -/
def turnedContext : Impl :=
  D2DGraphicsDeviceContext.setTransformMatrix quarterTurn
    (D2DGraphicsDeviceContext.setClipRect rect10 (Impl.create freshDevice {}))

/-- A triangle. -/
def triangle : List CPoint := [{}, { x := 5, y := 0 }, { x := 5, y := 5 }]

/-- A new context with the identity as global transform and the logical clip
`{0, 0, 10, 10}`. -/
def clippedContext : Impl :=
  D2DGraphicsDeviceContext.setClipRect rect10 (Impl.create freshDevice {})

/-- Three draw calls under one clip. -/
def sampleDraws : List D2DGraphicsDeviceContext.DrawOp :=
  [.drawLine ({}, { x := 5, y := 5 }), .drawRect rect10 .Stroked,
    .drawEllipse rect10 .FilledAndStroked]

/-- A session that ends before it begins, begins, draws, and is still open. -/
def openSession : List D2DGraphicsDeviceContext.Op :=
  [.endDraw, .beginDraw, .setter (.setClipRect rect10), .draw (.drawRect rect10 .Filled)]

/-- A sample session: a fill and a stroke under a saved state, a change of the alpha, a text
draw, the restore and another fill. -/
def sampleOps : List D2DGraphicsDeviceContext.Op :=
  [.setter (.setClipRect rect10), .setter (.setFillColor kRedCColor), .saveGlobalState,
    .draw (.drawRect rect10 .FilledAndStroked), .setter (.setGlobalAlpha (1 / 2)),
    .draw (.drawTextLayout {} kRedCColor true), .restoreGlobalState,
    .draw (.drawRect rect10 .Filled)]

/-! ## Predicates used in the statements -/

namespace D2DGraphicsDeviceContext

/-- Execute setters one after the other. -/
def runSetters : List Setter → Impl → Impl
  | [], impl => impl
  | s :: ss, impl => runSetters ss (s.run impl)

end D2DGraphicsDeviceContext

/-- The part of `doInContext` that runs before the callback (lines 161-203), on a context
whose logical clip is not empty: the final value of `useLayer` and the context handed to
the callback. -/
def Impl.enterContext (transformOffset : CPoint) (impl : Impl) : Bool × Impl :=
  let impl0 : Impl := { impl with deviceContext := (TransformGuard.create impl.deviceContext).2 }
  let transform := impl0.effectiveTransform impl.deviceContext.transform transformOffset
  let layered : Bool × Impl :=
    if Impl.hasRotation transform then impl0.pushClipLayer else (false, impl0)
  let impl1 := if layered.1 = false then layered.2.pushAxisAlignedClip else layered.2
  (layered.1, { impl1 with deviceContext := impl1.deviceContext.SetTransform transform })

/-- The part of `doInContext` that runs after the callback (lines 207-209 and the destructor
of the guard). -/
def Impl.leaveContext (useLayer : Bool) (matrix : TransformMatrix) (impl : Impl) : Impl :=
  let impl4 := if useLayer then impl.native .PopLayer else impl
  { impl4 with deviceContext := impl4.deviceContext.SetTransform matrix }

/-- The cached resources of a Draw State are valid: each one that is present was created
from the current value of the fields it depends on. -/
def State.cacheValid (s : State) : Prop :=
  (∀ b, s.fillBrush = some b → b = ⟨s.fillColor, s.globalAlpha⟩) ∧
  (∀ b, s.frameBrush = some b → b = ⟨s.frameColor, s.globalAlpha⟩) ∧
  (∀ b, s.fontBrush = some b → b = ⟨s.fontColor, s.globalAlpha⟩) ∧
  (∀ st, s.strokeStyle = some st → st = ⟨s.lineStyle⟩)

/-- The cached resources of the current state and of every saved state are valid. -/
def Impl.cacheValid (impl : Impl) : Prop :=
  impl.state.cacheValid ∧ ∀ s ∈ impl.stateStack, s.cacheValid

/-- The calls that change the clip stack, the layer stack, the transform or the drawing
session of the native device. -/
def NativeCall.isContextCall : NativeCall → Bool
  | .SetTransform .. | .PushAxisAlignedClip .. | .PopAxisAlignedClip | .PushLayer .. | .PopLayer
  | .BeginDraw | .EndDraw => true
  | _ => false

/-- What a draw callback does to the context: it changes at most the Draw State and the
device, keeps the cached resources valid, leaves the logical clip, the local transform and
the native transform alone, and issues no call that changes the clip, the layers, the
transform or the session. -/
structure Impl.ProcStep (x y : Impl) : Prop where
  frame : ∃ st dc, y = { x with state := st, deviceContext := dc }
  cacheValid : x.state.cacheValid → y.state.cacheValid
  clip : y.state.clip = x.state.clip
  tm : y.state.tm = x.state.tm
  transform : y.deviceContext.transform = x.deviceContext.transform
  calls : ∃ added, y.deviceContext.calls = x.deviceContext.calls ++ added ∧
    ∀ c ∈ added, c.isContextCall = false

/-- The logical clip in device space: `globalTM.transform (state.clip)`, line 191-192. -/
def Impl.deviceClip (impl : Impl) : CRect := impl.globalTM.transform impl.state.clip

/-- What a stretch of draw calls does to the plain clip of the device from `x` to `y`:
either nothing (the applied clip and the numbers of plain-clip pushes and pops are those of
`x`), or one transition to the logical clip in device space, which differed from the
applied clip: one pop if a clip was applied, one push if the new clip is not empty. -/
def Impl.ClipTransition (x y : Impl) : Prop :=
  (y.applyClip = x.applyClip ∧
    y.deviceContext.pushClipCount = x.deviceContext.pushClipCount ∧
    y.deviceContext.popClipCount = x.deviceContext.popClipCount) ∨
  (x.applyClip ≠ x.deviceClip ∧ y.applyClip = x.deviceClip ∧
    y.deviceContext.pushClipCount
      = x.deviceContext.pushClipCount + (if x.deviceClip.isEmpty then 0 else 1) ∧
    y.deviceContext.popClipCount
      = x.deviceContext.popClipCount + (if x.applyClip.isEmpty then 0 else 1))

/-- What a stretch of draw calls leaves alone when no layer is involved: the logical clip,
the local and the global transform, the scale factor and the native transform; the plain
clip makes at most one transition. -/
structure Impl.PlainStep (x y : Impl) : Prop where
  clip : y.state.clip = x.state.clip
  tm : y.state.tm = x.state.tm
  globalTM : y.globalTM = x.globalTM
  scaleFactor : y.scaleFactor = x.scaleFactor
  transform : y.deviceContext.transform = x.deviceContext.transform
  transition : Impl.ClipTransition x y

/-- The calls that the composition itself issues around a callback. -/
def NativeCall.isCompositionCall : NativeCall → Bool
  | .GetTransform | .SetTransform .. | .GetFactory | .CreateRectangleGeometry ..
  | .PushAxisAlignedClip .. | .PopAxisAlignedClip | .PushLayer .. | .PopLayer => true
  | _ => false

/-- What the composition does around a callback: it changes at most the applied clip and the
device, on which it issues composition calls only. -/
def Impl.CompositionStep (x y : Impl) : Prop :=
  ∃ ac t added hr,
    y = { x with applyClip := ac, deviceContext := ⟨t, x.deviceContext.calls ++ added, hr⟩ } ∧
    ∀ c ∈ added, c.isCompositionCall = true

/-- What a draw call may change in the context: the Draw State, the applied clip and the
device; the state stack, the scale factor, the session flag and the global transform stay. -/
def Impl.DrawFrame (x y : Impl) : Prop :=
  ∃ st ac dc, y = { x with state := st, applyClip := ac, deviceContext := dc }

/-- Whether `beginDraw` has been called since the last `endDraw` in a sequence of
operations, `opened` telling whether a session was open before the sequence. -/
def D2DGraphicsDeviceContext.sessionOpen (opened : Bool) :
    List D2DGraphicsDeviceContext.Op → Bool
  | [] => opened
  | .beginDraw :: ops => sessionOpen true ops
  | .endDraw :: ops => sessionOpen false ops
  | _ :: ops => sessionOpen opened ops

/-- A native stroked-rectangle call. -/
def NativeCall.isDrawRectangle : NativeCall → Bool
  | .DrawRectangle .. => true
  | _ => false

/-- The two mutations of the device registry. -/
inductive RegistryOp
  | addDevice (device : D2DGraphicsDevice)
  | removeDevice (device : D2DGraphicsDevice)
deriving DecidableEq, Repr

/-- Execute a mutation of the registry. -/
def RegistryOp.run : RegistryOp → D2DGraphicsDeviceFactory → D2DGraphicsDeviceFactory
  | .addDevice device, f => f.addDevice device
  | .removeDevice device, f => f.removeDevice device

/-- The registry after a sequence of mutations. -/
def runRegistry : List RegistryOp → D2DGraphicsDeviceFactory → D2DGraphicsDeviceFactory
  | [], f => f
  | op :: ops, f => runRegistry ops (op.run f)

/-- In the words of the spec: the registrations in force after a history of `register` and
`unregister` calls, each with the time (the position in the history, counted from `time`) of
the `register` that made it. `register` adds a registration; `unregister` withdraws the
earliest registration of the device and is a no-op if there is none. -/
def registrations (time : Nat) (regs : List (Nat × D2DGraphicsDevice)) :
    List RegistryOp → List (Nat × D2DGraphicsDevice)
  | [] => regs
  | .addDevice device :: ops => registrations (time + 1) (regs ++ [(time, device)]) ops
  | .removeDevice device :: ops =>
    registrations (time + 1) (regs.eraseP fun r => r.2 == device) ops

/-- In the words of the spec: the earliest-added registration, the one with the least time
among those in force; none if nothing is registered. -/
def earliestAdded : List (Nat × D2DGraphicsDevice) → Option (Nat × D2DGraphicsDevice)
  | [] => none
  | r :: rs =>
    match earliestAdded rs with
    | none => some r
    | some b => if b.1 < r.1 then some b else some r

/-- The calls of a context that draw: the primitives that run the composition, `clearRect`
and `drawPoint`. -/
def D2DGraphicsDeviceContext.Op.isDrawCall : D2DGraphicsDeviceContext.Op → Bool
  | .draw _ | .clearRect _ | .drawPoint .. => true
  | _ => false

/-- Number of `clearRect` calls in a sequence of operations. -/
def D2DGraphicsDeviceContext.clearRectCount : List D2DGraphicsDeviceContext.Op → Nat
  | [] => 0
  | .clearRect _ :: ops => clearRectCount ops + 1
  | _ :: ops => clearRectCount ops

/-- A clip transition as in `Impl.ClipTransition`, apart from `n` plain clips that were
pushed and popped again in between (the one-off clips of `clearRect`). -/
def Impl.ClipTransitionApart (n : Nat) (x y : Impl) : Prop :=
  (y.applyClip = x.applyClip ∧
    y.deviceContext.pushClipCount = x.deviceContext.pushClipCount + n ∧
    y.deviceContext.popClipCount = x.deviceContext.popClipCount + n) ∨
  (x.applyClip ≠ x.deviceClip ∧ y.applyClip = x.deviceClip ∧
    y.deviceContext.pushClipCount
      = x.deviceContext.pushClipCount + n + (if x.deviceClip.isEmpty then 0 else 1) ∧
    y.deviceContext.popClipCount
      = x.deviceContext.popClipCount + n + (if x.applyClip.isEmpty then 0 else 1))

/-- What a stretch of draw calls with `n` calls of `clearRect` leaves alone when no layer is
involved, as in `Impl.PlainStep`. -/
structure Impl.PlainStepApart (n : Nat) (x y : Impl) : Prop where
  clip : y.state.clip = x.state.clip
  tm : y.state.tm = x.state.tm
  globalTM : y.globalTM = x.globalTM
  scaleFactor : y.scaleFactor = x.scaleFactor
  transform : y.deviceContext.transform = x.deviceContext.transform
  transition : Impl.ClipTransitionApart n x y

/-- The plain clips applied on the device are tracked by the context: more
`PushAxisAlignedClip` than `PopAxisAlignedClip` have been issued only if `applyClip` is not
empty, and then one more. -/
def Impl.clipTracked (impl : Impl) : Prop :=
  impl.deviceContext.pushClipCount
    ≤ impl.deviceContext.popClipCount + (if impl.applyClip.isEmpty then 0 else 1)

/-- The composition of a draw call that runs `doInContext` exactly once: the context in
which the composition is entered, the draw callback and the transform offset, read off the
bodies of the primitives. It is `none` for a call that returns before the composition (no
path created, a path, gradient or bitmap of another kind, a bitmap without source or not
found in the cache) and for `drawPolygon` and `drawArc` with `FilledAndStroked`, which run
the composition twice. -/
def D2DGraphicsDeviceContext.DrawOp.composition (h : GeometryHelpers) :
    D2DGraphicsDeviceContext.DrawOp → Impl → Option (Impl × (Impl → Impl) × CPoint)
  | .drawLine line, impl =>
    some (impl, drawLineProc h line, impl.lineWidthTransformMatrixOffset)
  | .drawLines lines, impl =>
    some (impl, drawLinesProc h lines, impl.lineWidthTransformMatrixOffset)
  | .drawPolygon pathCreated pts drawStyle, impl =>
    if pathCreated = false then none
    else
      match polygonPath pts with
      | none => none
      | some elements =>
        match drawStyle with
        | .Filled => some (impl, drawGraphicsPathProc elements .Filled none, {})
        | .Stroked => some (impl, drawGraphicsPathProc elements .Stroked none, {})
        | .FilledAndStroked => none
  | .drawRect rect drawStyle, impl => some (impl, drawRectProc rect drawStyle, {})
  | .drawArc pathCreated rect a1 a2 drawStyle, impl =>
    if pathCreated = false then none
    else
      match drawStyle with
      | .Filled =>
        some (impl, drawGraphicsPathProc
          [PathElement.addArc (if impl.state.drawMode.integralMode then
            h.pixelAlignRect impl.state.tm rect else rect) a1 a2 true] .Filled none, {})
      | .Stroked =>
        some (impl, drawGraphicsPathProc
          [PathElement.addArc (if impl.state.drawMode.integralMode then
            h.pixelAlignRect impl.state.tm rect else rect) a1 a2 true] .Stroked none, {})
      | .FilledAndStroked => none
  | .drawEllipse rect drawStyle, impl => some (impl, drawEllipseProc h rect drawStyle, {})
  | .drawBitmap bitmap dest offset alpha quality, impl =>
    match bitmap with
    | .foreign => none
    | .d2d hasSource bitmapScaleFactor size deviceSize =>
      if hasSource = false then none
      else if (impl.tryNative .GetCachedBitmap).1 = false then none
      else
        some (setTransformMatrix ((impl.tryNative .GetCachedBitmap).2.state.tm *
            ({} : TransformMatrix).scale (1 / bitmapScaleFactor) (1 / bitmapScaleFactor))
            (impl.tryNative .GetCachedBitmap).2,
          drawBitmapProc h size deviceSize
            ((h.inverse (({} : TransformMatrix).scale (1 / bitmapScaleFactor)
              (1 / bitmapScaleFactor))).transform dest) offset alpha quality, {})
  | .drawGraphicsPath path mode transformation, impl =>
    match path with
    | .foreign => none
    | .d2d elements => some (impl, drawGraphicsPathProc elements mode transformation, {})
  | .fillLinearGradient path gradient p0 p1 _ transformation, impl =>
    match path, gradient with
    | .d2d elements, .d2d =>
      some (impl, fillLinearGradientProc elements p0 p1 transformation, {})
    | _, _ => none
  | .fillRadialGradient path gradient center radius originOffset _ transformation, impl =>
    match path, gradient with
    | .d2d elements, .d2d =>
      some (impl, fillRadialGradientProc elements center radius originOffset transformation, {})
    | _, _ => none
  | .drawTextLayout pos color antialias, impl =>
    some (impl, drawTextLayoutProc h pos color antialias, {})

/-! ## Theorems -/

open D2DGraphicsDeviceContext

/-! ### The native transform is restored (C2) -/

theorem Impl.doInContext_transform (p : Impl → Impl) (off : CPoint) (impl : Impl) :
    (impl.doInContext p off).deviceContext.transform = impl.deviceContext.transform := by
  unfold Impl.doInContext
  split
  · rfl
  · simp [TransformGuard.destroy, TransformGuard.create, ID2D1DeviceContext.SetTransform]

theorem Impl.tryNative_transform (impl : Impl) (c : NativeCall) :
    (impl.tryNative c).2.deviceContext.transform = impl.deviceContext.transform := by
  simp only [Impl.tryNative, ID2D1DeviceContext.tryCall]
  split <;> simp [ID2D1DeviceContext.call]

/-- C1 (defect of the code): after a draw call that pushed a layer, `applyClip` is the
non-empty logical clip although no plain clip is pushed on the device (pushes minus pops is
0, not 1), and the following `endDraw` pops a plain clip that was never pushed (one pop, no
push). -/
theorem C1_layer_draw_leaves_plain_clip_unbalanced :
    (runOps GeometryHelpers.plain true
        [.setter (.setClipRect rect10), .setter (.setTransformMatrix quarterTurn),
          .draw (.drawRect rect10 .Filled)]
        (Impl.create freshDevice {})).map
      (fun i => (i.applyClip.isEmpty, i.deviceContext.pushClipCount,
        i.deviceContext.popClipCount)) = some (false, 0, 0) ∧
    (runOps GeometryHelpers.plain true
        [.setter (.setClipRect rect10), .setter (.setTransformMatrix quarterTurn),
          .draw (.drawRect rect10 .Filled), .endDraw]
        (Impl.create freshDevice {})).map
      (fun i => (i.deviceContext.pushClipCount, i.deviceContext.popClipCount))
      = some (0, 1) := by
  decide!

/-- C2: every draw operation leaves the native device transform as it found it, for every
context state and native transform, whatever the logical clip and whatever the outcome of
the operation. -/
theorem C2_native_transform_restored (h : GeometryHelpers) (impl : Impl) :
    (∀ line, (drawLine h line impl).2.deviceContext.transform = impl.deviceContext.transform) ∧
    (∀ lines, (drawLines h lines impl).2.deviceContext.transform
      = impl.deviceContext.transform) ∧
    (∀ rect drawStyle, (drawRect rect drawStyle impl).2.deviceContext.transform
      = impl.deviceContext.transform) ∧
    (∀ rect drawStyle, (drawEllipse h rect drawStyle impl).2.deviceContext.transform
      = impl.deviceContext.transform) ∧
    (∀ path mode transformation,
      (drawGraphicsPath path mode transformation impl).2.deviceContext.transform
        = impl.deviceContext.transform) ∧
    (∀ path gradient p0 p1 evenOdd transformation,
      (fillLinearGradient path gradient p0 p1 evenOdd transformation impl).2.deviceContext.transform
        = impl.deviceContext.transform) ∧
    (∀ path gradient center radius originOffset evenOdd transformation,
      (fillRadialGradient path gradient center radius originOffset evenOdd transformation
        impl).2.deviceContext.transform = impl.deviceContext.transform) ∧
    (∀ bitmap dest offset alpha quality,
      (drawBitmap h bitmap dest offset alpha quality impl).2.deviceContext.transform
        = impl.deviceContext.transform) ∧
    (∀ pos color antialias, (drawTextLayout h pos color antialias impl).deviceContext.transform
      = impl.deviceContext.transform) ∧
    (∀ rect, (clearRect rect impl).2.deviceContext.transform = impl.deviceContext.transform) := by
  refine ⟨?_, ?_, ?_, ?_, ?_, ?_, ?_, ?_, ?_, ?_⟩
  · intro line; simp [drawLine, Impl.doInContext_transform]
  · intro lines; simp [drawLines, Impl.doInContext_transform]
  · intro rect drawStyle; simp [drawRect, Impl.doInContext_transform]
  · intro rect drawStyle; simp [drawEllipse, Impl.doInContext_transform]
  · intro path mode transformation
    cases path <;> simp [drawGraphicsPath, Impl.doInContext_transform]
  · intro path gradient p0 p1 evenOdd transformation
    cases path <;> cases gradient <;> simp [fillLinearGradient, Impl.doInContext_transform]
  · intro path gradient center radius originOffset evenOdd transformation
    cases path <;> cases gradient <;> simp [fillRadialGradient, Impl.doInContext_transform]
  · intro bitmap dest offset alpha quality
    cases bitmap with
    | foreign => simp [drawBitmap]
    | d2d hasSource sf size deviceSize =>
      simp only [drawBitmap]
      split
      · rfl
      · split
        · simp [Impl.tryNative_transform]
        · simp [setTransformMatrix, Impl.doInContext_transform, Impl.tryNative_transform]
  · intro pos color antialias; simp [drawTextLayout, Impl.doInContext_transform]
  · intro rect
    simp [clearRect, TransformGuard.destroy, TransformGuard.create,
      ID2D1DeviceContext.SetTransform]

/-! ### Save and restore (C3) -/

theorem setter_run_frame (s : Setter) (impl : Impl) :
    s.run impl = { impl with state := (s.run impl).state } := by
  cases s <;>
    simp only [Setter.run, setLineWidth, setClipRect, setTransformMatrix, setDrawMode,
      setLineStyle, setFillColor, setFrameColor, setGlobalAlpha] <;>
    first
    | rfl
    | (split <;> rfl)

theorem runSetters_frame (ss : List Setter) (impl : Impl) :
    runSetters ss impl = { impl with state := (runSetters ss impl).state } := by
  induction ss generalizing impl with
  | nil => rfl
  | cons s ss ih =>
    simp only [runSetters]
    rw [ih (s.run impl), setter_run_frame s impl]

/-- C3: whatever setters run between `saveGlobalState` and the matching
`restoreGlobalState`, the restore succeeds and gives back the context of the moment of the
save, so the Draw State is the saved one and the stack is the one before the save; in
particular `save (); setLineWidth (5); restore ()` leaves the line width alone. -/
theorem C3_save_restore_round_trip (ndebug : Bool) (ss : List Setter) (impl : Impl) :
    restoreGlobalState ndebug (runSetters ss (saveGlobalState impl)) = some impl ∧
    (restoreGlobalState ndebug (runSetters ss (saveGlobalState impl))).map
      (fun i => (i.state, i.stateStack)) = some (impl.state, impl.stateStack) ∧
    (restoreGlobalState ndebug (setLineWidth 5 (saveGlobalState impl))).map
      (fun i => i.state.lineWidth) = some impl.state.lineWidth := by
  have key : restoreGlobalState ndebug (runSetters ss (saveGlobalState impl)) = some impl := by
    rw [runSetters_frame]
    simp [restoreGlobalState, saveGlobalState]
  refine ⟨key, ?_, ?_⟩
  · rw [key]; rfl
  · simp [restoreGlobalState, saveGlobalState, setLineWidth]

/-! ### Cache invalidation by the setters (C5) -/

/-- C5: each colour, alpha and line-style setter stores the new value, clears its dependent
cached resource exactly when the new value differs from the old one, and changes nothing
else; after `setFillColor` the next use of the fill brush issues one brush creation, except
when the value was the old one and a brush is cached, where it issues none. -/
theorem C5_setters_invalidate_exactly_on_change (impl : Impl) :
    (∀ c, (setFillColor c impl).state.fillColor = c ∧
      (setFillColor c impl).state.fillBrush
        = (if c = impl.state.fillColor then impl.state.fillBrush else none) ∧
      { setFillColor c impl with state := { (setFillColor c impl).state with
          fillColor := impl.state.fillColor, fillBrush := impl.state.fillBrush } } = impl) ∧
    (∀ c, (setFrameColor c impl).state.frameColor = c ∧
      (setFrameColor c impl).state.frameBrush
        = (if c = impl.state.frameColor then impl.state.frameBrush else none) ∧
      { setFrameColor c impl with state := { (setFrameColor c impl).state with
          frameColor := impl.state.frameColor, frameBrush := impl.state.frameBrush } } = impl) ∧
    (∀ style, (setLineStyle style impl).state.lineStyle = style ∧
      (setLineStyle style impl).state.strokeStyle
        = (if style = impl.state.lineStyle then impl.state.strokeStyle else none) ∧
      { setLineStyle style impl with state := { (setLineStyle style impl).state with
          lineStyle := impl.state.lineStyle, strokeStyle := impl.state.strokeStyle } } = impl) ∧
    (∀ a, (setGlobalAlpha a impl).state.globalAlpha = a ∧
      ((setGlobalAlpha a impl).state.fillBrush, (setGlobalAlpha a impl).state.frameBrush,
          (setGlobalAlpha a impl).state.fontBrush)
        = (if a = impl.state.globalAlpha then
            (impl.state.fillBrush, impl.state.frameBrush, impl.state.fontBrush)
          else (none, none, none)) ∧
      { setGlobalAlpha a impl with state := { (setGlobalAlpha a impl).state with
          globalAlpha := impl.state.globalAlpha, fillBrush := impl.state.fillBrush,
          frameBrush := impl.state.frameBrush, fontBrush := impl.state.fontBrush } } = impl) ∧
    (∀ c, setFillColor c (setFillColor c impl) = setFillColor c impl) ∧
    (∀ c, ((setFillColor c impl).applyFillColor).deviceContext.calls
      = (if c = impl.state.fillColor ∧ impl.state.fillBrush.isSome then impl.deviceContext.calls
        else impl.deviceContext.calls ++ [.CreateSolidColorBrush c impl.state.globalAlpha])) := by
  obtain ⟨st, stack, sf, ac, bd, gtm, dc⟩ := impl
  obtain ⟨clip, ls, dm, ss, fb, frb, fob, fc, frc, foc, lw, ga, tm⟩ := st
  refine ⟨?_, ?_, ?_, ?_, ?_, ?_⟩
  · intro c
    by_cases hc : fc = c
    · subst hc; simp [setFillColor]
    · have hc2 : ¬ c = fc := fun e => hc e.symm
      simp [setFillColor, hc, hc2]
  · intro c
    by_cases hc : frc = c
    · subst hc; simp [setFrameColor]
    · have hc2 : ¬ c = frc := fun e => hc e.symm
      simp [setFrameColor, hc, hc2]
  · intro c
    by_cases hc : ls = c
    · subst hc; simp [setLineStyle]
    · have hc2 : ¬ c = ls := fun e => hc e.symm
      simp [setLineStyle, hc, hc2]
  · intro c
    by_cases hc : ga = c
    · subst hc; simp [setGlobalAlpha]
    · have hc2 : ¬ c = ga := fun e => hc e.symm
      simp [setGlobalAlpha, hc, hc2]
  · intro c
    by_cases hc : fc = c
    · subst hc; simp [setFillColor]
    · simp [setFillColor, hc]
  · intro c
    obtain ⟨t, calls, hr⟩ := dc
    by_cases hc : fc = c
    · subst hc
      cases fb <;> cases hr <;>
        simp [setFillColor, Impl.applyFillColor, Impl.tryNative, ID2D1DeviceContext.tryCall,
          ID2D1DeviceContext.call]
    · have hc2 : ¬ c = fc := fun e => hc e.symm
      cases hr <;>
        simp [setFillColor, Impl.applyFillColor, Impl.tryNative, ID2D1DeviceContext.tryCall,
          ID2D1DeviceContext.call, hc, hc2]

/-! ### The pixel offset of odd line widths (C10) -/

theorem Impl.toInt32_intCast (n : ℤ) (h1 : -2147483648 ≤ n) (h2 : n ≤ 2147483647) :
    Impl.toInt32 (n : CCoord) = n := by
  simp [Impl.toInt32, h1, h2]

theorem Impl.toInt32_range (x : CCoord) :
    -2147483648 ≤ Impl.toInt32 x ∧ Impl.toInt32 x ≤ 2147483647 := by
  unfold Impl.toInt32
  simp only
  split
  · assumption
  · constructor <;> decide

theorem Impl.tmod_two_ne_zero_iff_odd (n : ℤ) : n.tmod 2 ≠ 0 ↔ Odd n := by
  rw [← Int.not_even_iff_odd, even_iff_two_dvd, Int.dvd_iff_tmod_eq_zero]

theorem Impl.lineWidthTransformMatrixOffset_eq (impl : Impl) :
    impl.lineWidthTransformMatrixOffset =
      if ((Impl.toInt32 impl.state.lineWidth : CCoord) = impl.state.lineWidth) ∧
          (Impl.toInt32 impl.state.lineWidth).tmod 2 ≠ 0 then { x := 1 / 2, y := 1 / 2 }
      else {} := rfl

theorem Impl.offset_cond_iff (w : CCoord) :
    (((Impl.toInt32 w : CCoord) = w) ∧ (Impl.toInt32 w).tmod 2 ≠ 0) ↔
      ∃ n : ℤ, (n : CCoord) = w ∧ Odd n ∧ -2147483648 ≤ n ∧ n ≤ 2147483647 := by
  constructor
  · rintro ⟨h1, h2⟩
    exact ⟨Impl.toInt32 w, h1, (Impl.tmod_two_ne_zero_iff_odd _).1 h2, Impl.toInt32_range w⟩
  · rintro ⟨n, rfl, hodd, hlo, hhi⟩
    rw [Impl.toInt32_intCast n hlo hhi]
    exact ⟨rfl, (Impl.tmod_two_ne_zero_iff_odd n).2 hodd⟩

/-- C10, the claim as stated fails: the line width 1.5 truncates to the odd integer 1, yet
`lineWidthTransformMatrixOffset` is `(0, 0)`. -/
theorem C10_counterexample_fractional_width :
    Impl.toInt32 (3 / 2) = 1 ∧
    (setLineWidth (3 / 2) (Impl.create freshDevice {})).lineWidthTransformMatrixOffset
      = { x := 0, y := 0 } := by
  decide!

/-- C10, amended: the offset that `drawLine` and `drawLines` hand to the composition is
`(0.5, 0.5)` exactly when the line width is itself an odd integer (within the range of
`int32_t`), and `(0, 0)` in every other case; width 1 is offset, width 2 is not. -/
theorem C10_offset_iff_width_is_odd_integer (h : GeometryHelpers) (impl : Impl) :
    (impl.lineWidthTransformMatrixOffset = { x := 1 / 2, y := 1 / 2 } ↔
      ∃ n : ℤ, (n : CCoord) = impl.state.lineWidth ∧ Odd n ∧
        -2147483648 ≤ n ∧ n ≤ 2147483647) ∧
    (impl.lineWidthTransformMatrixOffset = { x := 0, y := 0 } ↔
      ¬ ∃ n : ℤ, (n : CCoord) = impl.state.lineWidth ∧ Odd n ∧
        -2147483648 ≤ n ∧ n ≤ 2147483647) ∧
    (∀ line, drawLine h line impl
      = (true, impl.doInContext (drawLineProc h line) impl.lineWidthTransformMatrixOffset)) ∧
    (∀ lines, drawLines h lines impl
      = (true, impl.doInContext (drawLinesProc h lines) impl.lineWidthTransformMatrixOffset)) ∧
    (setLineWidth 1 impl).lineWidthTransformMatrixOffset = { x := 1 / 2, y := 1 / 2 } ∧
    (setLineWidth 2 impl).lineWidthTransformMatrixOffset = { x := 0, y := 0 } := by
  have hne : ({ x := 1 / 2, y := 1 / 2 } : CPoint) ≠ { x := 0, y := 0 } := by decide!
  refine ⟨?_, ?_, fun _ => rfl, fun _ => rfl, ?_, ?_⟩
  · rw [← Impl.offset_cond_iff, Impl.lineWidthTransformMatrixOffset_eq]
    constructor
    · intro hoff
      by_contra hc
      rw [if_neg hc] at hoff
      exact hne hoff.symm
    · intro hc
      rw [if_pos hc]
  · rw [← Impl.offset_cond_iff, Impl.lineWidthTransformMatrixOffset_eq]
    constructor
    · intro hoff hc
      rw [if_pos hc] at hoff
      exact hne hoff
    · intro hc
      rw [if_neg hc]
  · have : (setLineWidth 1 impl).state.lineWidth = ((1 : ℤ) : CCoord) := by
      simp [setLineWidth]
    rw [Impl.lineWidthTransformMatrixOffset_eq, this,
      Impl.toInt32_intCast 1 (by decide) (by decide)]
    rw [if_pos ⟨rfl, by decide⟩]
  · have : (setLineWidth 2 impl).state.lineWidth = ((2 : ℤ) : CCoord) := by
      simp [setLineWidth]
    rw [Impl.lineWidthTransformMatrixOffset_eq, this,
      Impl.toInt32_intCast 2 (by decide) (by decide)]
    simp

/-! ### The shape of the composition -/

theorem Impl.doInContext_eq (p : Impl → Impl) (off : CPoint) (impl : Impl) :
    impl.doInContext p off =
      if impl.state.clip.isEmpty then impl
      else Impl.leaveContext (impl.enterContext off).1 impl.deviceContext.transform
        (p (impl.enterContext off).2) := rfl

theorem Impl.pushClipLayer_frame (impl : Impl) :
    ∃ ac dc, impl.pushClipLayer.2 = { impl with applyClip := ac, deviceContext := dc } := by
  unfold Impl.pushClipLayer
  simp only
  split
  · split <;> exact ⟨_, _, rfl⟩
  · exact ⟨_, _, rfl⟩

theorem Impl.pushAxisAlignedClip_frame (impl : Impl) :
    ∃ ac dc, impl.pushAxisAlignedClip = { impl with applyClip := ac, deviceContext := dc } := by
  unfold Impl.pushAxisAlignedClip
  simp only
  split
  · split <;> split <;> exact ⟨_, _, rfl⟩
  · exact ⟨_, _, rfl⟩

theorem Impl.enterContext_frame (off : CPoint) (impl : Impl) :
    ∃ ac dc, (impl.enterContext off).2 = { impl with applyClip := ac, deviceContext := dc } := by
  unfold Impl.enterContext
  simp only
  split
  · obtain ⟨ac, dc, h1⟩ := Impl.pushClipLayer_frame
      { impl with deviceContext := (TransformGuard.create impl.deviceContext).2 }
    split
    · obtain ⟨ac2, dc2, h2⟩ := Impl.pushAxisAlignedClip_frame
        ({ impl with deviceContext := (TransformGuard.create impl.deviceContext).2 } :
          Impl).pushClipLayer.2
      rw [h2, h1]
      exact ⟨_, _, rfl⟩
    · rw [h1]
      exact ⟨_, _, rfl⟩
  · simp only [↓reduceIte]
    obtain ⟨ac2, dc2, h2⟩ := Impl.pushAxisAlignedClip_frame
      { impl with deviceContext := (TransformGuard.create impl.deviceContext).2 }
    rw [h2]
    exact ⟨_, _, rfl⟩

theorem Impl.leaveContext_frame (useLayer : Bool) (matrix : TransformMatrix) (impl : Impl) :
    ∃ dc, Impl.leaveContext useLayer matrix impl = { impl with deviceContext := dc } := by
  unfold Impl.leaveContext
  cases useLayer <;> exact ⟨_, rfl⟩

/-- The composition hands the Draw State and the state stack unchanged to the callback and
returns the ones the callback leaves. -/
theorem Impl.doInContext_preserves (P : State → List State → Prop) (p : Impl → Impl)
    (hp : ∀ x, P x.state x.stateStack → P (p x).state (p x).stateStack)
    (off : CPoint) (impl : Impl) (h0 : P impl.state impl.stateStack) :
    P (impl.doInContext p off).state (impl.doInContext p off).stateStack := by
  rw [Impl.doInContext_eq]
  split
  · exact h0
  · obtain ⟨dc, h1⟩ := Impl.leaveContext_frame (impl.enterContext off).1
      impl.deviceContext.transform (p (impl.enterContext off).2)
    obtain ⟨ac, dc2, h2⟩ := Impl.enterContext_frame off impl
    rw [h1]
    apply hp
    rw [h2]
    exact h0

/-! ### What the draw callbacks do -/

theorem Impl.ProcStep.idle (x : Impl) : Impl.ProcStep x x :=
  ⟨⟨_, _, rfl⟩, id, rfl, rfl, rfl, ⟨[], by simp, by simp⟩⟩

theorem Impl.ProcStep.andThen {x y z : Impl} (h1 : Impl.ProcStep x y) (h2 : Impl.ProcStep y z) :
    Impl.ProcStep x z := by
  obtain ⟨⟨st1, dc1, e1⟩, v1, c1, t1, tr1, ⟨a1, ca1, q1⟩⟩ := h1
  obtain ⟨⟨st2, dc2, e2⟩, v2, c2, t2, tr2, ⟨a2, ca2, q2⟩⟩ := h2
  refine ⟨⟨st2, dc2, ?_⟩, fun hv => v2 (v1 hv), c2.trans c1, t2.trans t1, tr2.trans tr1,
    ⟨a1 ++ a2, ?_, ?_⟩⟩
  · rw [e2, e1]
  · rw [ca2, ca1, List.append_assoc]
  · intro c hc
    rcases List.mem_append.1 hc with hc | hc
    · exact q1 c hc
    · exact q2 c hc

theorem Impl.ProcStep.ofNative (x : Impl) (c : NativeCall) (hc : c.isContextCall = false) :
    Impl.ProcStep x (x.native c) :=
  ⟨⟨_, _, rfl⟩, id, rfl, rfl, rfl, ⟨[c], rfl, by simpa using hc⟩⟩

theorem Impl.ProcStep.ofTryNative (x : Impl) (c : NativeCall) (hc : c.isContextCall = false) :
    Impl.ProcStep x (x.tryNative c).2 := by
  refine ⟨⟨_, _, rfl⟩, id, rfl, rfl, ?_, ⟨[c], ?_, by simpa using hc⟩⟩
  · exact Impl.tryNative_transform x c
  · simp only [Impl.tryNative, ID2D1DeviceContext.tryCall]
    split <;> rfl

/-- Storing a resource in the Draw State that is valid for it. -/
theorem Impl.ProcStep.of_setState (x : Impl) (st : State) (hv : x.state.cacheValid → st.cacheValid)
    (hclip : st.clip = x.state.clip) (htm : st.tm = x.state.tm) :
    Impl.ProcStep x { x with state := st } :=
  ⟨⟨_, _, rfl⟩, hv, hclip, htm, rfl, ⟨[], by simp, by simp⟩⟩

theorem Impl.ProcStep.of_applyFillColor (x : Impl) : Impl.ProcStep x x.applyFillColor := by
  unfold Impl.applyFillColor
  split
  · exact Impl.ProcStep.idle x
  · rename_i hb
    refine (Impl.ProcStep.ofTryNative x _ ?_).andThen (Impl.ProcStep.of_setState _ _ ?_ rfl rfl)
    · rfl
    rintro ⟨h1, h2, h3, h4⟩
    refine ⟨?_, h2, h3, h4⟩
    intro b hb2
    split at hb2
    · cases hb2; rfl
    · cases hb2

theorem Impl.ProcStep.of_applyFrameColor (x : Impl) : Impl.ProcStep x x.applyFrameColor := by
  unfold Impl.applyFrameColor
  split
  · exact Impl.ProcStep.idle x
  · refine (Impl.ProcStep.ofTryNative x _ ?_).andThen (Impl.ProcStep.of_setState _ _ ?_ rfl rfl)
    · rfl
    rintro ⟨h1, h2, h3, h4⟩
    refine ⟨h1, ?_, h3, h4⟩
    intro b hb2
    split at hb2
    · cases hb2; rfl
    · cases hb2

theorem Impl.ProcStep.of_applyLineStyle (x : Impl) : Impl.ProcStep x x.applyLineStyle := by
  unfold Impl.applyLineStyle
  split
  · exact Impl.ProcStep.idle x
  · refine ((Impl.ProcStep.ofNative x _ ?_).andThen (Impl.ProcStep.ofTryNative _ _ ?_)).andThen
      (Impl.ProcStep.of_setState _ _ ?_ rfl rfl)
    · rfl
    · rfl
    rintro ⟨h1, h2, h3, h4⟩
    refine ⟨h1, h2, h3, ?_⟩
    intro b hb2
    split at hb2
    · cases hb2; rfl
    · cases hb2

/-- The last two steps of `applyFontColor`: store the colour, create the brush. -/
theorem Impl.ProcStep.of_createFontBrush (color : CColor) (y : Impl)
    (hnone : y.state.fontBrush = none) :
    Impl.ProcStep y
      { (({ y with state := { y.state with fontColor := color } } : Impl).tryNative
          (.CreateSolidColorBrush color y.state.globalAlpha)).2 with
        state := { y.state with
          fontColor := color
          fontBrush := if (({ y with state := { y.state with fontColor := color } } : Impl).tryNative
            (.CreateSolidColorBrush color y.state.globalAlpha)).1
            then some ⟨color, y.state.globalAlpha⟩ else none } } := by
  have step2 : Impl.ProcStep y { y with state := { y.state with fontColor := color } } := by
    refine Impl.ProcStep.of_setState _ _ ?_ rfl rfl
    rintro ⟨h1, h2, h3, h4⟩
    refine ⟨h1, h2, ?_, h4⟩
    intro b hb
    simp only at hb
    rw [hb] at hnone
    cases hnone
  refine (step2.andThen (Impl.ProcStep.ofTryNative _ _ ?_)).andThen
    (Impl.ProcStep.of_setState _ _ ?_ rfl rfl)
  · rfl
  rintro ⟨h1, h2, h3, h4⟩
  refine ⟨h1, h2, ?_, h4⟩
  intro b hb2
  simp only at hb2
  split at hb2
  · cases hb2; rfl
  · cases hb2

theorem Impl.ProcStep.of_applyFontColor (color : CColor) (x : Impl) :
    Impl.ProcStep x (x.applyFontColor color) := by
  unfold Impl.applyFontColor
  by_cases hcol : x.state.fontColor ≠ color
  · simp only [if_pos hcol, Option.isSome_none, Bool.false_eq_true, if_false]
    have step1 : Impl.ProcStep x { x with state := { x.state with fontBrush := none } } := by
      refine Impl.ProcStep.of_setState _ _ ?_ rfl rfl
      rintro ⟨h1, h2, h3, h4⟩
      refine ⟨h1, h2, ?_, h4⟩
      intro b hb
      cases hb
    exact step1.andThen (Impl.ProcStep.of_createFontBrush color _ rfl)
  · simp only [if_neg hcol]
    split
    · exact Impl.ProcStep.idle x
    · rename_i hnone
      have hnone2 : x.state.fontBrush = none := by
        cases hb : x.state.fontBrush with
        | none => rfl
        | some b => rw [hb] at hnone; simp at hnone
      exact Impl.ProcStep.of_createFontBrush color x hnone2

theorem ProcStep_drawLineProc (h : GeometryHelpers) (line : LinePair) (x : Impl) :
    Impl.ProcStep x (drawLineProc h line x) := by
  unfold drawLineProc
  refine ((Impl.ProcStep.of_applyFrameColor x).andThen (Impl.ProcStep.of_applyLineStyle _)).andThen
    (Impl.ProcStep.ofNative _ _ ?_)
  rfl

theorem ProcStep_foldl_native (f : Impl → LinePair → NativeCall)
    (hf : ∀ acc line, (f acc line).isContextCall = false) (lines : List LinePair) (x : Impl) :
    Impl.ProcStep x (lines.foldl (fun acc line => acc.native (f acc line)) x) := by
  induction lines generalizing x with
  | nil => exact Impl.ProcStep.idle x
  | cons l ls ih =>
    simp only [List.foldl_cons]
    exact (Impl.ProcStep.ofNative x _ (hf x l)).andThen (ih _)

theorem ProcStep_drawLinesProc (h : GeometryHelpers) (lines : List LinePair) (x : Impl) :
    Impl.ProcStep x (drawLinesProc h lines x) := by
  unfold drawLinesProc
  have h12 := (Impl.ProcStep.of_applyFrameColor x).andThen (Impl.ProcStep.of_applyLineStyle _)
  simp only
  split
  · exact h12.andThen (ProcStep_foldl_native
      (fun acc line => NativeCall.DrawLine (h.pixelAlignPoint acc.state.tm line.1)
        (h.pixelAlignPoint acc.state.tm line.2) acc.state.frameBrush acc.state.lineWidth
        acc.state.strokeStyle) (fun _ _ => rfl) lines _)
  · exact h12.andThen (ProcStep_foldl_native
      (fun acc line => NativeCall.DrawLine line.1 line.2 acc.state.frameBrush
        acc.state.lineWidth acc.state.strokeStyle) (fun _ _ => rfl) lines _)

theorem ProcStep_fillStep (x : Impl) (c : Prop) [Decidable c]
    (f : Impl → NativeCall) (hf : ∀ i, (f i).isContextCall = false) :
    Impl.ProcStep x (if c then x.applyFillColor.native (f x.applyFillColor) else x) := by
  split
  · exact (Impl.ProcStep.of_applyFillColor x).andThen (Impl.ProcStep.ofNative _ _ (hf _))
  · exact Impl.ProcStep.idle x

theorem ProcStep_strokeStep (x : Impl) (c : Prop) [Decidable c]
    (f : Impl → NativeCall) (hf : ∀ i, (f i).isContextCall = false) :
    Impl.ProcStep x (if c then x.applyFrameColor.applyLineStyle.native
      (f x.applyFrameColor.applyLineStyle) else x) := by
  split
  · exact ((Impl.ProcStep.of_applyFrameColor x).andThen (Impl.ProcStep.of_applyLineStyle _)).andThen
      (Impl.ProcStep.ofNative _ _ (hf _))
  · exact Impl.ProcStep.idle x

theorem ProcStep_drawRectProc (rect : CRect) (drawStyle : PlatformGraphicsDrawStyle) (x : Impl) :
    Impl.ProcStep x (drawRectProc rect drawStyle x) := by
  unfold drawRectProc
  exact (ProcStep_fillStep x _ (fun i => NativeCall.FillRectangle _ i.state.fillBrush)
    (fun _ => rfl)).andThen
    (ProcStep_strokeStep _ _ (fun i => NativeCall.DrawRectangle _ i.state.frameBrush
      i.state.lineWidth i.state.strokeStyle) (fun _ => rfl))

theorem ProcStep_drawEllipseProc (h : GeometryHelpers) (rect : CRect)
    (drawStyle : PlatformGraphicsDrawStyle) (x : Impl) :
    Impl.ProcStep x (drawEllipseProc h rect drawStyle x) := by
  unfold drawEllipseProc
  exact (ProcStep_fillStep x _ (fun i => NativeCall.FillEllipse _ _ _ i.state.fillBrush)
    (fun _ => rfl)).andThen
    (ProcStep_strokeStep _ _ (fun i => NativeCall.DrawEllipse _ _ _ i.state.frameBrush
      i.state.lineWidth i.state.strokeStyle) (fun _ => rfl))

theorem ProcStep_pathGeometry (elements : List PathElement)
    (transformation : Option TransformMatrix) (x : Impl) :
    Impl.ProcStep x (pathGeometry elements transformation x).2 := by
  unfold pathGeometry
  cases transformation with
  | none => exact Impl.ProcStep.ofTryNative x _ rfl
  | some t =>
    exact (Impl.ProcStep.ofNative x .GetFactory rfl).andThen (Impl.ProcStep.ofTryNative _ _ rfl)

theorem ProcStep_drawGraphicsPathProc (elements : List PathElement)
    (mode : PlatformGraphicsPathDrawMode) (transformation : Option TransformMatrix) (x : Impl) :
    Impl.ProcStep x (drawGraphicsPathProc elements mode transformation x) := by
  unfold drawGraphicsPathProc
  have hg := ProcStep_pathGeometry elements transformation x
  simp only
  split
  · split
    · exact hg.andThen ((Impl.ProcStep.of_applyFillColor _).andThen (Impl.ProcStep.ofNative _ _ rfl))
    · split
      · exact hg.andThen (((Impl.ProcStep.of_applyFrameColor _).andThen
          (Impl.ProcStep.of_applyLineStyle _)).andThen (Impl.ProcStep.ofNative _ _ rfl))
      · exact hg
  · exact hg

theorem ProcStep_drawBitmapProc (h : GeometryHelpers) (size deviceSize : CPoint) (dest : CRect)
    (offset : CPoint) (alpha : CCoord) (quality : BitmapInterpolationQuality) (x : Impl) :
    Impl.ProcStep x (drawBitmapProc h size deviceSize dest offset alpha quality x) := by
  unfold drawBitmapProc
  exact Impl.ProcStep.ofNative x _ rfl

theorem ProcStep_fillLinearGradientProc (elements : List PathElement) (p0 p1 : CPoint)
    (transformation : Option TransformMatrix) (x : Impl) :
    Impl.ProcStep x (fillLinearGradientProc elements p0 p1 transformation x) := by
  unfold fillLinearGradientProc
  have hs := Impl.ProcStep.ofTryNative x (.CreateGradientStopCollection x.state.globalAlpha) rfl
  simp only
  split
  · exact hs
  · have hg := hs.andThen (ProcStep_pathGeometry elements transformation _)
    split
    · have hb := hg.andThen (Impl.ProcStep.ofTryNative _ (.CreateLinearGradientBrush p0 p1) rfl)
      split
      · exact hb.andThen (Impl.ProcStep.ofNative _ _ rfl)
      · exact hb
    · exact hg

theorem ProcStep_fillRadialGradientProc (elements : List PathElement) (center : CPoint)
    (radius : CCoord) (originOffset : CPoint) (transformation : Option TransformMatrix)
    (x : Impl) :
    Impl.ProcStep x
      (fillRadialGradientProc elements center radius originOffset transformation x) := by
  unfold fillRadialGradientProc
  have hs := Impl.ProcStep.ofTryNative x (.CreateGradientStopCollection x.state.globalAlpha) rfl
  simp only
  split
  · exact hs
  · have hg := hs.andThen (ProcStep_pathGeometry elements transformation _)
    split
    · have hb := hg.andThen
        (Impl.ProcStep.ofTryNative _ (.CreateRadialGradientBrush center radius originOffset) rfl)
      split
      · exact hb.andThen (Impl.ProcStep.ofNative _ _ rfl)
      · exact hb
    · exact hg

theorem ProcStep_drawTextLayoutProc (h : GeometryHelpers) (pos : CPoint) (color : CColor)
    (antialias : Bool) (x : Impl) :
    Impl.ProcStep x (drawTextLayoutProc h pos color antialias x) := by
  unfold drawTextLayoutProc
  exact ((Impl.ProcStep.ofNative x (.SetTextAntialiasMode antialias) rfl).andThen
    (Impl.ProcStep.of_applyFontColor color _)).andThen
    (Impl.ProcStep.ofNative _ _ rfl)

/-! ### Validity of the cached brushes and stroke style (C4) -/

theorem Impl.ProcStep.preservesCache {x y : Impl} (hs : Impl.ProcStep x y)
    (hv : x.cacheValid) : y.cacheValid := by
  obtain ⟨st, dc, e⟩ := hs.frame
  refine ⟨hs.cacheValid hv.1, ?_⟩
  rw [e]
  exact hv.2

theorem Impl.doInContext_cacheValid (p : Impl → Impl) (hp : ∀ x, Impl.ProcStep x (p x))
    (off : CPoint) (impl : Impl) (hv : impl.cacheValid) : (impl.doInContext p off).cacheValid :=
  Impl.doInContext_preserves (fun st stack => st.cacheValid ∧ ∀ s ∈ stack, s.cacheValid) p
    (fun x hx => (hp x).preservesCache hx) off impl hv

theorem Impl.cacheValid_of_state_eq {x y : Impl} (h1 : y.state = x.state)
    (h2 : y.stateStack = x.stateStack) (hv : x.cacheValid) : y.cacheValid := by
  unfold Impl.cacheValid
  rw [h1, h2]
  exact hv

theorem Impl.create_cacheValid (dc : ID2D1DeviceContext) (tm : TransformMatrix) :
    (Impl.create dc tm).cacheValid := by
  refine ⟨⟨?_, ?_, ?_, ?_⟩, ?_⟩
  · intro b hb; cases hb
  · intro b hb; cases hb
  · intro b hb; cases hb
  · intro b hb; cases hb
  · intro s hs; cases hs

theorem State.cacheValid_of_fields (s : State)
    (h1 : ∀ b, s.fillBrush = some b → b = ⟨s.fillColor, s.globalAlpha⟩)
    (h2 : ∀ b, s.frameBrush = some b → b = ⟨s.frameColor, s.globalAlpha⟩)
    (h3 : ∀ b, s.fontBrush = some b → b = ⟨s.fontColor, s.globalAlpha⟩)
    (h4 : ∀ st, s.strokeStyle = some st → st = ⟨s.lineStyle⟩) : s.cacheValid :=
  ⟨h1, h2, h3, h4⟩

theorem Impl.cacheValid_of_parts (impl : Impl) (h1 : impl.state.cacheValid)
    (h2 : ∀ s ∈ impl.stateStack, s.cacheValid) : impl.cacheValid := ⟨h1, h2⟩

theorem setter_run_cacheValid (s : Setter) (impl : Impl) (hv : impl.cacheValid) :
    (s.run impl).cacheValid := by
  obtain ⟨⟨h1, h2, h3, h4⟩, hstack⟩ := hv
  cases s with
  | setLineWidth w => exact ⟨⟨h1, h2, h3, h4⟩, hstack⟩
  | setClipRect c => exact ⟨⟨h1, h2, h3, h4⟩, hstack⟩
  | setTransformMatrix t => exact ⟨⟨h1, h2, h3, h4⟩, hstack⟩
  | setDrawMode m => exact ⟨⟨h1, h2, h3, h4⟩, hstack⟩
  | setLineStyle style =>
    simp only [Setter.run, setLineStyle]
    split
    · refine Impl.cacheValid_of_parts _ (State.cacheValid_of_fields _ h1 h2 h3 ?_) hstack
      intro b hb; cases hb
    · exact ⟨⟨h1, h2, h3, h4⟩, hstack⟩
  | setFillColor c =>
    simp only [Setter.run, setFillColor]
    split
    · refine Impl.cacheValid_of_parts _ (State.cacheValid_of_fields _ ?_ h2 h3 h4) hstack
      intro b hb; cases hb
    · exact ⟨⟨h1, h2, h3, h4⟩, hstack⟩
  | setFrameColor c =>
    simp only [Setter.run, setFrameColor]
    split
    · refine Impl.cacheValid_of_parts _ (State.cacheValid_of_fields _ h1 ?_ h3 h4) hstack
      intro b hb; cases hb
    · exact ⟨⟨h1, h2, h3, h4⟩, hstack⟩
  | setGlobalAlpha a =>
    simp only [Setter.run, setGlobalAlpha]
    split
    · refine Impl.cacheValid_of_parts _ (State.cacheValid_of_fields _ ?_ ?_ ?_ h4) hstack
      · intro b hb; cases hb
      · intro b hb; cases hb
      · intro b hb; cases hb
    · exact ⟨⟨h1, h2, h3, h4⟩, hstack⟩

theorem drawGraphicsPath_cacheValid (path : IPlatformGraphicsPath)
    (mode : PlatformGraphicsPathDrawMode) (transformation : Option TransformMatrix)
    (impl : Impl) (hv : impl.cacheValid) :
    (drawGraphicsPath path mode transformation impl).2.cacheValid := by
  cases path with
  | foreign => exact hv
  | d2d elements =>
    exact Impl.doInContext_cacheValid _
      (ProcStep_drawGraphicsPathProc elements mode transformation) _ impl hv

theorem drawOp_run_cacheValid (h : GeometryHelpers) (d : DrawOp) (impl : Impl)
    (r : Bool × Impl) (hr : d.run h impl = some r) (hv : impl.cacheValid) :
    r.2.cacheValid := by
  cases d with
  | drawLine line =>
    cases hr
    exact Impl.doInContext_cacheValid _ (ProcStep_drawLineProc h line) _ impl hv
  | drawLines lines =>
    cases hr
    exact Impl.doInContext_cacheValid _ (ProcStep_drawLinesProc h lines) _ impl hv
  | drawPolygon pathCreated pts drawStyle =>
    simp only [DrawOp.run, drawPolygon] at hr
    split at hr
    · cases hr; exact hv
    · cases hp : polygonPath pts with
      | none => rw [hp] at hr; cases hr
      | some elements =>
        rw [hp] at hr
        cases hr
        simp only
        have h1 : (if drawStyle = .Filled ∨ drawStyle = .FilledAndStroked then
            (drawGraphicsPath (.d2d elements) .Filled none impl).2 else impl).cacheValid := by
          split
          · exact drawGraphicsPath_cacheValid _ _ _ _ hv
          · exact hv
        split
        · exact drawGraphicsPath_cacheValid _ _ _ _ h1
        · exact h1
  | drawRect rect drawStyle =>
    cases hr
    exact Impl.doInContext_cacheValid _ (ProcStep_drawRectProc rect drawStyle) _ impl hv
  | drawArc pathCreated rect a1 a2 drawStyle =>
    cases hr
    simp only [drawArc]
    split
    · exact hv
    · simp only
      have h1 : (if drawStyle = .Filled ∨ drawStyle = .FilledAndStroked then
          (drawGraphicsPath (.d2d [PathElement.addArc
            (if impl.state.drawMode.integralMode then h.pixelAlignRect impl.state.tm rect
              else rect) a1 a2 true]) .Filled none impl).2 else impl).cacheValid := by
        split
        · exact drawGraphicsPath_cacheValid _ _ _ _ hv
        · exact hv
      split
      · exact drawGraphicsPath_cacheValid _ _ _ _ h1
      · exact h1
  | drawEllipse rect drawStyle =>
    cases hr
    exact Impl.doInContext_cacheValid _ (ProcStep_drawEllipseProc h rect drawStyle) _ impl hv
  | drawBitmap bitmap dest offset alpha quality =>
    cases hr
    cases bitmap with
    | foreign => exact hv
    | d2d hasSource sf size deviceSize =>
      simp only [drawBitmap]
      split
      · exact hv
      · have h0 := (Impl.ProcStep.ofTryNative impl .GetCachedBitmap rfl).preservesCache hv
        split
        · exact h0
        · have h1 : (setTransformMatrix ((impl.tryNative .GetCachedBitmap).2.state.tm *
              ({} : TransformMatrix).scale (1 / sf) (1 / sf))
              (impl.tryNative .GetCachedBitmap).2).cacheValid := h0
          have h2 := Impl.doInContext_cacheValid _
            (ProcStep_drawBitmapProc h size deviceSize
              ((h.inverse (({} : TransformMatrix).scale (1 / sf) (1 / sf))).transform dest)
              offset alpha quality) {} _ h1
          exact h2
  | drawGraphicsPath path mode transformation =>
    cases hr
    exact drawGraphicsPath_cacheValid _ _ _ _ hv
  | fillLinearGradient path gradient p0 p1 evenOdd transformation =>
    cases hr
    cases path with
    | foreign => exact hv
    | d2d elements =>
      cases gradient with
      | foreign => exact hv
      | d2d =>
        exact Impl.doInContext_cacheValid _
          (ProcStep_fillLinearGradientProc elements p0 p1 transformation) _ impl hv
  | fillRadialGradient path gradient center radius originOffset evenOdd transformation =>
    cases hr
    cases path with
    | foreign => exact hv
    | d2d elements =>
      cases gradient with
      | foreign => exact hv
      | d2d =>
        exact Impl.doInContext_cacheValid _
          (ProcStep_fillRadialGradientProc elements center radius originOffset transformation)
          _ impl hv
  | drawTextLayout pos color antialias =>
    cases hr
    exact Impl.doInContext_cacheValid _ (ProcStep_drawTextLayoutProc h pos color antialias)
      _ impl hv

theorem ID2D1DeviceContext.tryCall_eq (d : ID2D1DeviceContext) (c : NativeCall) :
    d.tryCall c = (d.hresults.head?.getD true,
      { d with calls := d.calls ++ [c], hresults := d.hresults.tail }) := by
  unfold ID2D1DeviceContext.tryCall
  cases h : d.hresults <;> simp [ID2D1DeviceContext.call, h]

/-- What `endDraw` does, in closed form: it stops at the assertion exactly when the session
is open, the native `EndDraw` reports a failure and `NDEBUG` is not set; otherwise it returns
success, having popped the applied clip if there was one and issued the native `EndDraw` (and
consumed its outcome) if the session was open. -/
theorem endDraw_eq (ndebug : Bool) (x : Impl) :
    endDraw ndebug x =
      if x.beginDrawCalled = true ∧ (List.head? x.deviceContext.hresults).getD true = false ∧
          ndebug = false then none
      else some (true, { x with
        applyClip := {}
        beginDrawCalled := false
        deviceContext :=
          ⟨x.deviceContext.transform,
            x.deviceContext.calls ++
              (if x.applyClip.isEmpty = false then [.PopAxisAlignedClip] else []) ++
              (if x.beginDrawCalled = true then [.EndDraw] else []),
            if x.beginDrawCalled = true then x.deviceContext.hresults.tail
            else x.deviceContext.hresults⟩ }) := by
  unfold endDraw
  by_cases h1 : x.applyClip.isEmpty = false <;> by_cases h2 : x.beginDrawCalled = true <;>
    by_cases h3 : (List.head? x.deviceContext.hresults).getD true = false <;>
    by_cases h4 : ndebug = false <;>
    simp [h1, h2, h3, h4, Impl.native, Impl.tryNative, ID2D1DeviceContext.tryCall_eq,
      ID2D1DeviceContext.call]

theorem op_run_cacheValid (h : GeometryHelpers) (ndebug : Bool) (op : Op) (impl impl1 : Impl)
    (hr : op.run h ndebug impl = some impl1) (hv : impl.cacheValid) : impl1.cacheValid := by
  cases op with
  | setter s => cases hr; exact setter_run_cacheValid s impl hv
  | saveGlobalState =>
    cases hr
    refine Impl.cacheValid_of_parts _ hv.1 ?_
    intro s hs
    rcases List.mem_cons.1 hs with hs | hs
    · rw [hs]; exact hv.1
    · exact hv.2 s hs
  | restoreGlobalState =>
    simp only [Op.run, restoreGlobalState] at hr
    split at hr
    · split at hr
      · cases hr; exact hv
      · cases hr
    · rename_i top rest hstack
      cases hr
      have hv2 := hv.2
      rw [hstack] at hv2
      exact Impl.cacheValid_of_parts _ (hv2 top (List.mem_cons_self _ _))
        (fun s hs => hv2 s (List.mem_cons_of_mem _ hs))
  | draw d =>
    simp only [Op.run, Option.map_eq_some'] at hr
    obtain ⟨r, hr1, hr2⟩ := hr
    rw [← hr2]
    exact drawOp_run_cacheValid h d impl r hr1 hv
  | clearRect rect => cases hr; exact hv
  | drawPoint point color => cases hr; exact hv
  | beginDraw => cases hr; exact hv
  | endDraw =>
    simp only [Op.run, endDraw_eq] at hr
    split at hr
    · cases hr
    · cases hr
      exact Impl.cacheValid_of_state_eq rfl rfl hv

theorem runOps_cacheValid (h : GeometryHelpers) (ndebug : Bool) (ops : List Op)
    (impl impl1 : Impl) (hr : runOps h ndebug ops impl = some impl1) (hv : impl.cacheValid) :
    impl1.cacheValid := by
  induction ops generalizing impl with
  | nil => cases hr; exact hv
  | cons op ops ih =>
    simp only [runOps, Option.bind_eq_some] at hr
    obtain ⟨mid, h1, h2⟩ := hr
    exact ih mid h2 (op_run_cacheValid h ndebug op impl mid h1 hv)

/-- C4: in every state reached from a newly created context by setters, save and restore,
draw calls, `clearRect`, `drawPoint`, `beginDraw` and `endDraw`, each cached resource that is
present was created from the current fields: the fill brush from the fill colour and the
global alpha, the frame brush from the frame colour and the global alpha, the font brush
from the font colour and the global alpha, the stroke style from the line style. -/
theorem C4_cached_resources_valid (h : GeometryHelpers) (ndebug : Bool) (ops : List Op)
    (deviceContext : ID2D1DeviceContext) (tm : TransformMatrix) (impl : Impl)
    (hr : runOps h ndebug ops (Impl.create deviceContext tm) = some impl) :
    (∀ b, impl.state.fillBrush = some b → b = ⟨impl.state.fillColor, impl.state.globalAlpha⟩) ∧
    (∀ b, impl.state.frameBrush = some b →
      b = ⟨impl.state.frameColor, impl.state.globalAlpha⟩) ∧
    (∀ b, impl.state.fontBrush = some b → b = ⟨impl.state.fontColor, impl.state.globalAlpha⟩) ∧
    (∀ st, impl.state.strokeStyle = some st → st = ⟨impl.state.lineStyle⟩) :=
  (runOps_cacheValid h ndebug ops _ impl hr (Impl.create_cacheValid deviceContext tm)).1

/-- C4, an instance: the sample session runs, and its final state has valid caches. -/
theorem C4_cached_resources_valid_witness :
    runOps GeometryHelpers.plain true sampleOps (Impl.create freshDevice {})
      = some ((runOps GeometryHelpers.plain true sampleOps (Impl.create freshDevice {})).getD
          (Impl.create freshDevice {})) ∧
    ((runOps GeometryHelpers.plain true sampleOps (Impl.create freshDevice {})).getD
      (Impl.create freshDevice {})).state.cacheValid :=
  ⟨by decide!, C4_cached_resources_valid GeometryHelpers.plain true sampleOps freshDevice {} _
    (by decide!)⟩

/-! ### The empty logical clip (C7) -/

theorem Impl.doInContext_of_empty (p : Impl → Impl) (off : CPoint) (impl : Impl)
    (hclip : impl.state.clip.isEmpty = true) : impl.doInContext p off = impl := by
  rw [Impl.doInContext_eq, if_pos hclip]

theorem drawGraphicsPath_of_empty (path : IPlatformGraphicsPath)
    (mode : PlatformGraphicsPathDrawMode) (transformation : Option TransformMatrix)
    (impl : Impl) (hclip : impl.state.clip.isEmpty = true) :
    (drawGraphicsPath path mode transformation impl).2 = impl := by
  cases path with
  | foreign => rfl
  | d2d elements => exact Impl.doInContext_of_empty _ _ impl hclip

/-- C7, the claim as stated fails for `clearRect`: on a new context, whose logical clip is
empty, it issues the native `Clear` between a clip push and a clip pop. -/
theorem C7_counterexample_clearRect_ignores_clip :
    (Impl.create freshDevice {}).state.clip.isEmpty = true ∧
    (clearRect rect10 (Impl.create freshDevice {})).2.deviceContext.calls
      = [.GetTransform, .SetTransform {}, .PushAxisAlignedClip rect10, .Clear,
          .PopAxisAlignedClip, .SetTransform {}] ∧
    NativeCall.Clear.isDraw = true := by
  decide!

/-- C7, amended: with an empty logical clip no primitive that runs the composition issues a
native draw call, a brush or stroke-style creation or a geometry call: the calls on the
device stay as they are, except that `drawBitmap` may have looked up the device bitmap in
the bitmap cache. `clearRect` does not consult the logical clip: it reads the transform, sets
it, pushes a clip for the rectangle, clears, pops the clip and restores the transform. -/
theorem C7_empty_clip_short_circuits (h : GeometryHelpers) (d : DrawOp) (impl : Impl)
    (r : Bool × Impl) (hclip : impl.state.clip.isEmpty = true) (hr : d.run h impl = some r) :
    (r.2.deviceContext.calls = impl.deviceContext.calls ∨
      r.2.deviceContext.calls = impl.deviceContext.calls ++ [.GetCachedBitmap]) ∧
    r.2.deviceContext.calls.countP NativeCall.isDraw
      = impl.deviceContext.calls.countP NativeCall.isDraw ∧
    r.2.deviceContext.calls.countP NativeCall.isBrushOrStrokeCreation
      = impl.deviceContext.calls.countP NativeCall.isBrushOrStrokeCreation ∧
    r.2.deviceContext.calls.countP NativeCall.isGeometry
      = impl.deviceContext.calls.countP NativeCall.isGeometry ∧
    (∀ rect, (clearRect rect impl).2.deviceContext.calls = impl.deviceContext.calls ++
      [.GetTransform, .SetTransform (impl.globalTM * impl.state.tm), .PushAxisAlignedClip rect,
        .Clear, .PopAxisAlignedClip, .SetTransform impl.deviceContext.transform]) := by
  have key : r.2.deviceContext.calls = impl.deviceContext.calls ∨
      r.2.deviceContext.calls = impl.deviceContext.calls ++ [.GetCachedBitmap] := by
    cases d with
    | drawLine line => cases hr; left; simp [drawLine, Impl.doInContext_of_empty, hclip]
    | drawLines lines => cases hr; left; simp [drawLines, Impl.doInContext_of_empty, hclip]
    | drawPolygon pathCreated pts drawStyle =>
      simp only [DrawOp.run, drawPolygon] at hr
      split at hr
      · cases hr; left; rfl
      · cases hp : polygonPath pts with
        | none => rw [hp] at hr; cases hr
        | some elements =>
          rw [hp] at hr
          cases hr
          left
          simp [drawGraphicsPath_of_empty, hclip]
    | drawRect rect drawStyle =>
      cases hr; left; simp [drawRect, Impl.doInContext_of_empty, hclip]
    | drawArc pathCreated rect a1 a2 drawStyle =>
      cases hr
      left
      simp only [drawArc]
      split
      · rfl
      · simp [drawGraphicsPath_of_empty, hclip]
    | drawEllipse rect drawStyle =>
      cases hr; left; simp [drawEllipse, Impl.doInContext_of_empty, hclip]
    | drawBitmap bitmap dest offset alpha quality =>
      cases hr
      cases bitmap with
      | foreign => left; rfl
      | d2d hasSource sf size deviceSize =>
        have hc : (impl.tryNative .GetCachedBitmap).2.deviceContext.calls
            = impl.deviceContext.calls ++ [.GetCachedBitmap] := by
          simp only [Impl.tryNative, ID2D1DeviceContext.tryCall]
          split <;> rfl
        simp only [drawBitmap]
        split
        · left; rfl
        · split
          · right; exact hc
          · right
            rw [Impl.doInContext_of_empty _ _ _ (by simpa [setTransformMatrix, Impl.tryNative]
              using hclip)]
            exact hc
    | drawGraphicsPath path mode transformation =>
      cases hr; left; simp [drawGraphicsPath_of_empty, hclip]
    | fillLinearGradient path gradient p0 p1 evenOdd transformation =>
      cases hr
      left
      cases path <;> cases gradient <;>
        simp [fillLinearGradient, Impl.doInContext_of_empty, hclip]
    | fillRadialGradient path gradient center radius originOffset evenOdd transformation =>
      cases hr
      left
      cases path <;> cases gradient <;>
        simp [fillRadialGradient, Impl.doInContext_of_empty, hclip]
    | drawTextLayout pos color antialias =>
      cases hr; left; simp [drawTextLayout, Impl.doInContext_of_empty, hclip]
  have hclear : ∀ rect, (clearRect rect impl).2.deviceContext.calls
      = impl.deviceContext.calls ++
        [.GetTransform, .SetTransform (impl.globalTM * impl.state.tm),
          .PushAxisAlignedClip rect, .Clear, .PopAxisAlignedClip,
          .SetTransform impl.deviceContext.transform] := by
    intro rect
    simp [clearRect, TransformGuard.create, TransformGuard.destroy,
      ID2D1DeviceContext.SetTransform, ID2D1DeviceContext.call]
  refine ⟨key, ?_, ?_, ?_, hclear⟩ <;>
    rcases key with e | e <;> rw [e] <;> simp [NativeCall.isDraw,
      NativeCall.isBrushOrStrokeCreation, NativeCall.isGeometry]

/-- C7 amended, an instance: `drawBitmap` on a new context, whose clip is empty, only looks
up the device bitmap and draws nothing. -/
theorem C7_empty_clip_short_circuits_witness :
    (DrawOp.drawBitmap (.d2d true 2 { x := 4, y := 4 } { x := 8, y := 8 }) rect10 {} 1
        .kHigh).run GeometryHelpers.plain (Impl.create freshDevice {})
      = some (true, Impl.create { calls := [.GetCachedBitmap] } {}) ∧
    (Impl.create { calls := [.GetCachedBitmap] } {}).deviceContext.calls.countP
      NativeCall.isDraw = 0 :=
  ⟨by decide!, (C7_empty_clip_short_circuits GeometryHelpers.plain
    (.drawBitmap (.d2d true 2 { x := 4, y := 4 } { x := 8, y := 8 }) rect10 {} 1 .kHigh)
    (Impl.create freshDevice {}) (true, Impl.create { calls := [.GetCachedBitmap] } {})
    (by decide!) (by decide!)).2.1⟩

/-! ### The layer branch of the composition -/

/-- The context handed to the callback when the effective transform is rotated and the clip
geometry is created. -/
theorem Impl.enterContext_layer (off : CPoint) (impl : Impl)
    (hrot : Impl.hasRotation (impl.effectiveTransform impl.deviceContext.transform off) = true)
    (hgeo : impl.deviceContext.hresults.head?.getD true = true) :
    impl.enterContext off = (true, { impl with
      applyClip := impl.state.clip
      deviceContext :=
        { transform := impl.effectiveTransform impl.deviceContext.transform off
          calls := impl.deviceContext.calls ++
            [.GetTransform, .GetFactory, .CreateRectangleGeometry impl.state.clip] ++
            (if impl.applyClip.isEmpty = false then [.PopAxisAlignedClip] else []) ++
            [.PushLayer impl.state.clip,
              .SetTransform (impl.effectiveTransform impl.deviceContext.transform off)]
          hresults := impl.deviceContext.hresults.tail } }) := by
  have hrot2 : Impl.hasRotation (Impl.effectiveTransform
      { impl with deviceContext := (TransformGuard.create impl.deviceContext).2 }
      impl.deviceContext.transform off) = true := hrot
  unfold Impl.enterContext
  simp only [hrot2, if_true]
  simp only [Impl.pushClipLayer, Impl.tryNative, Impl.native, ID2D1DeviceContext.tryCall_eq,
    TransformGuard.create, ID2D1DeviceContext.call, hgeo, if_true]
  by_cases hac : impl.applyClip.isEmpty = false
  · simp [hac, ID2D1DeviceContext.SetTransform, ID2D1DeviceContext.call, Impl.effectiveTransform]
  · simp [hac, ID2D1DeviceContext.SetTransform, ID2D1DeviceContext.call, Impl.effectiveTransform]

theorem NativeCall.not_push_of_not_contextCall (c : NativeCall) (hc : c.isContextCall = false) :
    c.isPushAxisAlignedClip = false ∧ c.isPushLayer = false ∧ c ≠ .PopAxisAlignedClip ∧
      c ≠ .PopLayer := by
  cases c <;> simp_all [NativeCall.isContextCall, NativeCall.isPushAxisAlignedClip,
    NativeCall.isPushLayer]

/-- A draw callback leaves the numbers of clip and layer pushes and pops alone. -/
theorem Impl.ProcStep.counts {x y : Impl} (hs : Impl.ProcStep x y) :
    y.deviceContext.pushClipCount = x.deviceContext.pushClipCount ∧
    y.deviceContext.popClipCount = x.deviceContext.popClipCount ∧
    y.deviceContext.pushLayerCount = x.deviceContext.pushLayerCount ∧
    y.deviceContext.popLayerCount = x.deviceContext.popLayerCount := by
  obtain ⟨added, hcalls, hq⟩ := hs.calls
  simp only [ID2D1DeviceContext.pushClipCount, ID2D1DeviceContext.popClipCount,
    ID2D1DeviceContext.pushLayerCount, ID2D1DeviceContext.popLayerCount, hcalls,
    List.countP_append, List.count_append]
  have h1 : added.countP NativeCall.isPushAxisAlignedClip = 0 := by
    rw [List.countP_eq_zero]
    intro c hc
    simp [(NativeCall.not_push_of_not_contextCall c (hq c hc)).1]
  have h2 : added.count .PopAxisAlignedClip = 0 := by
    rw [List.count_eq_zero]
    intro hc
    exact (NativeCall.not_push_of_not_contextCall _ (hq _ hc)).2.2.1 rfl
  have h3 : added.countP NativeCall.isPushLayer = 0 := by
    rw [List.countP_eq_zero]
    intro c hc
    simp [(NativeCall.not_push_of_not_contextCall c (hq c hc)).2.1]
  have h4 : added.count .PopLayer = 0 := by
    rw [List.count_eq_zero]
    intro hc
    exact (NativeCall.not_push_of_not_contextCall _ (hq _ hc)).2.2.2 rfl
  omega

/-! ### Clip coalescing (C8) -/

theorem Impl.hasRotation_effectiveTransform_offset (impl : Impl) (m : TransformMatrix)
    (off : CPoint) :
    Impl.hasRotation (impl.effectiveTransform m off)
      = Impl.hasRotation (impl.effectiveTransform m {}) := by
  simp [Impl.hasRotation, Impl.effectiveTransform, TransformMatrix.translate,
    TransformMatrix.scale, HMul.hMul, Mul.mul, TransformMatrix.mul]

theorem Impl.ClipTransition.unchanged (x : Impl) : Impl.ClipTransition x x :=
  Or.inl ⟨rfl, rfl, rfl⟩

theorem Impl.PlainStep.still (x : Impl) : Impl.PlainStep x x :=
  ⟨rfl, rfl, rfl, rfl, rfl, Impl.ClipTransition.unchanged x⟩

theorem Impl.ClipTransition.compose {x y z : Impl} (hclip : y.state.clip = x.state.clip)
    (hg : y.globalTM = x.globalTM) (h1 : Impl.ClipTransition x y)
    (h2 : Impl.ClipTransition y z) : Impl.ClipTransition x z := by
  have hdc : y.deviceClip = x.deviceClip := by simp [Impl.deviceClip, hclip, hg]
  rcases h1 with ⟨a1, b1, c1⟩ | ⟨n1, a1, b1, c1⟩
  · rcases h2 with ⟨a2, b2, c2⟩ | ⟨n2, a2, b2, c2⟩
    · exact Or.inl ⟨a2.trans a1, b2.trans b1, c2.trans c1⟩
    · right
      rw [hdc, a1] at n2
      rw [hdc] at a2 b2
      rw [a1] at c2
      exact ⟨n2, a2, by rw [b2, b1], by rw [c2, c1]⟩
  · rcases h2 with ⟨a2, b2, c2⟩ | ⟨n2, a2, b2, c2⟩
    · exact Or.inr ⟨n1, a2.trans a1, b2.trans b1, c2.trans c1⟩
    · rw [hdc] at n2
      exact absurd a1 n2

theorem Impl.PlainStep.followedBy {x y z : Impl} (h1 : Impl.PlainStep x y) (h2 : Impl.PlainStep y z) :
    Impl.PlainStep x z :=
  ⟨h2.clip.trans h1.clip, h2.tm.trans h1.tm, h2.globalTM.trans h1.globalTM,
    h2.scaleFactor.trans h1.scaleFactor, h2.transform.trans h1.transform,
    Impl.ClipTransition.compose h1.clip h1.globalTM h1.transition h2.transition⟩

/-- A draw callback is a plain step without a clip transition. -/
theorem Impl.ProcStep.plainStep {x y : Impl} (hs : Impl.ProcStep x y) : Impl.PlainStep x y := by
  obtain ⟨st, dc, e⟩ := hs.frame
  have hc := hs.counts
  refine ⟨hs.clip, hs.tm, ?_, ?_, hs.transform, Or.inl ⟨?_, hc.1, hc.2.1⟩⟩ <;> rw [e]

theorem Impl.pushAxisAlignedClip_transition (impl : Impl) :
    Impl.ClipTransition impl impl.pushAxisAlignedClip := by
  unfold Impl.pushAxisAlignedClip
  simp only
  split
  · rename_i hne
    right
    refine ⟨hne, ?_, ?_, ?_⟩
    · rfl
    · by_cases h1 : impl.applyClip.isEmpty = false <;>
        by_cases h2 : (impl.globalTM.transform impl.state.clip).isEmpty = false <;>
        simp [h1, h2, Impl.deviceClip, Impl.native, ID2D1DeviceContext.call,
          ID2D1DeviceContext.pushClipCount, List.countP_append, List.countP_cons,
          NativeCall.isPushAxisAlignedClip]
    · by_cases h1 : impl.applyClip.isEmpty = false <;>
        by_cases h2 : (impl.globalTM.transform impl.state.clip).isEmpty = false <;>
        simp [h1, h2, Impl.deviceClip, Impl.native, ID2D1DeviceContext.call,
          ID2D1DeviceContext.popClipCount, List.count_append, List.count_cons]
  · exact Impl.ClipTransition.unchanged impl

/-- Changing only the transform and the calls that are not clip calls keeps a clip
transition. -/
theorem Impl.ClipTransition.congr (x x1 y y1 : Impl)
    (hx1 : x1.applyClip = x.applyClip) (hx2 : x1.deviceClip = x.deviceClip)
    (hx3 : x1.deviceContext.pushClipCount = x.deviceContext.pushClipCount)
    (hx4 : x1.deviceContext.popClipCount = x.deviceContext.popClipCount)
    (hy1 : y1.applyClip = y.applyClip)
    (hy3 : y1.deviceContext.pushClipCount = y.deviceContext.pushClipCount)
    (hy4 : y1.deviceContext.popClipCount = y.deviceContext.popClipCount)
    (ht : Impl.ClipTransition x1 y) : Impl.ClipTransition x y1 := by
  unfold Impl.ClipTransition at ht ⊢
  rw [hx1, hx2, hx3, hx4] at ht
  rw [hy1, hy3, hy4]
  exact ht

theorem Impl.enterContext_plain (off : CPoint) (impl : Impl)
    (hrot : Impl.hasRotation (impl.effectiveTransform impl.deviceContext.transform off) = false) :
    (impl.enterContext off).1 = false ∧ Impl.ClipTransition impl (impl.enterContext off).2 := by
  have hrot2 : Impl.hasRotation (Impl.effectiveTransform
      { impl with deviceContext := (TransformGuard.create impl.deviceContext).2 }
      impl.deviceContext.transform off) = false := hrot
  constructor
  · unfold Impl.enterContext
    simp only [hrot2, Bool.false_eq_true, if_false]
  · have hent : (impl.enterContext off).2 =
        { (({ impl with deviceContext := (TransformGuard.create impl.deviceContext).2 } :
            Impl).pushAxisAlignedClip) with
          deviceContext := (({ impl with
              deviceContext := (TransformGuard.create impl.deviceContext).2 } :
            Impl).pushAxisAlignedClip).deviceContext.SetTransform
              (impl.effectiveTransform impl.deviceContext.transform off) } := by
      unfold Impl.enterContext
      simp only [hrot2, Bool.false_eq_true, if_false, if_true]
      rfl
    rw [hent]
    have ht := Impl.pushAxisAlignedClip_transition
      { impl with deviceContext := (TransformGuard.create impl.deviceContext).2 }
    refine Impl.ClipTransition.congr impl
      { impl with deviceContext := (TransformGuard.create impl.deviceContext).2 }
      (({ impl with deviceContext := (TransformGuard.create impl.deviceContext).2 } :
        Impl).pushAxisAlignedClip) _ rfl rfl ?_ ?_ rfl ?_ ?_ ht
    · simp [TransformGuard.create, ID2D1DeviceContext.call, ID2D1DeviceContext.pushClipCount,
        List.countP_append, NativeCall.isPushAxisAlignedClip]
    · simp [TransformGuard.create, ID2D1DeviceContext.call, ID2D1DeviceContext.popClipCount,
        List.count_append]
    · simp [ID2D1DeviceContext.SetTransform, ID2D1DeviceContext.call,
        ID2D1DeviceContext.pushClipCount, List.countP_append, NativeCall.isPushAxisAlignedClip]
    · simp [ID2D1DeviceContext.SetTransform, ID2D1DeviceContext.call,
        ID2D1DeviceContext.popClipCount, List.count_append]

/-- A composition whose effective transform has no rotation is a plain step, whatever the
logical clip. -/
theorem Impl.doInContext_plainStep (p : Impl → Impl) (hp : ∀ x, Impl.ProcStep x (p x))
    (off : CPoint) (impl : Impl)
    (hrot : Impl.hasRotation (impl.effectiveTransform impl.deviceContext.transform off) = false) :
    Impl.PlainStep impl (impl.doInContext p off) := by
  rw [Impl.doInContext_eq]
  split
  · exact Impl.PlainStep.still impl
  · obtain ⟨hfalse, ht⟩ := Impl.enterContext_plain off impl hrot
    obtain ⟨ac, dc, hent⟩ := Impl.enterContext_frame off impl
    have hs := hp (impl.enterContext off).2
    obtain ⟨st, dc2, hy⟩ := hs.frame
    have hc := hs.counts
    rw [hfalse]
    simp only [Impl.leaveContext, Bool.false_eq_true, if_false]
    refine ⟨?_, ?_, ?_, ?_, ?_, ?_⟩
    · show (p (impl.enterContext off).2).state.clip = impl.state.clip
      rw [hs.clip, hent]
    · show (p (impl.enterContext off).2).state.tm = impl.state.tm
      rw [hs.tm, hent]
    · show (p (impl.enterContext off).2).globalTM = impl.globalTM
      rw [hy, hent]
    · show (p (impl.enterContext off).2).scaleFactor = impl.scaleFactor
      rw [hy, hent]
    · rfl
    · have ht2 : Impl.ClipTransition impl (p (impl.enterContext off).2) := by
        refine Impl.ClipTransition.congr impl impl (impl.enterContext off).2 _
          rfl rfl rfl rfl ?_ hc.1 hc.2.1 ht
        rw [hy]
      refine Impl.ClipTransition.congr impl impl (p (impl.enterContext off).2) _
        rfl rfl rfl rfl rfl ?_ ?_ ht2
      · simp [ID2D1DeviceContext.SetTransform, ID2D1DeviceContext.call,
          ID2D1DeviceContext.pushClipCount, List.countP_append,
          NativeCall.isPushAxisAlignedClip]
      · simp [ID2D1DeviceContext.SetTransform, ID2D1DeviceContext.call,
          ID2D1DeviceContext.popClipCount, List.count_append]

theorem Impl.hasRotation_eq_false_iff (t : TransformMatrix) :
    Impl.hasRotation t = false ↔ t.m12 = 0 ∧ t.m21 = 0 := by
  simp [Impl.hasRotation]

theorem TransformMatrix.mul_def (a t : TransformMatrix) : a * t = TransformMatrix.mul a t := rfl

/-- The temporary local transform of `drawBitmap`, a uniform scaling of the local transform,
adds no rotation to the effective transform. -/
theorem Impl.hasRotation_bitmapTransform (impl : Impl) (m : TransformMatrix) (sf : CCoord)
    (hrot : Impl.hasRotation (impl.effectiveTransform m {}) = false) :
    Impl.hasRotation (Impl.effectiveTransform
      (setTransformMatrix (impl.state.tm * ({} : TransformMatrix).scale (1 / sf) (1 / sf)) impl)
      m {}) = false := by
  rw [Impl.hasRotation_eq_false_iff] at hrot ⊢
  obtain ⟨h12, h21⟩ := hrot
  simp only [Impl.effectiveTransform, TransformMatrix.translate, TransformMatrix.scale,
    TransformMatrix.mul_def, TransformMatrix.mul, setTransformMatrix] at h12 h21 ⊢
  constructor
  · linear_combination (1 / sf) * h12
  · linear_combination (1 / sf) * h21

theorem Impl.PlainStep.hasRotation_eq {x y : Impl} (hs : Impl.PlainStep x y) (off : CPoint) :
    Impl.hasRotation (y.effectiveTransform y.deviceContext.transform off)
      = Impl.hasRotation (x.effectiveTransform x.deviceContext.transform off) := by
  simp only [Impl.effectiveTransform, hs.tm, hs.globalTM, hs.scaleFactor, hs.transform]

theorem drawGraphicsPath_plainStep (path : IPlatformGraphicsPath)
    (mode : PlatformGraphicsPathDrawMode) (transformation : Option TransformMatrix)
    (impl : Impl)
    (hrot : Impl.hasRotation (impl.effectiveTransform impl.deviceContext.transform {}) = false) :
    Impl.PlainStep impl (drawGraphicsPath path mode transformation impl).2 := by
  cases path with
  | foreign => exact Impl.PlainStep.still impl
  | d2d elements =>
    exact Impl.doInContext_plainStep _
      (ProcStep_drawGraphicsPathProc elements mode transformation) _ impl hrot

/-- The two path draws of `drawPolygon` and `drawArc`. -/
theorem fillThenStroke_plainStep (path : IPlatformGraphicsPath)
    (drawStyle : PlatformGraphicsDrawStyle) (impl : Impl)
    (hrot : Impl.hasRotation (impl.effectiveTransform impl.deviceContext.transform {}) = false) :
    Impl.PlainStep impl
      (if drawStyle = .Stroked ∨ drawStyle = .FilledAndStroked then
        (drawGraphicsPath path .Stroked none
          (if drawStyle = .Filled ∨ drawStyle = .FilledAndStroked then
            (drawGraphicsPath path .Filled none impl).2 else impl)).2
      else (if drawStyle = .Filled ∨ drawStyle = .FilledAndStroked then
        (drawGraphicsPath path .Filled none impl).2 else impl)) := by
  have h1 : Impl.PlainStep impl (if drawStyle = .Filled ∨ drawStyle = .FilledAndStroked then
      (drawGraphicsPath path .Filled none impl).2 else impl) := by
    split
    · exact drawGraphicsPath_plainStep _ _ _ _ hrot
    · exact Impl.PlainStep.still impl
  split
  · refine h1.followedBy (drawGraphicsPath_plainStep _ _ _ _ ?_)
    rw [h1.hasRotation_eq]
    exact hrot
  · exact h1

theorem drawBitmap_plainStep (h : GeometryHelpers) (bitmap : IPlatformBitmap) (dest : CRect)
    (offset : CPoint) (alpha : CCoord) (quality : BitmapInterpolationQuality) (impl : Impl)
    (hrot : Impl.hasRotation (impl.effectiveTransform impl.deviceContext.transform {}) = false) :
    Impl.PlainStep impl (drawBitmap h bitmap dest offset alpha quality impl).2 := by
  cases bitmap with
  | foreign => exact Impl.PlainStep.still impl
  | d2d hasSource sf size deviceSize =>
    simp only [drawBitmap]
    split
    · exact Impl.PlainStep.still impl
    · have h0 := (Impl.ProcStep.ofTryNative impl .GetCachedBitmap rfl).plainStep
      split
      · exact h0
      · refine h0.followedBy ?_
        have hrot0 : Impl.hasRotation ((impl.tryNative .GetCachedBitmap).2.effectiveTransform
            (impl.tryNative .GetCachedBitmap).2.deviceContext.transform {}) = false := by
          rw [h0.hasRotation_eq]; exact hrot
        generalize (impl.tryNative .GetCachedBitmap).2 = x0 at hrot0 ⊢
        have hrot1 := Impl.hasRotation_bitmapTransform x0 x0.deviceContext.transform sf hrot0
        have hstep := Impl.doInContext_plainStep _
          (ProcStep_drawBitmapProc h size deviceSize
            ((h.inverse (({} : TransformMatrix).scale (1 / sf) (1 / sf))).transform dest)
            offset alpha quality) {}
          (setTransformMatrix (x0.state.tm * ({} : TransformMatrix).scale (1 / sf) (1 / sf)) x0)
          hrot1
        exact ⟨hstep.clip, rfl, hstep.globalTM, hstep.scaleFactor, hstep.transform,
          Impl.ClipTransition.congr x0 _ _ _ rfl rfl rfl rfl rfl rfl rfl hstep.transition⟩

theorem drawOp_run_plainStep (h : GeometryHelpers) (d : DrawOp) (impl : Impl) (r : Bool × Impl)
    (hr : d.run h impl = some r)
    (hrot : Impl.hasRotation (impl.effectiveTransform impl.deviceContext.transform {}) = false) :
    Impl.PlainStep impl r.2 := by
  have hoff : ∀ off, Impl.hasRotation
      (impl.effectiveTransform impl.deviceContext.transform off) = false := by
    intro off
    rw [Impl.hasRotation_effectiveTransform_offset]
    exact hrot
  cases d with
  | drawLine line =>
    cases hr
    exact Impl.doInContext_plainStep _ (ProcStep_drawLineProc h line) _ impl (hoff _)
  | drawLines lines =>
    cases hr
    exact Impl.doInContext_plainStep _ (ProcStep_drawLinesProc h lines) _ impl (hoff _)
  | drawPolygon pathCreated pts drawStyle =>
    simp only [DrawOp.run, drawPolygon] at hr
    split at hr
    · cases hr; exact Impl.PlainStep.still impl
    · cases hp : polygonPath pts with
      | none => rw [hp] at hr; cases hr
      | some elements =>
        rw [hp] at hr
        cases hr
        exact fillThenStroke_plainStep _ drawStyle impl hrot
  | drawRect rect drawStyle =>
    cases hr
    exact Impl.doInContext_plainStep _ (ProcStep_drawRectProc rect drawStyle) _ impl (hoff _)
  | drawArc pathCreated rect a1 a2 drawStyle =>
    cases hr
    simp only [drawArc]
    split
    · exact Impl.PlainStep.still impl
    · exact fillThenStroke_plainStep _ drawStyle impl hrot
  | drawEllipse rect drawStyle =>
    cases hr
    exact Impl.doInContext_plainStep _ (ProcStep_drawEllipseProc h rect drawStyle) _ impl
      (hoff _)
  | drawBitmap bitmap dest offset alpha quality =>
    cases hr
    exact drawBitmap_plainStep h bitmap dest offset alpha quality impl hrot
  | drawGraphicsPath path mode transformation =>
    cases hr
    exact drawGraphicsPath_plainStep _ _ _ _ hrot
  | fillLinearGradient path gradient p0 p1 evenOdd transformation =>
    cases hr
    cases path with
    | foreign => exact Impl.PlainStep.still impl
    | d2d elements =>
      cases gradient with
      | foreign => exact Impl.PlainStep.still impl
      | d2d =>
        exact Impl.doInContext_plainStep _
          (ProcStep_fillLinearGradientProc elements p0 p1 transformation) _ impl (hoff _)
  | fillRadialGradient path gradient center radius originOffset evenOdd transformation =>
    cases hr
    cases path with
    | foreign => exact Impl.PlainStep.still impl
    | d2d elements =>
      cases gradient with
      | foreign => exact Impl.PlainStep.still impl
      | d2d =>
        exact Impl.doInContext_plainStep _
          (ProcStep_fillRadialGradientProc elements center radius originOffset transformation)
          _ impl (hoff _)
  | drawTextLayout pos color antialias =>
    cases hr
    exact Impl.doInContext_plainStep _ (ProcStep_drawTextLayoutProc h pos color antialias)
      _ impl (hoff _)

theorem runDraws_plainStep (h : GeometryHelpers) (ops : List DrawOp) (impl impl1 : Impl)
    (hr : runDraws h ops impl = some impl1)
    (hrot : Impl.hasRotation (impl.effectiveTransform impl.deviceContext.transform {}) = false) :
    Impl.PlainStep impl impl1 := by
  induction ops generalizing impl with
  | nil => cases hr; exact Impl.PlainStep.still _
  | cons op ops ih =>
    simp only [runDraws, Option.bind_eq_some] at hr
    obtain ⟨r, h1, h2⟩ := hr
    have hs := drawOp_run_plainStep h op impl r h1 hrot
    exact hs.followedBy (ih r.2 h2 (by rw [hs.hasRotation_eq]; exact hrot))

theorem Impl.PlainStepApart.of_plainStep {x y : Impl} (hs : Impl.PlainStep x y) :
    Impl.PlainStepApart 0 x y := by
  refine ⟨hs.clip, hs.tm, hs.globalTM, hs.scaleFactor, hs.transform, ?_⟩
  rcases hs.transition with ⟨a, b, c⟩ | ⟨n, a, b, c⟩
  · exact Or.inl ⟨a, by omega, by omega⟩
  · exact Or.inr ⟨n, a, by omega, by omega⟩

theorem Impl.PlainStepApart.andAfter {a b : Nat} {x y z : Impl}
    (h1 : Impl.PlainStepApart a x y) (h2 : Impl.PlainStepApart b y z) :
    Impl.PlainStepApart (a + b) x z := by
  have hdc : y.deviceClip = x.deviceClip := by simp [Impl.deviceClip, h1.clip, h1.globalTM]
  refine ⟨h2.clip.trans h1.clip, h2.tm.trans h1.tm, h2.globalTM.trans h1.globalTM,
    h2.scaleFactor.trans h1.scaleFactor, h2.transform.trans h1.transform, ?_⟩
  rcases h1.transition with ⟨a1, b1, c1⟩ | ⟨n1, a1, b1, c1⟩
  · rcases h2.transition with ⟨a2, b2, c2⟩ | ⟨n2, a2, b2, c2⟩
    · exact Or.inl ⟨a2.trans a1, by omega, by omega⟩
    · right
      rw [hdc, a1] at n2
      rw [hdc] at a2 b2
      rw [a1] at c2
      exact ⟨n2, a2, by rw [b2, b1]; omega, by rw [c2, c1]; omega⟩
  · rcases h2.transition with ⟨a2, b2, c2⟩ | ⟨n2, a2, b2, c2⟩
    · exact Or.inr ⟨n1, a2.trans a1, by rw [b2, b1]; omega, by rw [c2, c1]; omega⟩
    · rw [hdc] at n2
      exact absurd a1 n2

theorem Impl.PlainStepApart.rotation_eq {n : Nat} {x y : Impl} (hs : Impl.PlainStepApart n x y)
    (off : CPoint) :
    Impl.hasRotation (y.effectiveTransform y.deviceContext.transform off)
      = Impl.hasRotation (x.effectiveTransform x.deviceContext.transform off) := by
  simp only [Impl.effectiveTransform, hs.tm, hs.globalTM, hs.scaleFactor, hs.transform]

/-- What `clearRect` does to the plain clip: one push and one pop of its own, the applied
clip staying as it is. -/
theorem clearRect_clip (rect : CRect) (impl : Impl) :
    (clearRect rect impl).2.applyClip = impl.applyClip ∧
    (clearRect rect impl).2.deviceContext.pushClipCount
      = impl.deviceContext.pushClipCount + 1 ∧
    (clearRect rect impl).2.deviceContext.popClipCount
      = impl.deviceContext.popClipCount + 1 := by
  refine ⟨rfl, ?_, ?_⟩
  · simp [clearRect, TransformGuard.create, TransformGuard.destroy,
      ID2D1DeviceContext.SetTransform, ID2D1DeviceContext.call,
      ID2D1DeviceContext.pushClipCount, List.countP_append, List.countP_cons,
      NativeCall.isPushAxisAlignedClip]
  · simp [clearRect, TransformGuard.create, TransformGuard.destroy,
      ID2D1DeviceContext.SetTransform, ID2D1DeviceContext.call,
      ID2D1DeviceContext.popClipCount, List.count_append, List.count_cons]

theorem clearRect_plainStepApart (rect : CRect) (impl : Impl) :
    Impl.PlainStepApart 1 impl (clearRect rect impl).2 := by
  obtain ⟨a, b, c⟩ := clearRect_clip rect impl
  refine ⟨rfl, rfl, rfl, rfl, ?_, Or.inl ⟨a, b, c⟩⟩
  simp [clearRect, TransformGuard.create, TransformGuard.destroy,
    ID2D1DeviceContext.SetTransform, ID2D1DeviceContext.call]

theorem op_run_plainStepApart (h : GeometryHelpers) (ndebug : Bool) (op : Op)
    (impl impl1 : Impl) (hd : op.isDrawCall = true)
    (hr : op.run h ndebug impl = some impl1)
    (hrot : Impl.hasRotation (impl.effectiveTransform impl.deviceContext.transform {}) = false) :
    Impl.PlainStepApart (clearRectCount [op]) impl impl1 := by
  cases op with
  | draw d =>
    simp only [Op.run, Option.map_eq_some'] at hr
    obtain ⟨r, hr1, hr2⟩ := hr
    rw [← hr2]
    exact Impl.PlainStepApart.of_plainStep (drawOp_run_plainStep h d impl r hr1 hrot)
  | clearRect rect =>
    cases hr
    exact clearRect_plainStepApart rect impl
  | drawPoint point color =>
    cases hr
    exact Impl.PlainStepApart.of_plainStep (Impl.PlainStep.still impl)
  | setter s => cases hd
  | saveGlobalState => cases hd
  | restoreGlobalState => cases hd
  | beginDraw => cases hd
  | endDraw => cases hd

theorem clearRectCount_cons (op : Op) (ops : List Op) :
    clearRectCount (op :: ops) = clearRectCount [op] + clearRectCount ops := by
  cases op <;> simp [clearRectCount, Nat.add_comm]

theorem clearRectCount_append (ops1 ops2 : List Op) :
    clearRectCount (ops1 ++ ops2) = clearRectCount ops1 + clearRectCount ops2 := by
  induction ops1 with
  | nil => simp [clearRectCount]
  | cons op ops ih =>
    rw [List.cons_append, clearRectCount_cons, ih, clearRectCount_cons op ops]
    omega

theorem runOps_plainStepApart (h : GeometryHelpers) (ndebug : Bool) (ops : List Op)
    (impl impl1 : Impl) (hd : ∀ op ∈ ops, op.isDrawCall = true)
    (hr : runOps h ndebug ops impl = some impl1)
    (hrot : Impl.hasRotation (impl.effectiveTransform impl.deviceContext.transform {}) = false) :
    Impl.PlainStepApart (clearRectCount ops) impl impl1 := by
  induction ops generalizing impl with
  | nil => cases hr; exact Impl.PlainStepApart.of_plainStep (Impl.PlainStep.still _)
  | cons op ops ih =>
    simp only [runOps, Option.bind_eq_some] at hr
    obtain ⟨mid, h1, h2⟩ := hr
    have hs := op_run_plainStepApart h ndebug op impl mid (hd op (List.mem_cons_self _ _)) h1 hrot
    rw [clearRectCount_cons]
    exact hs.andAfter (ih mid (fun o ho => hd o (List.mem_cons_of_mem _ ho)) h2
      (by rw [hs.rotation_eq]; exact hrot))

/-- C8, the claim as stated fails, on a new context with the identity as global and as local
transform and the logical clip `{0, 0, 10, 10}`. Three consecutive `clearRect` calls issue
three `PushAxisAlignedClip`, each for the rectangle to clear. And the first of two draw calls
need not be the one that pushes: a draw of a path that is not a Direct2D path returns before
the composition and pushes nothing, and the `drawRect` that follows it pushes the clip. -/
theorem C8_counterexample_clearRect_and_early_return :
    clippedContext.state.clip.isEmpty = false ∧
    Impl.hasRotation (clippedContext.effectiveTransform
      clippedContext.deviceContext.transform {}) = false ∧
    (runOps GeometryHelpers.plain true
        [.clearRect rect10, .clearRect rect10, .clearRect rect10] clippedContext).map
        (fun i => i.deviceContext.pushClipCount) = some 3 ∧
    (runOps GeometryHelpers.plain true
        [.draw (.drawGraphicsPath .foreign .Filled none)] clippedContext).map
        (fun i => i.deviceContext.pushClipCount) = some 0 ∧
    (runOps GeometryHelpers.plain true
        [.draw (.drawGraphicsPath .foreign .Filled none), .draw (.drawRect rect10 .Filled)]
        clippedContext).map
        (fun i => i.deviceContext.pushClipCount) = some 1 := by
  decide!

/-- C8, amended: over any sequence of draw calls (the primitives that run the composition,
`drawPoint` and `clearRect`) made with a non-empty logical clip and an effective transform
without rotation or shear (draw calls leave the clip and the transforms as they are), every
`clearRect` pushes and pops one plain clip of its own, and apart from these the plain clip
of the device makes at most one transition: either no `PushAxisAlignedClip` and no
`PopAxisAlignedClip` is issued at all, or the logical clip in device space differed from the
applied clip and exactly one transition to it took place (one pop if a clip was applied, one
push if the new clip is not empty). So apart from the pushes of `clearRect` at most one
`PushAxisAlignedClip` is issued over the whole sequence, and however the sequence is split in
two, the first part or the second part issues no push and no pop besides those of its
`clearRect` calls: once a call has made the transition, the calls after it make none. -/
theorem C8_clip_coalescing (h : GeometryHelpers) (ndebug : Bool) (ops1 ops2 : List Op)
    (impl mid impl1 : Impl)
    (hd1 : ∀ op ∈ ops1, op.isDrawCall = true) (hd2 : ∀ op ∈ ops2, op.isDrawCall = true)
    (_hclip : impl.state.clip.isEmpty = false)
    (hrot : Impl.hasRotation (impl.effectiveTransform impl.deviceContext.transform {}) = false)
    (hr1 : runOps h ndebug ops1 impl = some mid)
    (hr2 : runOps h ndebug ops2 mid = some impl1) :
    impl1.deviceContext.pushClipCount
      ≤ impl.deviceContext.pushClipCount + clearRectCount (ops1 ++ ops2) + 1 ∧
    Impl.ClipTransitionApart (clearRectCount ops1) impl mid ∧
    Impl.ClipTransitionApart (clearRectCount (ops1 ++ ops2)) impl impl1 ∧
    ((mid.deviceContext.pushClipCount
          = impl.deviceContext.pushClipCount + clearRectCount ops1 ∧
        mid.deviceContext.popClipCount
          = impl.deviceContext.popClipCount + clearRectCount ops1) ∨
      (impl1.deviceContext.pushClipCount
          = mid.deviceContext.pushClipCount + clearRectCount ops2 ∧
        impl1.deviceContext.popClipCount
          = mid.deviceContext.popClipCount + clearRectCount ops2)) ∧
    (∀ rect, (clearRect rect impl).2.applyClip = impl.applyClip ∧
      (clearRect rect impl).2.deviceContext.pushClipCount
        = impl.deviceContext.pushClipCount + 1 ∧
      (clearRect rect impl).2.deviceContext.popClipCount
        = impl.deviceContext.popClipCount + 1) := by
  have hs1 := runOps_plainStepApart h ndebug ops1 impl mid hd1 hr1 hrot
  have hs2 := runOps_plainStepApart h ndebug ops2 mid impl1 hd2 hr2
    (by rw [hs1.rotation_eq]; exact hrot)
  have hs := hs1.andAfter hs2
  rw [← clearRectCount_append] at hs
  have hdc : mid.deviceClip = impl.deviceClip := by
    simp [Impl.deviceClip, hs1.clip, hs1.globalTM]
  refine ⟨?_, hs1.transition, hs.transition, ?_, fun rect => clearRect_clip rect impl⟩
  · rcases hs.transition with ⟨_, hb, _⟩ | ⟨_, _, hb, _⟩
    · omega
    · rw [hb]; split <;> omega
  · rcases hs1.transition with ⟨_, hb, hc⟩ | ⟨_, ha, _, _⟩
    · exact Or.inl ⟨hb, hc⟩
    · rcases hs2.transition with ⟨_, hb, hc⟩ | ⟨hn, _, _, _⟩
      · exact Or.inr ⟨hb, hc⟩
      · rw [hdc] at hn
        exact absurd ha hn

/-- C8 amended, an instance: a filled rectangle, then a `clearRect` and three more draw calls
under the clip `{0, 0, 10, 10}` push one plain clip besides the one of `clearRect`. -/
theorem C8_clip_coalescing_witness :
    runOps GeometryHelpers.plain true [.draw (.drawRect rect10 .Filled)] clippedContext
      = some (drawRect rect10 .Filled clippedContext).2 ∧
    ((runOps GeometryHelpers.plain true (.clearRect rect10 :: sampleDraws.map Op.draw)
        (drawRect rect10 .Filled clippedContext).2).getD clippedContext).deviceContext.pushClipCount
      ≤ clippedContext.deviceContext.pushClipCount
        + clearRectCount ([.draw (.drawRect rect10 .Filled)]
          ++ (.clearRect rect10 :: sampleDraws.map Op.draw)) + 1 :=
  ⟨by decide!, (C8_clip_coalescing GeometryHelpers.plain true [.draw (.drawRect rect10 .Filled)]
    (.clearRect rect10 :: sampleDraws.map Op.draw)
    clippedContext (drawRect rect10 .Filled clippedContext).2
    ((runOps GeometryHelpers.plain true (.clearRect rect10 :: sampleDraws.map Op.draw)
      (drawRect rect10 .Filled clippedContext).2).getD clippedContext)
    (by decide) (by decide) (by decide!) (by decide!) (by decide!) (by decide!)).1⟩

/-! ### The filled-rectangle scenario (C6) -/

theorem Impl.CompositionStep.stay (x : Impl) : Impl.CompositionStep x x :=
  ⟨x.applyClip, x.deviceContext.transform, [], x.deviceContext.hresults, by simp, by simp⟩

theorem Impl.CompositionStep.thenStep {x y z : Impl} (h1 : Impl.CompositionStep x y)
    (h2 : Impl.CompositionStep y z) : Impl.CompositionStep x z := by
  obtain ⟨ac1, t1, a1, hr1, e1, q1⟩ := h1
  obtain ⟨ac2, t2, a2, hr2, e2, q2⟩ := h2
  refine ⟨ac2, t2, a1 ++ a2, hr2, ?_, ?_⟩
  · rw [e2, e1]; simp
  · intro c hc
    rcases List.mem_append.1 hc with hc | hc
    · exact q1 c hc
    · exact q2 c hc

theorem Impl.CompositionStep.byNative (x : Impl) (c : NativeCall)
    (hc : c.isCompositionCall = true) : Impl.CompositionStep x (x.native c) :=
  ⟨x.applyClip, x.deviceContext.transform, [c], x.deviceContext.hresults, rfl, by simpa using hc⟩

theorem Impl.CompositionStep.byTryNative (x : Impl) (c : NativeCall)
    (hc : c.isCompositionCall = true) : Impl.CompositionStep x (x.tryNative c).2 :=
  ⟨x.applyClip, x.deviceContext.transform, [c], x.deviceContext.hresults.tail,
    by simp [Impl.tryNative, ID2D1DeviceContext.tryCall_eq], by simpa using hc⟩

theorem Impl.CompositionStep.of_setApplyClip (x : Impl) (ac : CRect) :
    Impl.CompositionStep x { x with applyClip := ac } :=
  ⟨ac, x.deviceContext.transform, [], x.deviceContext.hresults, by simp, by simp⟩

theorem Impl.CompositionStep.of_setTransform (x : Impl) (m : TransformMatrix) :
    Impl.CompositionStep x { x with deviceContext := x.deviceContext.SetTransform m } :=
  ⟨x.applyClip, m, [.SetTransform m], x.deviceContext.hresults, rfl, by simp [NativeCall.isCompositionCall]⟩

theorem Impl.CompositionStep.of_pushClipLayer (x : Impl) :
    Impl.CompositionStep x x.pushClipLayer.2 := by
  unfold Impl.pushClipLayer
  have h1 := (Impl.CompositionStep.byNative x .GetFactory rfl).thenStep
    (Impl.CompositionStep.byTryNative _ (.CreateRectangleGeometry x.state.clip) rfl)
  simp only
  split
  · have h2 : Impl.CompositionStep x
        (if ((x.native .GetFactory).tryNative (.CreateRectangleGeometry
            (x.native .GetFactory).state.clip)).2.applyClip.isEmpty = false then
          ((x.native .GetFactory).tryNative (.CreateRectangleGeometry
            (x.native .GetFactory).state.clip)).2.native .PopAxisAlignedClip
        else ((x.native .GetFactory).tryNative (.CreateRectangleGeometry
            (x.native .GetFactory).state.clip)).2) := by
      split
      · exact h1.thenStep (Impl.CompositionStep.byNative _ .PopAxisAlignedClip rfl)
      · exact h1
    exact (h2.thenStep (Impl.CompositionStep.byNative _ (.PushLayer _) rfl)).thenStep
      (Impl.CompositionStep.of_setApplyClip _ _)
  · exact h1

theorem Impl.CompositionStep.of_pushAxisAlignedClip (x : Impl) :
    Impl.CompositionStep x x.pushAxisAlignedClip := by
  unfold Impl.pushAxisAlignedClip
  simp only
  split
  · have h1 : Impl.CompositionStep x (if x.applyClip.isEmpty = false then
        x.native .PopAxisAlignedClip else x) := by
      split
      · exact Impl.CompositionStep.byNative _ .PopAxisAlignedClip rfl
      · exact Impl.CompositionStep.stay x
    have h2 : Impl.CompositionStep x
        (if (x.globalTM.transform x.state.clip).isEmpty = false then
          (if x.applyClip.isEmpty = false then x.native .PopAxisAlignedClip else x).native
            (.PushAxisAlignedClip (x.globalTM.transform x.state.clip))
        else (if x.applyClip.isEmpty = false then x.native .PopAxisAlignedClip else x)) := by
      split
      · exact h1.thenStep (Impl.CompositionStep.byNative _ (.PushAxisAlignedClip _) rfl)
      · exact h1
    exact h2.thenStep (Impl.CompositionStep.of_setApplyClip _ _)
  · exact Impl.CompositionStep.stay x

theorem Impl.CompositionStep.of_enterContext (off : CPoint) (x : Impl) :
    Impl.CompositionStep x (x.enterContext off).2 := by
  unfold Impl.enterContext
  have h0 : Impl.CompositionStep x
      { x with deviceContext := (TransformGuard.create x.deviceContext).2 } :=
    Impl.CompositionStep.byNative x .GetTransform rfl
  simp only
  refine Impl.CompositionStep.thenStep ?_ (Impl.CompositionStep.of_setTransform _ _)
  split
  · have h1 := h0.thenStep (Impl.CompositionStep.of_pushClipLayer _)
    split
    · exact h1.thenStep (Impl.CompositionStep.of_pushAxisAlignedClip _)
    · exact h1
  · simp only [if_true]
    exact h0.thenStep (Impl.CompositionStep.of_pushAxisAlignedClip _)

theorem Impl.CompositionStep.of_leaveContext (useLayer : Bool) (m : TransformMatrix) (x : Impl) :
    Impl.CompositionStep x (Impl.leaveContext useLayer m x) := by
  unfold Impl.leaveContext
  simp only
  refine Impl.CompositionStep.thenStep ?_ (Impl.CompositionStep.of_setTransform _ _)
  split
  · exact Impl.CompositionStep.byNative _ .PopLayer rfl
  · exact Impl.CompositionStep.stay x

/-- C13: with `NDEBUG` set, `restoreGlobalState` on an empty state stack changes nothing (the
Draw State is kept, the stack stays empty), and on a non-empty stack it makes the top element
the current state and removes exactly that element, every other member of the context
staying as it is. -/
theorem C13_restore_in_release (impl : Impl) :
    restoreGlobalState true { impl with stateStack := [] }
      = some { impl with stateStack := [] } ∧
    (∀ top rest, restoreGlobalState true { impl with stateStack := top :: rest }
      = some { impl with state := top, stateStack := rest }) ∧
    (restoreGlobalState true impl).isSome = true ∧
    (restoreGlobalState true impl).map (fun i => (i.state, i.stateStack))
      = some (impl.stateStack.head?.getD impl.state, impl.stateStack.tail) := by
  refine ⟨rfl, fun _ _ => rfl, ?_, ?_⟩
  · unfold restoreGlobalState
    cases impl.stateStack <;> rfl
  · unfold restoreGlobalState
    cases hs : impl.stateStack <;> simp [hs]

/-! ### Foreign paths and gradients (C14) -/

/-- C14: `drawGraphicsPath`, `fillLinearGradient` and `fillRadialGradient` return failure and
leave the whole context, the native device with its calls and its transform included, as it
is when the path is not a native path or the gradient is not a native gradient; when both
are native they return success. -/
theorem C14_foreign_kind_fails_without_effect (impl : Impl) :
    (∀ mode transformation,
      drawGraphicsPath .foreign mode transformation impl = (false, impl)) ∧
    (∀ elements mode transformation,
      (drawGraphicsPath (.d2d elements) mode transformation impl).1 = true) ∧
    (∀ gradient p0 p1 evenOdd transformation,
      fillLinearGradient .foreign gradient p0 p1 evenOdd transformation impl = (false, impl)) ∧
    (∀ path p0 p1 evenOdd transformation,
      fillLinearGradient path .foreign p0 p1 evenOdd transformation impl = (false, impl)) ∧
    (∀ elements p0 p1 evenOdd transformation,
      (fillLinearGradient (.d2d elements) .d2d p0 p1 evenOdd transformation impl).1 = true) ∧
    (∀ gradient center radius originOffset evenOdd transformation,
      fillRadialGradient .foreign gradient center radius originOffset evenOdd transformation
        impl = (false, impl)) ∧
    (∀ path center radius originOffset evenOdd transformation,
      fillRadialGradient path .foreign center radius originOffset evenOdd transformation impl
        = (false, impl)) ∧
    (∀ elements center radius originOffset evenOdd transformation,
      (fillRadialGradient (.d2d elements) .d2d center radius originOffset evenOdd
        transformation impl).1 = true) := by
  refine ⟨fun _ _ => rfl, fun _ _ _ => rfl, ?_, ?_, fun _ _ _ _ _ => rfl, ?_, ?_,
    fun _ _ _ _ _ _ => rfl⟩
  · intro gradient p0 p1 evenOdd transformation
    cases gradient <;> rfl
  · intro path p0 p1 evenOdd transformation
    cases path <;> rfl
  · intro gradient center radius originOffset evenOdd transformation
    cases gradient <;> rfl
  · intro path center radius originOffset evenOdd transformation
    cases path <;> rfl

/-! ### The drawing session (C12) -/

theorem Impl.DrawFrame.same (x : Impl) : Impl.DrawFrame x x := ⟨_, _, _, rfl⟩

theorem Impl.DrawFrame.chain {x y z : Impl} (h1 : Impl.DrawFrame x y)
    (h2 : Impl.DrawFrame y z) : Impl.DrawFrame x z := by
  obtain ⟨st1, ac1, dc1, e1⟩ := h1
  obtain ⟨st2, ac2, dc2, e2⟩ := h2
  exact ⟨st2, ac2, dc2, by rw [e2, e1]⟩

theorem Impl.DrawFrame.of_procStep {x y : Impl} (h : Impl.ProcStep x y) :
    Impl.DrawFrame x y := by
  obtain ⟨st, dc, e⟩ := h.frame
  exact ⟨st, x.applyClip, dc, e⟩

theorem Impl.DrawFrame.of_compositionStep {x y : Impl} (h : Impl.CompositionStep x y) :
    Impl.DrawFrame x y := by
  obtain ⟨ac, t, added, hr, e, _⟩ := h
  exact ⟨x.state, ac, _, e⟩

/-- The composition around a draw callback changes at most the Draw State, the applied clip
and the device. -/
theorem Impl.doInContext_drawFrame (p : Impl → Impl) (hp : ∀ x, Impl.ProcStep x (p x))
    (off : CPoint) (impl : Impl) : Impl.DrawFrame impl (impl.doInContext p off) := by
  rw [Impl.doInContext_eq]
  split
  · exact Impl.DrawFrame.same impl
  · exact ((Impl.DrawFrame.of_compositionStep
      (Impl.CompositionStep.of_enterContext off impl)).chain
      (Impl.DrawFrame.of_procStep (hp _))).chain
      (Impl.DrawFrame.of_compositionStep (Impl.CompositionStep.of_leaveContext _ _ _))

theorem drawGraphicsPath_drawFrame (path : IPlatformGraphicsPath)
    (mode : PlatformGraphicsPathDrawMode) (transformation : Option TransformMatrix)
    (impl : Impl) : Impl.DrawFrame impl (drawGraphicsPath path mode transformation impl).2 := by
  cases path with
  | foreign => exact Impl.DrawFrame.same impl
  | d2d elements =>
    exact Impl.doInContext_drawFrame _
      (ProcStep_drawGraphicsPathProc elements mode transformation) _ impl

theorem fillThenStroke_drawFrame (path : IPlatformGraphicsPath)
    (drawStyle : PlatformGraphicsDrawStyle) (impl : Impl) :
    Impl.DrawFrame impl
      (if drawStyle = .Stroked ∨ drawStyle = .FilledAndStroked then
        (drawGraphicsPath path .Stroked none
          (if drawStyle = .Filled ∨ drawStyle = .FilledAndStroked then
            (drawGraphicsPath path .Filled none impl).2 else impl)).2
      else (if drawStyle = .Filled ∨ drawStyle = .FilledAndStroked then
        (drawGraphicsPath path .Filled none impl).2 else impl)) := by
  have h1 : Impl.DrawFrame impl (if drawStyle = .Filled ∨ drawStyle = .FilledAndStroked then
      (drawGraphicsPath path .Filled none impl).2 else impl) := by
    split
    · exact drawGraphicsPath_drawFrame _ _ _ _
    · exact Impl.DrawFrame.same impl
  split
  · exact h1.chain (drawGraphicsPath_drawFrame _ _ _ _)
  · exact h1

theorem drawOp_run_drawFrame (h : GeometryHelpers) (d : DrawOp) (impl : Impl) (r : Bool × Impl)
    (hr : d.run h impl = some r) : Impl.DrawFrame impl r.2 := by
  cases d with
  | drawLine line =>
    cases hr
    exact Impl.doInContext_drawFrame _ (ProcStep_drawLineProc h line) _ impl
  | drawLines lines =>
    cases hr
    exact Impl.doInContext_drawFrame _ (ProcStep_drawLinesProc h lines) _ impl
  | drawPolygon pathCreated pts drawStyle =>
    simp only [DrawOp.run, drawPolygon] at hr
    split at hr
    · cases hr; exact Impl.DrawFrame.same impl
    · cases hp : polygonPath pts with
      | none => rw [hp] at hr; cases hr
      | some elements =>
        rw [hp] at hr
        cases hr
        exact fillThenStroke_drawFrame _ drawStyle impl
  | drawRect rect drawStyle =>
    cases hr
    exact Impl.doInContext_drawFrame _ (ProcStep_drawRectProc rect drawStyle) _ impl
  | drawArc pathCreated rect a1 a2 drawStyle =>
    cases hr
    simp only [drawArc]
    split
    · exact Impl.DrawFrame.same impl
    · exact fillThenStroke_drawFrame _ drawStyle impl
  | drawEllipse rect drawStyle =>
    cases hr
    exact Impl.doInContext_drawFrame _ (ProcStep_drawEllipseProc h rect drawStyle) _ impl
  | drawBitmap bitmap dest offset alpha quality =>
    cases hr
    cases bitmap with
    | foreign => exact Impl.DrawFrame.same impl
    | d2d hasSource sf size deviceSize =>
      simp only [drawBitmap]
      split
      · exact Impl.DrawFrame.same impl
      · have h0 := Impl.DrawFrame.of_procStep
          (Impl.ProcStep.ofTryNative impl .GetCachedBitmap rfl)
        split
        · exact h0
        · refine h0.chain ?_
          generalize (impl.tryNative .GetCachedBitmap).2 = x0
          have h1 : Impl.DrawFrame x0 (setTransformMatrix
              (x0.state.tm * ({} : TransformMatrix).scale (1 / sf) (1 / sf)) x0) :=
            ⟨_, _, _, rfl⟩
          have h2 := Impl.doInContext_drawFrame _
            (ProcStep_drawBitmapProc h size deviceSize
              ((h.inverse (({} : TransformMatrix).scale (1 / sf) (1 / sf))).transform dest)
              offset alpha quality) {}
            (setTransformMatrix (x0.state.tm * ({} : TransformMatrix).scale (1 / sf) (1 / sf))
              x0)
          exact (h1.chain h2).chain ⟨_, _, _, rfl⟩
  | drawGraphicsPath path mode transformation =>
    cases hr
    exact drawGraphicsPath_drawFrame _ _ _ _
  | fillLinearGradient path gradient p0 p1 evenOdd transformation =>
    cases hr
    cases path with
    | foreign => exact Impl.DrawFrame.same impl
    | d2d elements =>
      cases gradient with
      | foreign => exact Impl.DrawFrame.same impl
      | d2d =>
        exact Impl.doInContext_drawFrame _
          (ProcStep_fillLinearGradientProc elements p0 p1 transformation) _ impl
  | fillRadialGradient path gradient center radius originOffset evenOdd transformation =>
    cases hr
    cases path with
    | foreign => exact Impl.DrawFrame.same impl
    | d2d elements =>
      cases gradient with
      | foreign => exact Impl.DrawFrame.same impl
      | d2d =>
        exact Impl.doInContext_drawFrame _
          (ProcStep_fillRadialGradientProc elements center radius originOffset transformation)
          _ impl
  | drawTextLayout pos color antialias =>
    cases hr
    exact Impl.doInContext_drawFrame _ (ProcStep_drawTextLayoutProc h pos color antialias)
      _ impl

theorem op_run_session (h : GeometryHelpers) (ndebug : Bool) (op : Op) (impl impl1 : Impl)
    (hr : op.run h ndebug impl = some impl1) :
    impl1.beginDrawCalled = sessionOpen impl.beginDrawCalled [op] := by
  cases op with
  | setter s =>
    cases hr
    rw [setter_run_frame]
    rfl
  | saveGlobalState => cases hr; rfl
  | restoreGlobalState =>
    simp only [Op.run, restoreGlobalState] at hr
    split at hr
    · split at hr
      · cases hr; rfl
      · cases hr
    · cases hr; rfl
  | draw d =>
    simp only [Op.run, Option.map_eq_some'] at hr
    obtain ⟨r, hr1, hr2⟩ := hr
    obtain ⟨st, ac, dc, e⟩ := drawOp_run_drawFrame h d impl r hr1
    rw [← hr2, e]
    rfl
  | clearRect rect => cases hr; rfl
  | drawPoint point color => cases hr; rfl
  | beginDraw => cases hr; rfl
  | endDraw =>
    simp only [Op.run, endDraw_eq] at hr
    split at hr
    · cases hr
    · cases hr
      rfl

theorem runOps_session (h : GeometryHelpers) (ndebug : Bool) (ops : List Op)
    (impl impl1 : Impl) (hr : runOps h ndebug ops impl = some impl1) :
    impl1.beginDrawCalled = sessionOpen impl.beginDrawCalled ops := by
  induction ops generalizing impl with
  | nil => cases hr; rfl
  | cons op ops ih =>
    simp only [runOps, Option.bind_eq_some] at hr
    obtain ⟨mid, h1, h2⟩ := hr
    rw [ih mid h2, op_run_session h ndebug op impl mid h1]
    cases op <;> rfl

/-- C12, the claim as stated fails: in a build without `NDEBUG`, on a device whose native
`EndDraw` reports a failure, `endDraw` after `beginDraw` stops at the assertion of line 376
and returns nothing. With `NDEBUG` the same session returns, having issued the `EndDraw`. -/
theorem C12_counterexample_failing_EndDraw_asserts :
    endDraw false
      (beginDraw (Impl.create { transform := {}, calls := [], hresults := [false] } {})).2
      = none ∧
    runOps GeometryHelpers.plain false [.beginDraw, .endDraw]
      (Impl.create { transform := {}, calls := [], hresults := [false] } {}) = none ∧
    (runOps GeometryHelpers.plain true [.beginDraw, .endDraw]
      (Impl.create { transform := {}, calls := [], hresults := [false] } {})).map
        (fun i => i.deviceContext.calls) = some [.BeginDraw, .EndDraw] := by
  decide!

/-- C12, amended: with `NDEBUG` set, for every context state `x`, `endDraw` returns success,
having popped the plain clip exactly when `applyClip` is not empty and before the native
`EndDraw`, and issued the native `EndDraw` exactly when the begin flag is set; it leaves
`applyClip` empty and the flag cleared and changes nothing else. Without `NDEBUG` it stops at
the assertion of line 376 exactly when the flag is set and the native `EndDraw` reports a
failure, and otherwise returns as with `NDEBUG`. Whenever it returns, the result is
success, `applyClip` is empty and the flag is cleared; a second `endDraw` in a row returns in
every build and issues no call at all. In a context reached from a new one the flag is set
exactly when `beginDraw` has been called since the last `endDraw`, so an `endDraw` without
such a `beginDraw` returns in every build and issues no native `EndDraw`. -/
theorem C12_endDraw_session (x : Impl) (h : GeometryHelpers) (ndebug : Bool) (ops : List Op)
    (deviceContext : ID2D1DeviceContext) (tm : TransformMatrix) (impl : Impl)
    (hr : runOps h ndebug ops (Impl.create deviceContext tm) = some impl) :
    endDraw true x = some (true, { x with
      applyClip := {}
      beginDrawCalled := false
      deviceContext :=
        ⟨x.deviceContext.transform,
          x.deviceContext.calls ++
            (if x.applyClip.isEmpty = false then [.PopAxisAlignedClip] else []) ++
            (if x.beginDrawCalled = true then [.EndDraw] else []),
          if x.beginDrawCalled = true then x.deviceContext.hresults.tail
          else x.deviceContext.hresults⟩ }) ∧
    endDraw false x =
      (if x.beginDrawCalled = true ∧ (List.head? x.deviceContext.hresults).getD true = false
        then none else endDraw true x) ∧
    (∀ r, endDraw ndebug x = some r →
      r.1 = true ∧ r.2.applyClip.isEmpty = true ∧ r.2.beginDrawCalled = false) ∧
    (endDraw true x).bind (fun r => endDraw ndebug r.2) = endDraw true x ∧
    impl.beginDrawCalled = sessionOpen false ops ∧
    (sessionOpen false ops = true ∨
      endDraw ndebug impl = some (true, { impl with
        applyClip := {}
        deviceContext := { impl.deviceContext with
          calls := impl.deviceContext.calls ++
            (if impl.applyClip.isEmpty = false then [.PopAxisAlignedClip] else []) } })) := by
  have hs : impl.beginDrawCalled = sessionOpen false ops :=
    runOps_session h ndebug ops _ impl hr
  have he : (({} : CRect).isEmpty = false) = False := by decide
  refine ⟨?_, ?_, ?_, ?_, hs, ?_⟩
  · rw [endDraw_eq]
    simp
  · rw [endDraw_eq false, endDraw_eq true]
    simp
  · intro r hr2
    rw [endDraw_eq] at hr2
    split at hr2
    · cases hr2
    · cases hr2
      exact ⟨rfl, rfl, rfl⟩
  · rw [endDraw_eq true x]
    simp [endDraw_eq ndebug, he]
  · by_cases hso : sessionOpen false ops = true
    · exact Or.inl hso
    · right
      rw [← hs] at hso
      have hf : impl.beginDrawCalled = false := by simpa using hso
      rw [endDraw_eq]
      obtain ⟨st, stack, sf, ac, bd, gtm, dc⟩ := impl
      simp only at hf
      subst hf
      simp

/-- C12 amended, an instance: a session in a build without `NDEBUG` that calls `endDraw`
first, then `beginDraw`, and draws, returns with the session open and the flag set. -/
theorem C12_endDraw_session_witness :
    runOps GeometryHelpers.plain false openSession (Impl.create freshDevice {})
      = some ((runOps GeometryHelpers.plain false openSession (Impl.create freshDevice {})).getD
          (Impl.create freshDevice {})) ∧
    sessionOpen false openSession = true ∧
    ((runOps GeometryHelpers.plain false openSession (Impl.create freshDevice {})).getD
      (Impl.create freshDevice {})).beginDrawCalled = sessionOpen false openSession :=
  ⟨by decide!, by decide, (C12_endDraw_session (Impl.create freshDevice {})
    GeometryHelpers.plain false openSession freshDevice {} _ (by decide!)).2.2.2.2.1⟩

/-! ### The rectangles handed to the native calls (C11) -/

theorem NativeCall.not_rectangle_of_compositionCall (c : NativeCall)
    (hc : c.isCompositionCall = true) :
    c.isDrawRectangle = false ∧ c.isFillRectangle = false := by
  cases c <;> simp_all [NativeCall.isCompositionCall, NativeCall.isDrawRectangle,
    NativeCall.isFillRectangle]

theorem NativeCall.filter_rectangles_of_compositionCalls (added : List NativeCall)
    (hq : ∀ c ∈ added, c.isCompositionCall = true) :
    added.filter NativeCall.isDrawRectangle = [] ∧
    added.filter NativeCall.isFillRectangle = [] := by
  constructor
  · rw [List.filter_eq_nil_iff]
    intro c hc
    simp [(NativeCall.not_rectangle_of_compositionCall c (hq c hc)).1]
  · rw [List.filter_eq_nil_iff]
    intro c hc
    simp [(NativeCall.not_rectangle_of_compositionCall c (hq c hc)).2]

/-- The calls of a composition with a non-empty logical clip: composition calls, the calls
of the callback on a context with the Draw State of the caller, composition calls. -/
theorem Impl.doInContext_calls (p : Impl → Impl) (off : CPoint) (impl : Impl)
    (hclip : impl.state.clip.isEmpty = false) :
    ∃ pre post e, (∀ c ∈ pre, c.isCompositionCall = true) ∧
      (∀ c ∈ post, c.isCompositionCall = true) ∧ e.state = impl.state ∧
      e.deviceContext.calls = impl.deviceContext.calls ++ pre ∧
      (impl.doInContext p off).deviceContext.calls = (p e).deviceContext.calls ++ post := by
  have hclip2 : ¬ impl.state.clip.isEmpty = true := by simp [hclip]
  obtain ⟨ac, t, pre, hr, he, hpre⟩ := Impl.CompositionStep.of_enterContext off impl
  obtain ⟨ac2, t2, post, hr2, hl, hpost⟩ := Impl.CompositionStep.of_leaveContext
    (impl.enterContext off).1 impl.deviceContext.transform (p (impl.enterContext off).2)
  refine ⟨pre, post, (impl.enterContext off).2, hpre, hpost, ?_, ?_, ?_⟩
  · rw [he]
  · rw [he]
  · rw [Impl.doInContext_eq, if_neg hclip2, hl]

/-- The frame brush and the stroke style are resolved by creation calls only, and the line
width stays. -/
theorem Impl.applyFrameColor_applyLineStyle_calls (x : Impl) :
    ∃ added, x.applyFrameColor.applyLineStyle.deviceContext.calls
        = x.deviceContext.calls ++ added ∧
      added.filter NativeCall.isDrawRectangle = [] ∧
      added.filter NativeCall.isFillRectangle = [] ∧
      x.applyFrameColor.applyLineStyle.state.lineWidth = x.state.lineWidth := by
  cases hf : x.state.frameBrush <;> cases hs : x.state.strokeStyle <;>
    simp [Impl.applyFrameColor, Impl.applyLineStyle, hf, hs, Impl.tryNative, Impl.native,
      ID2D1DeviceContext.tryCall_eq, ID2D1DeviceContext.call, NativeCall.isDrawRectangle,
      NativeCall.isFillRectangle]

/-- The fill brush is resolved by a creation call only. -/
theorem Impl.applyFillColor_calls (x : Impl) :
    ∃ added, x.applyFillColor.deviceContext.calls = x.deviceContext.calls ++ added ∧
      added.filter NativeCall.isDrawRectangle = [] ∧
      added.filter NativeCall.isFillRectangle = [] := by
  cases hf : x.state.fillBrush <;>
    simp [Impl.applyFillColor, hf, Impl.tryNative, Impl.native,
      ID2D1DeviceContext.tryCall_eq, ID2D1DeviceContext.call, NativeCall.isDrawRectangle,
      NativeCall.isFillRectangle]

/-- C11: with a non-empty logical clip, `drawRect` with the style `Stroked` issues exactly one
native stroked-rectangle call, whose rectangle is `{l, t, r - 1, b - 1}` translated by the
pixel offset of the line width (`lineWidthTransformMatrixOffset`) and whose width is the line
width, and no filled-rectangle call; with the style `Filled` it issues exactly one native
filled-rectangle call, for the unmodified rectangle, and no stroked-rectangle call. The
rectangle `{0, 0, 10, 10}` is reduced to `{0, 0, 9, 9}`. -/
theorem C11_drawRect_rectangles (rect : CRect) (impl : Impl)
    (hclip : impl.state.clip.isEmpty = false) :
    (∃ brush stroke,
      (drawRect rect .Stroked impl).2.deviceContext.calls.filter NativeCall.isDrawRectangle
        = impl.deviceContext.calls.filter NativeCall.isDrawRectangle ++
          [.DrawRectangle
            (CRect.offset { rect with right := rect.right - 1, bottom := rect.bottom - 1 }
              impl.lineWidthTransformMatrixOffset)
            brush impl.state.lineWidth stroke]) ∧
    (drawRect rect .Stroked impl).2.deviceContext.calls.filter NativeCall.isFillRectangle
      = impl.deviceContext.calls.filter NativeCall.isFillRectangle ∧
    (∃ brush,
      (drawRect rect .Filled impl).2.deviceContext.calls.filter NativeCall.isFillRectangle
        = impl.deviceContext.calls.filter NativeCall.isFillRectangle ++
          [.FillRectangle rect brush]) ∧
    (drawRect rect .Filled impl).2.deviceContext.calls.filter NativeCall.isDrawRectangle
      = impl.deviceContext.calls.filter NativeCall.isDrawRectangle ∧
    ({ rect10 with right := rect10.right - 1, bottom := rect10.bottom - 1 } : CRect)
      = { left := 0, top := 0, right := 9, bottom := 9 } := by
  obtain ⟨pre, post, e, hpre, hpost, hst, hcalls, hdo⟩ :=
    Impl.doInContext_calls (drawRectProc rect .Stroked) {} impl hclip
  obtain ⟨pre2, post2, e2, hpre2, hpost2, hst2, hcalls2, hdo2⟩ :=
    Impl.doInContext_calls (drawRectProc rect .Filled) {} impl hclip
  obtain ⟨a1, a2⟩ := NativeCall.filter_rectangles_of_compositionCalls pre hpre
  obtain ⟨b1, b2⟩ := NativeCall.filter_rectangles_of_compositionCalls post hpost
  obtain ⟨c1, c2⟩ := NativeCall.filter_rectangles_of_compositionCalls pre2 hpre2
  obtain ⟨d1, d2⟩ := NativeCall.filter_rectangles_of_compositionCalls post2 hpost2
  obtain ⟨added, hadd, f1, f2, hlw⟩ := Impl.applyFrameColor_applyLineStyle_calls e
  obtain ⟨added2, hadd2, g1, g2⟩ := Impl.applyFillColor_calls e2
  have hoff : e.lineWidthTransformMatrixOffset = impl.lineWidthTransformMatrixOffset := by
    simp only [Impl.lineWidthTransformMatrixOffset, hst]
  have hstroke : (drawRectProc rect .Stroked e).deviceContext.calls
      = impl.deviceContext.calls ++ pre ++ added ++
        [.DrawRectangle
          (CRect.offset { rect with right := rect.right - 1, bottom := rect.bottom - 1 }
              impl.lineWidthTransformMatrixOffset)
          e.applyFrameColor.applyLineStyle.state.frameBrush impl.state.lineWidth
          e.applyFrameColor.applyLineStyle.state.strokeStyle] := by
    simp [drawRectProc, Impl.native, ID2D1DeviceContext.call, hadd, hcalls, hoff, hlw, hst]
  have hfill : (drawRectProc rect .Filled e2).deviceContext.calls
      = impl.deviceContext.calls ++ pre2 ++ added2 ++
        [.FillRectangle rect e2.applyFillColor.state.fillBrush] := by
    simp [drawRectProc, Impl.native, ID2D1DeviceContext.call, hadd2, hcalls2]
  refine ⟨⟨e.applyFrameColor.applyLineStyle.state.frameBrush,
    e.applyFrameColor.applyLineStyle.state.strokeStyle, ?_⟩, ?_,
    ⟨e2.applyFillColor.state.fillBrush, ?_⟩, ?_, by decide!⟩
  · simp only [drawRect]
    rw [hdo, hstroke]
    simp [List.filter_append, a1, b1, f1, NativeCall.isDrawRectangle]
  · simp only [drawRect]
    rw [hdo, hstroke]
    simp [List.filter_append, a2, b2, f2, NativeCall.isFillRectangle]
  · simp only [drawRect]
    rw [hdo2, hfill]
    simp [List.filter_append, c2, d2, g2, NativeCall.isFillRectangle]
  · simp only [drawRect]
    rw [hdo2, hfill]
    simp [List.filter_append, c1, d1, g1, NativeCall.isDrawRectangle]

/-- C11, an instance: the stroked `{0, 0, 10, 10}` at line width 1 under the clip
`{0, 0, 10, 10}` reaches the device as `{0.5, 0.5, 9.5, 9.5}`. -/
theorem C11_drawRect_rectangles_witness :
    clippedContext.state.clip.isEmpty = false ∧
    (∃ brush stroke,
      (drawRect rect10 .Stroked clippedContext).2.deviceContext.calls.filter
          NativeCall.isDrawRectangle
        = clippedContext.deviceContext.calls.filter NativeCall.isDrawRectangle ++
          [.DrawRectangle
            (CRect.offset { rect10 with right := rect10.right - 1, bottom := rect10.bottom - 1 }
              clippedContext.lineWidthTransformMatrixOffset)
            brush clippedContext.state.lineWidth stroke]) ∧
    CRect.offset { rect10 with right := rect10.right - 1, bottom := rect10.bottom - 1 }
        clippedContext.lineWidthTransformMatrixOffset
      = { left := 1 / 2, top := 1 / 2, right := 19 / 2, bottom := 19 / 2 } :=
  ⟨by decide!, (C11_drawRect_rectangles rect10 clippedContext (by decide!)).1, by decide!⟩

/-! ### The device registry (C15) -/

theorem earliestAdded_mem (regs : List (Nat × D2DGraphicsDevice)) (b : Nat × D2DGraphicsDevice)
    (hb : earliestAdded regs = some b) : b ∈ regs := by
  induction regs generalizing b with
  | nil => cases hb
  | cons r rs ih =>
    simp only [earliestAdded] at hb
    cases he : earliestAdded rs with
    | none =>
      rw [he] at hb
      cases hb
      exact List.mem_cons_self _ _
    | some c =>
      rw [he] at hb
      simp only at hb
      split at hb
      · cases hb
        exact List.mem_cons_of_mem _ (ih _ he)
      · cases hb
        exact List.mem_cons_self _ _

/-- In a list of registrations in the order of their times, the earliest is the first. -/
theorem earliestAdded_of_ordered (regs : List (Nat × D2DGraphicsDevice))
    (ho : regs.Pairwise fun a b => a.1 < b.1) : earliestAdded regs = regs.head? := by
  cases regs with
  | nil => rfl
  | cons r rs =>
    simp only [earliestAdded, List.head?_cons]
    cases he : earliestAdded rs with
    | none => rfl
    | some c =>
      have hc := earliestAdded_mem rs c he
      have hlt := (List.pairwise_cons.1 ho).1 c hc
      simp only
      rw [if_neg (by omega)]

theorem erase_map_snd (regs : List (Nat × D2DGraphicsDevice)) (device : D2DGraphicsDevice) :
    (regs.eraseP fun r => r.2 == device).map Prod.snd = (regs.map Prod.snd).erase device := by
  induction regs with
  | nil => rfl
  | cons r rs ih =>
    by_cases hr : r.2 = device
    · simp [List.eraseP_cons, hr]
    · have hne : (r.2 == device) = false := by simpa using hr
      simp [List.eraseP_cons, List.erase_cons, hne, ih]

/-- The registry of the code holds the devices of the registrations in force, in the order
of their times. -/
theorem runRegistry_registrations (ops : List RegistryOp) (time : Nat)
    (regs : List (Nat × D2DGraphicsDevice)) (f : D2DGraphicsDeviceFactory)
    (hf : f.devices = regs.map Prod.snd) (ho : regs.Pairwise fun a b => a.1 < b.1)
    (ht : ∀ r ∈ regs, r.1 < time) :
    (runRegistry ops f).devices = (registrations time regs ops).map Prod.snd ∧
    (registrations time regs ops).Pairwise fun a b => a.1 < b.1 := by
  induction ops generalizing time regs f with
  | nil => exact ⟨hf, ho⟩
  | cons op ops ih =>
    cases op with
    | addDevice device =>
      simp only [runRegistry, registrations, RegistryOp.run]
      apply ih
      · simp [D2DGraphicsDeviceFactory.addDevice, hf]
      · rw [List.pairwise_append]
        refine ⟨ho, List.pairwise_singleton _ _, ?_⟩
        intro a ha b hb
        simp only [List.mem_singleton] at hb
        rw [hb]
        exact ht a ha
      · intro r hr
        rcases List.mem_append.1 hr with hr | hr
        · have := ht r hr; omega
        · simp only [List.mem_singleton] at hr
          rw [hr]; simp
    | removeDevice device =>
      simp only [runRegistry, registrations, RegistryOp.run]
      apply ih
      · simp [D2DGraphicsDeviceFactory.removeDevice, hf, erase_map_snd]
      · exact ho.sublist (List.eraseP_sublist _)
      · intro r hr
        have := ht r (List.mem_of_mem_eraseP hr)
        omega

theorem D2DGraphicsDeviceFactory.getDeviceForScreen_eq (f : D2DGraphicsDeviceFactory)
    (screen : Nat) : f.getDeviceForScreen screen = f.devices.head? := by
  unfold D2DGraphicsDeviceFactory.getDeviceForScreen
  cases f.devices <;> rfl

/-- C15: for the registry produced from the empty one by any sequence of `addDevice` and
`removeDevice` calls and for every screen identifier, `getDeviceForScreen` returns null
exactly when no registration is in force, and otherwise the device of the earliest-added
registration in force, whatever the identifier; `removeDevice` of a device that is not in
the registry leaves the registry as it is (and otherwise removes one entry of it). -/
theorem C15_registry_lookup (ops : List RegistryOp) (screen screen2 : Nat)
    (device : D2DGraphicsDevice) :
    ((runRegistry ops {}).getDeviceForScreen screen = none ↔ registrations 0 [] ops = []) ∧
    (runRegistry ops {}).getDeviceForScreen screen
      = (earliestAdded (registrations 0 [] ops)).map Prod.snd ∧
    (runRegistry ops {}).getDeviceForScreen screen2
      = (runRegistry ops {}).getDeviceForScreen screen ∧
    (runRegistry ops {}).devices = (registrations 0 [] ops).map Prod.snd ∧
    (runRegistry ops {}).removeDevice device
      = (if device ∈ (runRegistry ops {}).devices then
          { devices := (runRegistry ops {}).devices.erase device }
        else runRegistry ops {}) := by
  obtain ⟨hdev, hord⟩ := runRegistry_registrations ops 0 [] {} rfl List.Pairwise.nil
    (fun r hr => by cases hr)
  refine ⟨?_, ?_, ?_, hdev, ?_⟩
  · rw [D2DGraphicsDeviceFactory.getDeviceForScreen_eq, hdev]
    cases registrations 0 [] ops <;> simp
  · rw [D2DGraphicsDeviceFactory.getDeviceForScreen_eq, hdev,
      earliestAdded_of_ordered _ hord]
    cases registrations 0 [] ops <;> rfl
  · rw [D2DGraphicsDeviceFactory.getDeviceForScreen_eq,
      D2DGraphicsDeviceFactory.getDeviceForScreen_eq]
  · split
    · rfl
    · rename_i hmem
      simp only [D2DGraphicsDeviceFactory.removeDevice, List.erase_of_not_mem hmem]

/-! ### The path of a polygon (C16) -/

/-- The loop of `drawPolygon` over the indices after a prefix reads every point of the rest,
in order, inside the bounds of the list. -/
theorem polygonLines_eq (pre rest : List CPoint) :
    (List.range' pre.length rest.length).mapM
        (fun i => ((pre ++ rest)[i]?).map PathElement.addLine)
      = some (rest.map PathElement.addLine) := by
  induction rest generalizing pre with
  | nil => rfl
  | cons p ps ih =>
    have h1 : (pre ++ p :: ps)[pre.length]? = some p := by
      rw [List.getElem?_append_right (Nat.le_refl _)]
      simp
    have h2 := ih (pre ++ [p])
    simp only [List.length_append, List.length_singleton, List.append_assoc,
      List.singleton_append] at h2
    simp only [List.length_cons, List.range'_succ, List.mapM_cons, h1, Option.map_some', h2,
      List.map_cons]
    rfl

theorem polygonPath_cons (p0 : CPoint) (rest : List CPoint)
    (hlen : (p0 :: rest).length < 4294967296) :
    polygonPath (p0 :: rest)
      = some (PathElement.beginSubpath p0 :: rest.map PathElement.addLine) := by
  have h := polygonLines_eq [p0] rest
  simp only [List.length_singleton, List.singleton_append] at h
  have hnot : ¬ 4294967296 ≤ rest.length + 1 := by
    simp only [List.length_cons] at hlen
    omega
  simp only [polygonPath, List.getElem?_cons_zero, List.length_cons,
    Nat.add_sub_cancel, h, Option.map_some', if_neg hnot]

/-- The polygon of a list of fewer than `2 ^ 32` points: the path is a move to the first
point followed by a line to each further point in order, every index being inside the list;
the path is filled when the style is `Filled` or `FilledAndStroked`, then stroked when the
style is `Stroked` or `FilledAndStroked`, and the call returns success. Without a path from
the factory the call returns failure and does nothing; on an empty list it reads a point
that does not exist. -/
theorem drawPolygon_of_short_list (p0 : CPoint) (rest : List CPoint)
    (drawStyle : PlatformGraphicsDrawStyle) (impl : Impl)
    (hlen : (p0 :: rest).length < 4294967296) :
    polygonPath (p0 :: rest)
      = some (PathElement.beginSubpath p0 :: rest.map PathElement.addLine) ∧
    drawPolygon true (p0 :: rest) drawStyle impl = some (true,
      if drawStyle = .Stroked ∨ drawStyle = .FilledAndStroked then
        (drawGraphicsPath (.d2d (PathElement.beginSubpath p0 :: rest.map PathElement.addLine))
          .Stroked none
          (if drawStyle = .Filled ∨ drawStyle = .FilledAndStroked then
            (drawGraphicsPath
              (.d2d (PathElement.beginSubpath p0 :: rest.map PathElement.addLine))
              .Filled none impl).2 else impl)).2
      else (if drawStyle = .Filled ∨ drawStyle = .FilledAndStroked then
        (drawGraphicsPath (.d2d (PathElement.beginSubpath p0 :: rest.map PathElement.addLine))
          .Filled none impl).2 else impl)) ∧
    drawPolygon false (p0 :: rest) drawStyle impl = some (false, impl) ∧
    drawPolygon true [] drawStyle impl = none := by
  have hp := polygonPath_cons p0 rest hlen
  refine ⟨hp, ?_, rfl, rfl⟩
  simp only [drawPolygon, hp, Option.map_some', Bool.true_eq_false, if_false]

/-- The hypothesis of `drawPolygon_of_short_list` at a triangle. -/
theorem drawPolygon_of_short_list_witness :
    ([({} : CPoint), { x := 4, y := 0 }, { x := 0, y := 3 }]).length < 4294967296 ∧
    polygonPath [{}, { x := 4, y := 0 }, { x := 0, y := 3 }]
      = some [.beginSubpath {}, .addLine { x := 4, y := 0 }, .addLine { x := 0, y := 3 }] :=
  ⟨by decide, (drawPolygon_of_short_list {} [{ x := 4, y := 0 }, { x := 0, y := 3 }] .Filled
    (Impl.create freshDevice {}) (by decide)).1⟩

theorem drawPolygon_of_huge_list (pts : List CPoint) (p0 : CPoint)
    (drawStyle : PlatformGraphicsDrawStyle) (impl : Impl) (h0 : pts[0]? = some p0)
    (hle : 4294967296 ≤ pts.length) : drawPolygon true pts drawStyle impl = none := by
  have hp : polygonPath pts = none := by
    unfold polygonPath
    rw [h0]
    simp only [if_pos hle]
  simp only [drawPolygon, hp, Option.map_none', Bool.true_eq_false, if_false]

/-- C16 (defect of the code): the loop of `drawPolygon` counts with a 32-bit `i` against the
size of the list; on a list of `2 ^ 32` points the counter wraps before it reaches the size,
so the call never returns, although the list is not empty and the path was created. -/
theorem C16_polygon_counter_wraps :
    (List.replicate 4294967296 ({} : CPoint)).length = 4294967296 ∧
    (List.replicate 4294967296 ({} : CPoint))[0]? = some ({} : CPoint) ∧
    drawPolygon true (List.replicate 4294967296 ({} : CPoint)) .Filled
      (Impl.create freshDevice {}) = none := by
  have h0 : (List.replicate 4294967296 ({} : CPoint))[0]? = some ({} : CPoint) := by
    rw [List.getElem?_replicate, if_pos (by decide)]
  have hle : 4294967296 ≤ (List.replicate 4294967296 ({} : CPoint)).length := by
    rw [List.length_replicate]
  exact ⟨List.length_replicate _ _, h0, drawPolygon_of_huge_list _ _ _ _ h0 hle⟩

/-! ### Layers around the draw calls (C9) -/

theorem Impl.clipTracked_of_eq (x y : Impl) (ha : y.applyClip = x.applyClip)
    (hb : y.deviceContext.pushClipCount = x.deviceContext.pushClipCount)
    (hc : y.deviceContext.popClipCount = x.deviceContext.popClipCount)
    (hx : x.clipTracked) : y.clipTracked := by
  unfold Impl.clipTracked at hx ⊢
  rw [ha, hb, hc]
  exact hx

theorem Impl.ProcStep.keepsClipTracked {x y : Impl} (hs : Impl.ProcStep x y) (hx : x.clipTracked) :
    y.clipTracked := by
  obtain ⟨st, dc, e⟩ := hs.frame
  have hc := hs.counts
  refine Impl.clipTracked_of_eq x y ?_ hc.1 hc.2.1 hx
  rw [e]

theorem Impl.ClipTransition.keepsTracked {x y : Impl} (ht : Impl.ClipTransition x y)
    (hx : x.clipTracked) : y.clipTracked := by
  rcases ht with ⟨a, b, c⟩ | ⟨_, a, b, c⟩
  · exact Impl.clipTracked_of_eq x y a b c hx
  · unfold Impl.clipTracked at hx ⊢
    rw [a, b, c]
    by_cases h1 : x.applyClip.isEmpty = true <;> by_cases h2 : x.deviceClip.isEmpty = true <;>
      simp only [h1, h2, if_true, if_false, Bool.false_eq_true] at hx ⊢ <;> omega

theorem Impl.pushClipLayer_clipTracked (x : Impl) (hx : x.clipTracked) :
    x.pushClipLayer.2.clipTracked := by
  unfold Impl.clipTracked at hx ⊢
  unfold Impl.pushClipLayer
  by_cases hg : (List.head? x.deviceContext.hresults).getD true = true <;>
    by_cases h1 : x.applyClip.isEmpty = true <;>
    by_cases h2 : x.state.clip.isEmpty = true <;>
    simp [hg, h1, h2, Impl.native, Impl.tryNative, ID2D1DeviceContext.tryCall_eq,
      ID2D1DeviceContext.call, ID2D1DeviceContext.pushClipCount,
      ID2D1DeviceContext.popClipCount, List.countP_append, List.count_append,
      List.countP_cons, List.count_cons, NativeCall.isPushAxisAlignedClip] at hx ⊢ <;>
    omega

theorem Impl.enterContext_clipTracked (off : CPoint) (x : Impl) (hx : x.clipTracked) :
    (x.enterContext off).2.clipTracked := by
  have h0 : ({ x with deviceContext := (TransformGuard.create x.deviceContext).2 } :
      Impl).clipTracked := by
    refine Impl.clipTracked_of_eq x _ rfl ?_ ?_ hx
    · simp [TransformGuard.create, ID2D1DeviceContext.call, ID2D1DeviceContext.pushClipCount,
        List.countP_append, List.countP_cons, NativeCall.isPushAxisAlignedClip]
    · simp [TransformGuard.create, ID2D1DeviceContext.call, ID2D1DeviceContext.popClipCount,
        List.count_append, List.count_cons]
  have hset : ∀ (y : Impl) (t : TransformMatrix), y.clipTracked →
      ({ y with deviceContext := y.deviceContext.SetTransform t } : Impl).clipTracked := by
    intro y t hy
    refine Impl.clipTracked_of_eq y _ rfl ?_ ?_ hy
    · simp [ID2D1DeviceContext.SetTransform, ID2D1DeviceContext.call,
        ID2D1DeviceContext.pushClipCount, List.countP_append, List.countP_cons,
        NativeCall.isPushAxisAlignedClip]
    · simp [ID2D1DeviceContext.SetTransform, ID2D1DeviceContext.call,
        ID2D1DeviceContext.popClipCount, List.count_append, List.count_cons]
  unfold Impl.enterContext
  simp only
  refine hset _ _ ?_
  generalize ({ x with deviceContext := (TransformGuard.create x.deviceContext).2 } : Impl) = x0
    at h0 ⊢
  split
  · have hl := Impl.pushClipLayer_clipTracked x0 h0
    split
    · exact (Impl.pushAxisAlignedClip_transition _).keepsTracked hl
    · exact hl
  · simp only [if_true]
    exact (Impl.pushAxisAlignedClip_transition _).keepsTracked h0

theorem Impl.leaveContext_clipTracked (useLayer : Bool) (matrix : TransformMatrix) (x : Impl)
    (hx : x.clipTracked) : (Impl.leaveContext useLayer matrix x).clipTracked := by
  refine Impl.clipTracked_of_eq x _ ?_ ?_ ?_ hx
  · unfold Impl.leaveContext
    cases useLayer <;> rfl
  · unfold Impl.leaveContext
    cases useLayer <;>
      simp [Impl.native, ID2D1DeviceContext.SetTransform, ID2D1DeviceContext.call,
        ID2D1DeviceContext.pushClipCount, List.countP_append, List.countP_cons,
        NativeCall.isPushAxisAlignedClip]
  · unfold Impl.leaveContext
    cases useLayer <;>
      simp [Impl.native, ID2D1DeviceContext.SetTransform, ID2D1DeviceContext.call,
        ID2D1DeviceContext.popClipCount, List.count_append, List.count_cons]

theorem Impl.doInContext_clipTracked (p : Impl → Impl) (hp : ∀ x, Impl.ProcStep x (p x))
    (off : CPoint) (x : Impl) (hx : x.clipTracked) : (x.doInContext p off).clipTracked := by
  rw [Impl.doInContext_eq]
  split
  · exact hx
  · exact Impl.leaveContext_clipTracked _ _ _
      ((hp _).keepsClipTracked (Impl.enterContext_clipTracked off x hx))

/-- A property of contexts that every composition around a draw callback keeps, that every
draw callback keeps and that does not depend on the Draw State is kept by every draw call. -/
theorem drawOp_run_invariant (Q : Impl → Prop)
    (hcomp : ∀ (p : Impl → Impl) (off : CPoint) (x : Impl),
      (∀ y, Impl.ProcStep y (p y)) → Q x → Q (x.doInContext p off))
    (hproc : ∀ x y, Impl.ProcStep x y → Q x → Q y)
    (hstate : ∀ (x : Impl) (st : State), Q x → Q { x with state := st })
    (h : GeometryHelpers) (d : DrawOp) (impl : Impl) (r : Bool × Impl)
    (hr : d.run h impl = some r) (hq : Q impl) : Q r.2 := by
  have hpath : ∀ (path : IPlatformGraphicsPath) (mode : PlatformGraphicsPathDrawMode)
      (x : Impl), Q x → Q (drawGraphicsPath path mode none x).2 := by
    intro path mode x hx
    cases path with
    | foreign => exact hx
    | d2d elements => exact hcomp _ _ x (ProcStep_drawGraphicsPathProc elements mode none) hx
  have hfs : ∀ (path : IPlatformGraphicsPath) (drawStyle : PlatformGraphicsDrawStyle),
      Q (if drawStyle = .Stroked ∨ drawStyle = .FilledAndStroked then
        (drawGraphicsPath path .Stroked none
          (if drawStyle = .Filled ∨ drawStyle = .FilledAndStroked then
            (drawGraphicsPath path .Filled none impl).2 else impl)).2
      else (if drawStyle = .Filled ∨ drawStyle = .FilledAndStroked then
        (drawGraphicsPath path .Filled none impl).2 else impl)) := by
    intro path drawStyle
    have h1 : Q (if drawStyle = .Filled ∨ drawStyle = .FilledAndStroked then
        (drawGraphicsPath path .Filled none impl).2 else impl) := by
      split
      · exact hpath _ _ _ hq
      · exact hq
    split
    · exact hpath _ _ _ h1
    · exact h1
  cases d with
  | drawLine line =>
    cases hr
    exact hcomp _ _ impl (ProcStep_drawLineProc h line) hq
  | drawLines lines =>
    cases hr
    exact hcomp _ _ impl (ProcStep_drawLinesProc h lines) hq
  | drawPolygon pathCreated pts drawStyle =>
    simp only [DrawOp.run, drawPolygon] at hr
    split at hr
    · cases hr; exact hq
    · cases hp : polygonPath pts with
      | none => rw [hp] at hr; cases hr
      | some elements =>
        rw [hp] at hr
        cases hr
        exact hfs _ drawStyle
  | drawRect rect drawStyle =>
    cases hr
    exact hcomp _ _ impl (ProcStep_drawRectProc rect drawStyle) hq
  | drawArc pathCreated rect a1 a2 drawStyle =>
    cases hr
    simp only [drawArc]
    split
    · exact hq
    · exact hfs _ drawStyle
  | drawEllipse rect drawStyle =>
    cases hr
    exact hcomp _ _ impl (ProcStep_drawEllipseProc h rect drawStyle) hq
  | drawBitmap bitmap dest offset alpha quality =>
    cases hr
    cases bitmap with
    | foreign => exact hq
    | d2d hasSource sf size deviceSize =>
      simp only [drawBitmap]
      split
      · exact hq
      · have h0 := hproc _ _ (Impl.ProcStep.ofTryNative impl .GetCachedBitmap rfl) hq
        split
        · exact h0
        · exact hstate _ _ (hcomp _ _ _
            (ProcStep_drawBitmapProc h size deviceSize
              ((h.inverse (({} : TransformMatrix).scale (1 / sf) (1 / sf))).transform dest)
              offset alpha quality) (hstate _ _ h0))
  | drawGraphicsPath path mode transformation =>
    cases hr
    cases path with
    | foreign => exact hq
    | d2d elements =>
      exact hcomp _ _ impl (ProcStep_drawGraphicsPathProc elements mode transformation) hq
  | fillLinearGradient path gradient p0 p1 evenOdd transformation =>
    cases hr
    cases path with
    | foreign => exact hq
    | d2d elements =>
      cases gradient with
      | foreign => exact hq
      | d2d =>
        exact hcomp _ _ impl (ProcStep_fillLinearGradientProc elements p0 p1 transformation) hq
  | fillRadialGradient path gradient center radius originOffset evenOdd transformation =>
    cases hr
    cases path with
    | foreign => exact hq
    | d2d elements =>
      cases gradient with
      | foreign => exact hq
      | d2d =>
        exact hcomp _ _ impl
          (ProcStep_fillRadialGradientProc elements center radius originOffset transformation)
          hq
  | drawTextLayout pos color antialias =>
    cases hr
    exact hcomp _ _ impl (ProcStep_drawTextLayoutProc h pos color antialias) hq

theorem drawOp_run_clipTracked (h : GeometryHelpers) (d : DrawOp) (impl : Impl)
    (r : Bool × Impl) (hr : d.run h impl = some r) (hq : impl.clipTracked) :
    r.2.clipTracked :=
  drawOp_run_invariant Impl.clipTracked
    (fun p off x hp hx => Impl.doInContext_clipTracked p hp off x hx)
    (fun _ _ hs hx => hs.keepsClipTracked hx)
    (fun x _ hx => Impl.clipTracked_of_eq x _ rfl rfl rfl hx)
    h d impl r hr hq

theorem op_run_clipTracked (h : GeometryHelpers) (ndebug : Bool) (op : Op) (impl impl1 : Impl)
    (hr : op.run h ndebug impl = some impl1) (hq : impl.clipTracked) : impl1.clipTracked := by
  cases op with
  | setter s =>
    cases hr
    rw [setter_run_frame]
    exact Impl.clipTracked_of_eq impl _ rfl rfl rfl hq
  | saveGlobalState => cases hr; exact Impl.clipTracked_of_eq impl _ rfl rfl rfl hq
  | restoreGlobalState =>
    simp only [Op.run, restoreGlobalState] at hr
    split at hr
    · split at hr
      · cases hr; exact hq
      · cases hr
    · cases hr; exact Impl.clipTracked_of_eq impl _ rfl rfl rfl hq
  | draw d =>
    simp only [Op.run, Option.map_eq_some'] at hr
    obtain ⟨r, hr1, hr2⟩ := hr
    rw [← hr2]
    exact drawOp_run_clipTracked h d impl r hr1 hq
  | clearRect rect =>
    cases hr
    obtain ⟨a, b, c⟩ := clearRect_clip rect impl
    unfold Impl.clipTracked at hq ⊢
    rw [a, b, c]
    omega
  | drawPoint point color => cases hr; exact hq
  | beginDraw =>
    cases hr
    refine Impl.clipTracked_of_eq impl _ rfl ?_ ?_ hq
    · simp [beginDraw, Impl.native, ID2D1DeviceContext.call, ID2D1DeviceContext.pushClipCount,
        List.countP_append, List.countP_cons, NativeCall.isPushAxisAlignedClip]
    · simp [beginDraw, Impl.native, ID2D1DeviceContext.call, ID2D1DeviceContext.popClipCount,
        List.count_append, List.count_cons]
  | endDraw =>
    simp only [Op.run, endDraw_eq] at hr
    split at hr
    · cases hr
    · cases hr
      unfold Impl.clipTracked at hq ⊢
      have he : (({} : CRect).isEmpty) = true := by decide
      by_cases h1 : impl.applyClip.isEmpty = true <;>
        by_cases h2 : impl.beginDrawCalled = true <;>
        simp [h1, h2, he, ID2D1DeviceContext.pushClipCount, ID2D1DeviceContext.popClipCount,
          List.countP_append, List.count_append, List.countP_cons, List.count_cons,
          NativeCall.isPushAxisAlignedClip] at hq ⊢ <;>
        omega

theorem runOps_clipTracked (h : GeometryHelpers) (ndebug : Bool) (ops : List Op)
    (impl impl1 : Impl) (hr : runOps h ndebug ops impl = some impl1) (hq : impl.clipTracked) :
    impl1.clipTracked := by
  induction ops generalizing impl with
  | nil => cases hr; exact hq
  | cons op ops ih =>
    simp only [runOps, Option.bind_eq_some] at hr
    obtain ⟨mid, h1, h2⟩ := hr
    exact ih mid h2 (op_run_clipTracked h ndebug op impl mid h1 hq)

/-- A composition with a non-empty logical clip and a rotated effective transform, the clip
geometry being created: the calls before and after the callback, and the layer counts. -/
theorem Impl.doInContext_layer (p : Impl → Impl) (off : CPoint) (impl : Impl)
    (hp : ∀ x, Impl.ProcStep x (p x))
    (hclip : impl.state.clip.isEmpty = false)
    (hrot : Impl.hasRotation (impl.effectiveTransform impl.deviceContext.transform off) = true)
    (hgeo : impl.deviceContext.hresults.head?.getD true = true) :
    (impl.enterContext off).2.deviceContext.calls = impl.deviceContext.calls ++
        [.GetTransform, .GetFactory, .CreateRectangleGeometry impl.state.clip] ++
        (if impl.applyClip.isEmpty = false then [.PopAxisAlignedClip] else []) ++
        [.PushLayer impl.state.clip,
          .SetTransform (impl.effectiveTransform impl.deviceContext.transform off)] ∧
    (impl.doInContext p off).deviceContext.calls
      = (p (impl.enterContext off).2).deviceContext.calls ++
        [.PopLayer, .SetTransform impl.deviceContext.transform] ∧
    (impl.doInContext p off).deviceContext.pushLayerCount
      = impl.deviceContext.pushLayerCount + 1 ∧
    (impl.doInContext p off).deviceContext.popLayerCount
      = impl.deviceContext.popLayerCount + 1 := by
  have hent := Impl.enterContext_layer off impl hrot hgeo
  have hclip2 : ¬ impl.state.clip.isEmpty = true := by simp [hclip]
  have hdo : (impl.doInContext p off).deviceContext.calls
      = (p (impl.enterContext off).2).deviceContext.calls ++
        [.PopLayer, .SetTransform impl.deviceContext.transform] := by
    rw [Impl.doInContext_eq, if_neg hclip2, hent]
    simp [Impl.leaveContext, Impl.native, ID2D1DeviceContext.SetTransform,
      ID2D1DeviceContext.call]
  have hcnt := (hp (impl.enterContext off).2).counts
  have hcalls : (impl.enterContext off).2.deviceContext.calls = impl.deviceContext.calls ++
        [.GetTransform, .GetFactory, .CreateRectangleGeometry impl.state.clip] ++
        (if impl.applyClip.isEmpty = false then [.PopAxisAlignedClip] else []) ++
        [.PushLayer impl.state.clip,
          .SetTransform (impl.effectiveTransform impl.deviceContext.transform off)] := by
    rw [hent]
  refine ⟨hcalls, hdo, ?_, ?_⟩
  · have h3 := hcnt.2.2.1
    simp only [ID2D1DeviceContext.pushLayerCount] at h3 ⊢
    rw [hdo, List.countP_append, h3, hcalls]
    by_cases hac : impl.applyClip.isEmpty = false <;>
      simp [hac, List.countP_append, List.countP_cons, NativeCall.isPushLayer]
  · have h4 := hcnt.2.2.2
    simp only [ID2D1DeviceContext.popLayerCount] at h4 ⊢
    rw [hdo, List.count_append, h4, hcalls]
    by_cases hac : impl.applyClip.isEmpty = false <;>
      simp [hac, List.count_append, List.count_cons]

/-- The composition of a draw call is what the call runs: its callback is a draw callback,
its entry context is the context of the call after at most a look-up of the bitmap and a
change of the Draw State that keeps the logical clip, and the call returns the context of
that single composition, up to the Draw State. -/
theorem drawOp_run_of_composition (h : GeometryHelpers) (d : DrawOp) (impl e : Impl)
    (p : Impl → Impl) (off : CPoint) (hd : d.composition h impl = some (e, p, off)) :
    (∀ x, Impl.ProcStep x (p x)) ∧
    (∃ e0 st, Impl.ProcStep impl e0 ∧ e = { e0 with state := st } ∧
      st.clip = e0.state.clip) ∧
    ∃ b st, d.run h impl = some (b, { e.doInContext p off with state := st }) := by
  cases d with
  | drawLine line =>
    cases hd
    exact ⟨ProcStep_drawLineProc h line, ⟨impl, _, Impl.ProcStep.idle impl, rfl, rfl⟩,
      true, _, rfl⟩
  | drawLines lines =>
    cases hd
    exact ⟨ProcStep_drawLinesProc h lines, ⟨impl, _, Impl.ProcStep.idle impl, rfl, rfl⟩,
      true, _, rfl⟩
  | drawPolygon pathCreated pts drawStyle =>
    simp only [DrawOp.composition] at hd
    split at hd
    · cases hd
    · rename_i hpc
      cases hpp : polygonPath pts with
      | none => rw [hpp] at hd; cases hd
      | some elements =>
        rw [hpp] at hd
        cases drawStyle with
        | Filled =>
          cases hd
          refine ⟨ProcStep_drawGraphicsPathProc elements .Filled none,
            ⟨impl, _, Impl.ProcStep.idle impl, rfl, rfl⟩, true,
            (impl.doInContext (drawGraphicsPathProc elements .Filled none) {}).state, ?_⟩
          simp [DrawOp.run, drawPolygon, hpc, hpp, drawGraphicsPath]
        | Stroked =>
          cases hd
          refine ⟨ProcStep_drawGraphicsPathProc elements .Stroked none,
            ⟨impl, _, Impl.ProcStep.idle impl, rfl, rfl⟩, true,
            (impl.doInContext (drawGraphicsPathProc elements .Stroked none) {}).state, ?_⟩
          simp [DrawOp.run, drawPolygon, hpc, hpp, drawGraphicsPath]
        | FilledAndStroked => cases hd
  | drawRect rect drawStyle =>
    cases hd
    exact ⟨ProcStep_drawRectProc rect drawStyle, ⟨impl, _, Impl.ProcStep.idle impl, rfl, rfl⟩,
      true, _, rfl⟩
  | drawArc pathCreated rect a1 a2 drawStyle =>
    simp only [DrawOp.composition] at hd
    split at hd
    · cases hd
    · rename_i hpc
      cases drawStyle with
      | Filled =>
        cases hd
        refine ⟨ProcStep_drawGraphicsPathProc _ .Filled none,
          ⟨impl, _, Impl.ProcStep.idle impl, rfl, rfl⟩, true,
          (impl.doInContext (drawGraphicsPathProc
            [PathElement.addArc (if impl.state.drawMode.integralMode then
              h.pixelAlignRect impl.state.tm rect else rect) a1 a2 true] .Filled none)
            {}).state, ?_⟩
        simp [DrawOp.run, drawArc, hpc, drawGraphicsPath]
      | Stroked =>
        cases hd
        refine ⟨ProcStep_drawGraphicsPathProc _ .Stroked none,
          ⟨impl, _, Impl.ProcStep.idle impl, rfl, rfl⟩, true,
          (impl.doInContext (drawGraphicsPathProc
            [PathElement.addArc (if impl.state.drawMode.integralMode then
              h.pixelAlignRect impl.state.tm rect else rect) a1 a2 true] .Stroked none)
            {}).state, ?_⟩
        simp [DrawOp.run, drawArc, hpc, drawGraphicsPath]
      | FilledAndStroked => cases hd
  | drawEllipse rect drawStyle =>
    cases hd
    exact ⟨ProcStep_drawEllipseProc h rect drawStyle,
      ⟨impl, _, Impl.ProcStep.idle impl, rfl, rfl⟩, true, _, rfl⟩
  | drawBitmap bitmap dest offset alpha quality =>
    cases bitmap with
    | foreign => cases hd
    | d2d hasSource sf size deviceSize =>
      simp only [DrawOp.composition] at hd
      split at hd
      · cases hd
      · rename_i hsrc
        split at hd
        · cases hd
        · rename_i hcache
          cases hd
          refine ⟨ProcStep_drawBitmapProc h size deviceSize _ offset alpha quality,
            ⟨(impl.tryNative .GetCachedBitmap).2, _,
              Impl.ProcStep.ofTryNative impl .GetCachedBitmap rfl, rfl, rfl⟩, true,
            { ((setTransformMatrix ((impl.tryNative .GetCachedBitmap).2.state.tm *
                ({} : TransformMatrix).scale (1 / sf) (1 / sf))
                (impl.tryNative .GetCachedBitmap).2).doInContext
                (drawBitmapProc h size deviceSize
                  ((h.inverse (({} : TransformMatrix).scale (1 / sf) (1 / sf))).transform dest)
                  offset alpha quality) {}).state with
              tm := (impl.tryNative .GetCachedBitmap).2.state.tm }, ?_⟩
          simp only [DrawOp.run, drawBitmap, hsrc, hcache, if_false]
          rfl
  | drawGraphicsPath path mode transformation =>
    cases path with
    | foreign => cases hd
    | d2d elements =>
      cases hd
      exact ⟨ProcStep_drawGraphicsPathProc elements mode transformation,
        ⟨impl, _, Impl.ProcStep.idle impl, rfl, rfl⟩, true, _, rfl⟩
  | fillLinearGradient path gradient p0 p1 evenOdd transformation =>
    cases path with
    | foreign => cases hd
    | d2d elements =>
      cases gradient with
      | foreign => cases hd
      | d2d =>
        cases hd
        exact ⟨ProcStep_fillLinearGradientProc elements p0 p1 transformation,
          ⟨impl, _, Impl.ProcStep.idle impl, rfl, rfl⟩, true, _, rfl⟩
  | fillRadialGradient path gradient center radius originOffset evenOdd transformation =>
    cases path with
    | foreign => cases hd
    | d2d elements =>
      cases gradient with
      | foreign => cases hd
      | d2d =>
        cases hd
        exact ⟨ProcStep_fillRadialGradientProc elements center radius originOffset
            transformation,
          ⟨impl, _, Impl.ProcStep.idle impl, rfl, rfl⟩, true, _, rfl⟩
  | drawTextLayout pos color antialias =>
    cases hd
    exact ⟨ProcStep_drawTextLayoutProc h pos color antialias,
      ⟨impl, _, Impl.ProcStep.idle impl, rfl, rfl⟩, true, _, rfl⟩

/-- C9, the claim as stated fails, in three ways. A local transform with off-diagonal terms
under a global transform that cancels them gives an effective transform without rotation, and
the draw call pushes no layer although the clip is not empty and every creation would succeed.
Under a local quarter turn and the identity as global transform, `drawPolygon` with
`FilledAndStroked` runs the composition twice and issues two `PushLayer` and two `PopLayer`,
and the draw of a path that is not a Direct2D path returns before the composition and issues
none. -/
theorem C9_counterexample_rotation_and_layer_count :
    cancellingContext.state.clip.isEmpty = false ∧
    cancellingContext.state.tm.m12 ≠ 0 ∧ cancellingContext.state.tm.m21 ≠ 0 ∧
    cancellingContext.deviceContext.hresults = [] ∧
    (drawRect rect10 .Filled cancellingContext).2.deviceContext.pushLayerCount = 0 ∧
    (drawRect rect10 .Filled cancellingContext).2.deviceContext.popLayerCount = 0 ∧
    turnedContext.state.clip.isEmpty = false ∧
    turnedContext.state.tm.m12 ≠ 0 ∧ turnedContext.state.tm.m21 ≠ 0 ∧
    turnedContext.deviceContext.hresults = [] ∧
    ((DrawOp.drawPolygon true triangle .FilledAndStroked).run GeometryHelpers.plain
      turnedContext).map (fun r => (r.1, r.2.deviceContext.pushLayerCount,
        r.2.deviceContext.popLayerCount)) = some (true, 2, 2) ∧
    ((DrawOp.drawGraphicsPath .foreign .Filled none).run GeometryHelpers.plain
      turnedContext).map (fun r => (r.1, r.2.deviceContext.pushLayerCount,
        r.2.deviceContext.popLayerCount)) = some (false, 0, 0) := by
  decide!

/-- C9, amended: take a draw call that runs the composition exactly once (`d.composition`
gives its entry context `e`, its draw callback `p` and its transform offset), made on a
context reached from a new one, on whose device no plain clip was applied at creation, with
a non-empty logical clip, an effective transform (native × global × local, scaled and
offset) with a non-zero off-diagonal term, and the clip geometry being created. The call
returns, and its calls on the device are `GetTransform`, `GetFactory`,
`CreateRectangleGeometry`, then at most one `PopAxisAlignedClip`, which is issued whenever a
plain clip is applied on the device (more plain clips pushed than popped), then exactly one
`PushLayer` and the `SetTransform`, then the calls of the draw callback, none of which is a
clip, layer or transform call, then exactly one `PopLayer` and the `SetTransform` that
restores the transform; over the whole call the layer pushes and the layer pops each grow by
one. -/
theorem C9_rotated_effective_transform_uses_layer (h : GeometryHelpers) (ndebug : Bool)
    (ops : List Op) (deviceContext : ID2D1DeviceContext) (tm : TransformMatrix) (impl : Impl)
    (d : DrawOp) (e : Impl) (p : Impl → Impl) (off : CPoint)
    (hnew : deviceContext.pushClipCount ≤ deviceContext.popClipCount)
    (hr : runOps h ndebug ops (Impl.create deviceContext tm) = some impl)
    (hd : d.composition h impl = some (e, p, off))
    (hclip : impl.state.clip.isEmpty = false)
    (hrot : Impl.hasRotation (e.effectiveTransform e.deviceContext.transform off) = true)
    (hgeo : (List.head? e.deviceContext.hresults).getD true = true) :
    ∃ r pops added,
      d.run h impl = some r ∧
      (pops = [.PopAxisAlignedClip] ∨
        (pops = [] ∧ impl.deviceContext.pushClipCount ≤ impl.deviceContext.popClipCount)) ∧
      (∀ c ∈ added, c.isContextCall = false) ∧
      (p (e.enterContext off).2).deviceContext.calls
        = (e.enterContext off).2.deviceContext.calls ++ added ∧
      r.2.deviceContext.calls = e.deviceContext.calls ++
        [.GetTransform, .GetFactory, .CreateRectangleGeometry impl.state.clip] ++ pops ++
        [.PushLayer impl.state.clip,
          .SetTransform (e.effectiveTransform e.deviceContext.transform off)] ++
        added ++ [.PopLayer, .SetTransform impl.deviceContext.transform] ∧
      r.2.deviceContext.pushLayerCount = impl.deviceContext.pushLayerCount + 1 ∧
      r.2.deviceContext.popLayerCount = impl.deviceContext.popLayerCount + 1 := by
  obtain ⟨hp, ⟨e0, st, hstep, he, hst⟩, b, st2, hrun⟩ :=
    drawOp_run_of_composition h d impl e p off hd
  have hq0 : (Impl.create deviceContext tm).clipTracked := by
    have hempty : (({} : CRect).isEmpty) = true := by decide
    unfold Impl.clipTracked
    simp only [Impl.create, hempty, if_true]
    omega
  have hq : impl.clipTracked := runOps_clipTracked h ndebug ops _ impl hr hq0
  have hcnt := hstep.counts
  have heq : e.clipTracked := by
    rw [he]
    exact Impl.clipTracked_of_eq e0 _ rfl rfl rfl (hstep.keepsClipTracked hq)
  have hec : e.state.clip = impl.state.clip := by
    rw [he]
    exact hst.trans hstep.clip
  have het : e.deviceContext.transform = impl.deviceContext.transform := by
    rw [he]
    exact hstep.transform
  have hclip2 : e.state.clip.isEmpty = false := by rw [hec]; exact hclip
  obtain ⟨l1, l2, l3, l4⟩ := Impl.doInContext_layer p off e hp hclip2 hrot hgeo
  obtain ⟨added, hadd, hno⟩ := (hp (e.enterContext off).2).calls
  refine ⟨(b, { e.doInContext p off with state := st2 }),
    if e.applyClip.isEmpty = false then [.PopAxisAlignedClip] else [], added, hrun, ?_, hno,
    hadd, ?_, ?_, ?_⟩
  · by_cases hac : e.applyClip.isEmpty = false
    · left
      simp [hac]
    · right
      refine ⟨by simp [hac], ?_⟩
      unfold Impl.clipTracked at heq
      have hac2 : e.applyClip.isEmpty = true := by simpa using hac
      rw [hac2] at heq
      simp only [if_true] at heq
      have h1 : e.deviceContext.pushClipCount = impl.deviceContext.pushClipCount := by
        rw [he]; exact hcnt.1
      have h2 : e.deviceContext.popClipCount = impl.deviceContext.popClipCount := by
        rw [he]; exact hcnt.2.1
      omega
  · show (e.doInContext p off).deviceContext.calls = _
    rw [l2, hadd, l1, hec, het]
  · show (e.doInContext p off).deviceContext.pushLayerCount = _
    rw [l3, he]
    exact congrArg (· + 1) hcnt.2.2.1
  · show (e.doInContext p off).deviceContext.popLayerCount = _
    rw [l4, he]
    exact congrArg (· + 1) hcnt.2.2.2

/-- C9 amended, an instance: on a context reached from a new one by setting the clip, drawing
a filled rectangle, which pushes the plain clip, and setting a quarter turn as local
transform, a filled rectangle pops the plain clip, pushes the layer, fills and pops the
layer. -/
theorem C9_rotated_effective_transform_uses_layer_witness :
    freshDevice.pushClipCount ≤ freshDevice.popClipCount ∧
    runOps GeometryHelpers.plain true rotatedOps (Impl.create freshDevice {})
      = some rotatedContext ∧
    ((DrawOp.drawRect rect10 .Filled).run GeometryHelpers.plain rotatedContext).map
        (fun r => r.2.deviceContext.calls.drop rotatedContext.deviceContext.calls.length)
      = some [.GetTransform, .GetFactory, .CreateRectangleGeometry rect10,
          .PopAxisAlignedClip, .PushLayer rect10, .SetTransform quarterTurn,
          .FillRectangle rect10 (some ⟨kTransparentCColor, 1⟩), .PopLayer, .SetTransform {}] ∧
    ∃ r pops added,
      (DrawOp.drawRect rect10 .Filled).run GeometryHelpers.plain rotatedContext = some r ∧
      (pops = [.PopAxisAlignedClip] ∨
        (pops = [] ∧ rotatedContext.deviceContext.pushClipCount
          ≤ rotatedContext.deviceContext.popClipCount)) ∧
      (∀ c ∈ added, c.isContextCall = false) ∧
      (drawRectProc rect10 .Filled (rotatedContext.enterContext {}).2).deviceContext.calls
        = (rotatedContext.enterContext {}).2.deviceContext.calls ++ added ∧
      r.2.deviceContext.calls = rotatedContext.deviceContext.calls ++
        [.GetTransform, .GetFactory, .CreateRectangleGeometry rotatedContext.state.clip] ++
        pops ++
        [.PushLayer rotatedContext.state.clip,
          .SetTransform (rotatedContext.effectiveTransform
            rotatedContext.deviceContext.transform {})] ++
        added ++ [.PopLayer, .SetTransform rotatedContext.deviceContext.transform] ∧
      r.2.deviceContext.pushLayerCount = rotatedContext.deviceContext.pushLayerCount + 1 ∧
      r.2.deviceContext.popLayerCount = rotatedContext.deviceContext.popLayerCount + 1 :=
  ⟨by decide, by decide!, by decide!,
    C9_rotated_effective_transform_uses_layer GeometryHelpers.plain true rotatedOps freshDevice
      {} rotatedContext (.drawRect rect10 .Filled) rotatedContext (drawRectProc rect10 .Filled)
      {} (by decide) (by decide!) rfl (by decide!) (by decide!) (by decide!)⟩

end VSTGUI
